import Mathlib

/-!
# Static-call stubs and inline-cache call sites on x86

A shallow embedding of `hotspot/src/cpu/x86/vm/compiledIC_x86.cpp`.

Executable memory is a map from addresses to bytes.  Native instructions are
read and patched through little-endian fields at fixed offsets, as the
`NativeMovConstReg`, `NativeJump` and `NativeCall` accessors do.  Operations
that can terminate the VM return a `Result` that keeps the state reached at
the point of termination, so that "nothing was written before the failure"
can be stated.
-/

namespace HotSpot

/-! ## Build configuration -/

/-- The preprocessor and flag settings the translation unit depends on:
`lp64` selects `LP64_ONLY` over `NOT_LP64` (and `AMD64`), `assertOn` is
`ASSERT` (a diagnostic build), `traceICs` is the `TraceICs` flag. -/
structure Build where
  lp64 : Bool
  assertOn : Bool
  traceICs : Bool
deriving DecidableEq, Repr

/-- Modelled from the spec: `wordSize` (globalDefinitions is not among the
sources): the size of a machine word in bytes, 8 on LP64 and 4 otherwise. -/
def wordSize (b : Build) : Nat := if b.lp64 then 8 else 4

/-- Number of distinct addresses: `2 ^ (8 * wordSize)`. -/
def addrSpace (b : Build) : Nat := 256 ^ wordSize b

/-- The value `(address)-1`. -/
def addrMinusOne (b : Build) : Nat := addrSpace b - 1

/-- The null pointer. -/
def NULL : Nat := 0

/-! ## Fatal outcomes -/

/-- Ways the VM terminates: `guarantee` (checked in every build), `assert`
(checked in `ASSERT` builds only) and `fatal`. -/
inductive Fatal where
  | guarantee (msg : String)
  | assertion (msg : String)
  | fatal (msg : String)
deriving DecidableEq, Repr

/-- Outcome of an operation: it returned with a value, or the VM terminated
with the value reached at that point. -/
inductive Result (α : Type) where
  | returned (a : α)
  | terminated (e : Fatal) (a : α)

/-! ## Byte memory -/

/-- Memory: one byte per address (a value is taken modulo 256 when read). -/
abbrev Mem := Nat → Nat

/-- Little-endian read of `n` bytes starting at address `a`. -/
def readLE (m : Mem) (a : Nat) : Nat → Nat
  | 0 => 0
  | n + 1 => m a % 256 + 256 * readLE m (a + 1) n

/-- Little-endian store of the low `n` bytes of `v` at address `a`, as one
store. -/
def writeLE (m : Mem) (a n v : Nat) : Mem :=
  fun x => if a ≤ x ∧ x < a + n then v / 256 ^ (x - a) % 256 else m x

/-- Reading of a 32-bit field as a signed `jint`. -/
def asJint (u : Nat) : Int := if u < 2147483648 then (u : Int) else (u : Int) - 4294967296

/-- The cast `(jint) val`, as the 32-bit pattern stored in memory. -/
def toJintBits (val : Int) : Nat := (val % 4294967296).toNat

/-- Pointer plus signed offset, as an address (wrapping at the address width). -/
def addrOffset (b : Build) (base : Nat) (off : Int) : Nat :=
  (((base : Int) + off) % (addrSpace b : Int)).toNat

/-! ## Native instructions (nativeInst_x86) -/

namespace NativeMovConstReg

/-- Modelled from the spec: `NativeMovConstReg::rex_size` (nativeInst_x86 is not
among the sources): size of the REX byte in front of the opcode, 1 on AMD64
and 0 otherwise (line 88: `movq (1+1+8)`). -/
def rex_size (b : Build) : Nat := if b.lp64 then 1 else 0

/-- Modelled from the spec: `NativeMovConstReg::instruction_code` (nativeInst_x86
is not among the sources): opcode of `mov reg, imm` before the register number
is or-ed in. -/
def instruction_code : Nat := 0xB8

/-- Modelled from the spec: `NativeMovConstReg::register_mask` (nativeInst_x86 is
not among the sources): mask of the register number within the opcode byte. -/
def register_mask : Nat := 0x07

/-- Modelled from the spec: `NativeMovConstReg::data_offset` (nativeInst_x86 is
not among the sources): offset of the immediate within the instruction. -/
def data_offset (b : Build) : Nat := 1 + rex_size b

/-- Modelled from the spec: `NativeMovConstReg::instruction_size` (nativeInst_x86
is not among the sources): `movq` is 1+1+8 bytes, `movl` 1+4 (lines 87-88). -/
def instruction_size (b : Build) : Nat := 1 + rex_size b + wordSize b

/-- Modelled from the spec: `NativeMovConstReg::next_instruction_address`
(nativeInst_x86 is not among the sources): the address right after the
instruction at `self`. -/
def next_instruction_address (b : Build) (self : Nat) : Nat := self + instruction_size b

/-- Modelled from the spec: `NativeMovConstReg::verify` (nativeInst_x86 is not
among the sources).  The bytes at `self` are a `mov reg, imm` of word width: on
AMD64 a REX.W or REX.WB byte followed by `0xB8 | reg`, otherwise `0xB8 | reg`. -/
def verify (b : Build) (m : Mem) (self : Nat) : Bool :=
  if b.lp64 then
    (m self % 256 == 0x48 || m self % 256 == 0x49) &&
      ((m (self + 1) % 256) &&& (0xFF ^^^ register_mask) == instruction_code)
  else
    ((m self % 256) &&& (0xFF ^^^ register_mask) == instruction_code)

/-- Modelled from the spec: `NativeMovConstReg::data` (nativeInst_x86 is not
among the sources): the stub's embedded callee-identifier, a word-sized
immediate read at `data_offset`. -/
def data (b : Build) (m : Mem) (self : Nat) : Nat :=
  readLE m (self + data_offset b) (wordSize b)

end NativeMovConstReg

namespace NativeJump

/-- Modelled from the spec: `NativeJump::instruction_code` (nativeInst_x86 is not
among the sources): opcode of `jmp rel32`. -/
def instruction_code : Nat := 0xE9

/-- Modelled from the spec: `NativeJump::data_offset` (nativeInst_x86 is not
among the sources): offset of the 32-bit displacement within the instruction. -/
def data_offset : Nat := 1

/-- Modelled from the spec: `NativeJump::instruction_size` (nativeInst_x86 is not
among the sources): `jmp` is 1+4 bytes (line 88). -/
def instruction_size : Nat := 5

/-- Modelled from the spec: `NativeJump::next_instruction_address` (nativeInst_x86
is not among the sources): the address right after the jump at `self`. -/
def next_instruction_address (self : Nat) : Nat := self + instruction_size

/-- Modelled from the spec: `NativeJump::verify` (nativeInst_x86 is not among
the sources): the byte at `self` is the `jmp rel32` opcode. -/
def verify (m : Mem) (self : Nat) : Bool := m self % 256 == instruction_code

/-- Modelled from the spec: `NativeJump::jump_destination` (nativeInst_x86 is
not among the sources).  The destination is the displacement added to the
address of the next instruction; a jump to itself is the unresolved encoding
and reads as `(address)-1`. -/
def jump_destination (b : Build) (m : Mem) (self : Nat) : Nat :=
  let dest := addrOffset b (next_instruction_address self) (asJint (readLE m (self + data_offset) 4))
  if dest = self then addrMinusOne b else dest

/-- The value `set_jump_destination(dest)` computes before the `jint` cast:
the displacement of `dest` from the next instruction, and `-5` (the jump to
self) for `(address)-1`. -/
def displacement_for (b : Build) (self dest : Nat) : Int :=
  if dest = addrMinusOne b then -5 else (dest : Int) - (next_instruction_address self : Int)

end NativeJump

namespace NativeCall

/-- Modelled from the spec: `NativeCall::displacement_offset` (nativeInst_x86 is
not among the sources): offset of the 32-bit displacement within `call rel32`. -/
def displacement_offset : Nat := 1

/-- Modelled from the spec: `NativeCall::instruction_size` (nativeInst_x86 is not
among the sources): length of `call rel32`. -/
def instruction_size : Nat := 5

/-- Modelled from the spec: `NativeCall::return_address` (nativeInst_x86 is not
among the sources): the address the call returns to. -/
def return_address (self : Nat) : Nat := self + instruction_size

/-- Modelled from the spec: `NativeCall::destination` (nativeInst_x86 is not
among the sources): the return address plus the signed displacement. -/
def destination (b : Build) (m : Mem) (self : Nat) : Nat :=
  addrOffset b (return_address self) (asJint (readLE m (self + displacement_offset) 4))

end NativeCall

/-! ## Relocation records -/

/-- Modelled from the spec: the relocation types (relocInfo is not among the
sources): kind of a relocation record, with the data the record carries. -/
inductive RelocKind where
  | static_stub (static_call : Nat)
  | metadata
  | runtime_call
  | static_call
  | opt_virtual_call
  | virtual_call (cached_value : Nat)
  | none
deriving DecidableEq, Repr

/-- Modelled from the spec: a relocation record (relocInfo is not among the
sources): the code address it annotates and its kind. -/
structure Reloc where
  addr : Nat
  kind : RelocKind
deriving DecidableEq, Repr

/-- Modelled from the spec: `methodHandle` (handles is not among the sources):
an opaque handle of a callable unit, the `Method*` it wraps and its printable
name and signature. -/
structure methodHandle where
  method : Nat
  name_and_sig : String
deriving DecidableEq, Repr

/-- One line printed on `tty` by the tracing hook: the call site and the
callee's name. -/
structure TraceLine where
  site : Nat
  callee : String
deriving DecidableEq, Repr

/-- A store into code memory: address, width in bytes, value. -/
structure Store where
  addr : Nat
  width : Nat
  value : Nat
deriving DecidableEq, Repr

/-- The state the call-site controllers act on: code memory, the relocation
records of the enclosing code blob, the lines printed so far, the stores made
so far in program order, and the two conditions `set_stub_to_clean` asserts. -/
structure VM where
  mem : Mem
  relocs : List Reloc
  tty : List TraceLine
  stores : List Store
  CompiledIC_lock_is_locked : Bool
  is_at_safepoint : Bool

/-- Perform a store and record it. -/
def VM.store (vm : VM) (addr width value : Nat) : VM :=
  { vm with mem := writeLE vm.mem addr width value,
            stores := vm.stores ++ [⟨addr, width, value⟩] }

/-- Print one trace line. -/
def VM.print_cr (vm : VM) (l : TraceLine) : VM :=
  { vm with tty := vm.tty ++ [l] }

/-- Modelled from the spec: `NativeMovConstReg::set_data` (nativeInst_x86 is
not among the sources): one store of the word-sized immediate at
`data_offset`. -/
def VM.set_data (b : Build) (vm : VM) (self x : Nat) : VM :=
  vm.store (self + NativeMovConstReg.data_offset b) (wordSize b) x

/-- Modelled from the spec: `NativeJump::set_jump_destination` (nativeInst_x86
is not among the sources).  Stores the displacement from the next instruction
as a `jint`, in one store; `(address)-1` is stored as `-5`, the jump to self. -/
def VM.set_jump_destination (b : Build) (vm : VM) (self dest : Nat) : VM :=
  vm.store (self + NativeJump.data_offset) 4
    (toJintBits (NativeJump.displacement_for b self dest))

/-- Modelled from the spec: `NativeCall::set_destination_mt_safe`
(nativeInst_x86 is not among the sources): the call is retargeted by a single
store of its displacement field, the displacement being taken from the return
address.  The field is taken to be aligned so that one store is atomic; the
checks the helper makes on that are outside this model. -/
def VM.set_destination_mt_safe (vm : VM) (self dest : Nat) : VM :=
  vm.store (self + NativeCall.displacement_offset) 4
    (toJintBits ((dest : Int) - (NativeCall.return_address self : Int)))

/-- Code memory after the call at `self` is repatched to `dest`: the store
`set_destination_mt_safe(dest)` makes. -/
def NativeCall.repatched (m : Mem) (self dest : Nat) : Mem :=
  writeLE m (self + NativeCall.displacement_offset) 4
    (toJintBits ((dest : Int) - (NativeCall.return_address self : Int)))

/-- Modelled from the spec: the factory `nativeMovConstReg_at` (nativeInst_x86
is not among the sources): "creation also verifies the object", in `ASSERT`
builds. -/
def nativeMovConstReg_at (b : Build) (m : Mem) (addr : Nat) : Except Fatal Nat :=
  if b.assertOn && !NativeMovConstReg.verify b m addr then
    .error (.fatal "not a mov reg, imm")
  else .ok addr

/-- Modelled from the spec: the factory `nativeJump_at` (nativeInst_x86 is not
among the sources): "creation also verifies the object", in `ASSERT` builds. -/
def nativeJump_at (b : Build) (m : Mem) (addr : Nat) : Except Fatal Nat :=
  if b.assertOn && !NativeJump.verify m addr then
    .error (.fatal "not a jump instruction")
  else .ok addr

/-! ## Code buffer and macro assembler -/

/-- Modelled from the spec: `CodeBuffer` (codeBuffer is not among the sources):
the bytes emitted so far, the mark and end of the main instruction section,
the end and limit of the stub section, and the relocation records attached so
far. -/
structure CodeBuffer where
  mem : Mem
  insts_mark : Nat
  insts_end : Nat
  stubs_end : Nat
  stubs_limit : Nat
  relocs : List Reloc

/-- Modelled from the spec: `MacroAssembler` (the assembler is not among the
sources): an assembler over a code buffer; `in_stubs` tells whether its
current section is the stub section or the main instruction section. -/
structure MacroAssembler where
  code : CodeBuffer
  in_stubs : Bool

namespace MacroAssembler

/-- Modelled from the spec: the register `rbx` (the assembler is not among the
sources), by its encoding. -/
def rbx : Nat := 3

/-- Modelled from the spec: `Assembler::REX_W` (the assembler is not among the
sources): the prefix byte of a 64-bit operand. -/
def REX_W : Nat := 0x48

/-- Modelled from the spec: `AbstractAssembler::pc` (the assembler is not among
the sources): the insertion point, the end of the current section. -/
def pc (a : MacroAssembler) : Nat :=
  if a.in_stubs then a.code.stubs_end else a.code.insts_end

/-- Modelled from the spec: `emit_int8`, `emit_int32`, `emit_int64` (the
assembler is not among the sources): append the low `n` bytes of `v`,
little-endian, at the insertion point. -/
def emit_bytes (a : MacroAssembler) (n v : Nat) : MacroAssembler :=
  let code := { a.code with mem := writeLE a.code.mem a.pc n v }
  if a.in_stubs then { a with code := { code with stubs_end := a.pc + n } }
  else { a with code := { code with insts_end := a.pc + n } }

/-- Modelled from the spec: `CodeSection::relocate` (codeBuffer is not among the
sources): attach a relocation record of kind `k` to the address `at_`. -/
def relocate_at (a : MacroAssembler) (at_ : Nat) (k : RelocKind) : MacroAssembler :=
  { a with code := { a.code with relocs := a.code.relocs ++ [⟨at_, k⟩] } }

/-- Modelled from the spec: `AbstractAssembler::relocate` (the assembler is not
among the sources): annotate the insertion point with a typed relocation
record; no bytes are emitted. -/
def relocate (a : MacroAssembler) (k : RelocKind) : MacroAssembler :=
  a.relocate_at a.pc k

/-- Modelled from the spec: `AbstractAssembler::start_a_stub` (the assembler is
not among the sources): reserve `required_space` bytes in the stub section.
When the space cannot be had the result is `NULL` and the buffer is as it was;
otherwise the assembler switches to the stub section and its insertion point
is returned. -/
def start_a_stub (a : MacroAssembler) (required_space : Nat) : Nat × MacroAssembler :=
  if a.code.stubs_limit - a.code.stubs_end < required_space then (NULL, a)
  else (a.code.stubs_end, { a with in_stubs := true })

/-- Modelled from the spec: `AbstractAssembler::end_a_stub` (the assembler is
not among the sources): go back to the main instruction section. -/
def end_a_stub (a : MacroAssembler) : MacroAssembler :=
  { a with in_stubs := false }

/-- Modelled from the spec: `MacroAssembler::mov_metadata` (the assembler is
not among the sources): a load of a word-sized immediate into `dst`, tagged by
a metadata relocation record at the instruction; `movq` (1+1+8 bytes) on LP64,
`movl` (1+4 bytes) otherwise. -/
def mov_metadata (b : Build) (a : MacroAssembler) (dst obj : Nat) : MacroAssembler :=
  let inst_mark := a.pc
  let a1 := if b.lp64 then a.emit_bytes 1 REX_W else a
  let a2 := a1.emit_bytes 1 (NativeMovConstReg.instruction_code ||| dst)
  let a3 := a2.relocate_at inst_mark RelocKind.metadata
  a3.emit_bytes (wordSize b) obj

/-- Modelled from the spec: `MacroAssembler::jump` to a runtime address (the
assembler is not among the sources): `jmp rel32` (1+4 bytes), the displacement
taken from the end of the instruction, tagged by a runtime-call relocation
record at the instruction.  The target is taken to be within reach, as the
insertion point itself is. -/
def jump (a : MacroAssembler) (target : Nat) : MacroAssembler :=
  let inst_mark := a.pc
  let a1 := a.emit_bytes 1 NativeJump.instruction_code
  let disp : Int := (target : Int) - ((a1.pc : Int) + 4)
  let a2 := a1.relocate_at inst_mark RelocKind.runtime_call
  a2.emit_bytes 4 (toJintBits disp)

end MacroAssembler

/-! ## CompiledStaticCall -/

namespace CompiledStaticCall

/-- Modelled from the spec: `CompiledStaticCall::find_stub` (compiledIC.cpp is
not among the sources).  The stub of a call site is located purely through the
relocation records: it is the address of the static-stub record that names the
call instruction, and `NULL` when there is none. -/
def find_stub (relocs : List Reloc) (self : Nat) : Nat :=
  match relocs.find? (fun r => r.kind == RelocKind.static_stub self) with
  | some r => r.addr
  | none => NULL

/-- The check of lines 111-119, made in `ASSERT` builds before the stub is
written: the first failing assertion, if any. -/
def pre_write_check (b : Build) (m : Mem) (method_holder jump : Nat)
    (callee : methodHandle) (entry : Nat) : Option Fatal :=
  let data := NativeMovConstReg.data b m method_holder
  let destination := NativeJump.jump_destination b m jump
  if ¬ (data = 0 ∨ data = callee.method) then
    some (.assertion "a) MT-unsafe modification of inline cache")
  else if ¬ (destination = addrMinusOne b ∨ destination = entry) then
    some (.assertion "b) MT-unsafe modification of inline cache")
  else none

/-- `CompiledStaticCall::set_to_interpreted(callee, entry)` on the call
instruction at `self`. -/
def set_to_interpreted (b : Build) (vm : VM) (self : Nat) (callee : methodHandle)
    (entry : Nat) : Result VM :=
  let stub := find_stub vm.relocs self
  if stub = NULL then .terminated (.guarantee "stub not found") vm else
  let vm1 := if b.traceICs then vm.print_cr ⟨self, callee.name_and_sig⟩ else vm
  match nativeMovConstReg_at b vm1.mem stub with
  | .error e => .terminated e vm1
  | .ok method_holder =>
  match nativeJump_at b vm1.mem (NativeMovConstReg.next_instruction_address b method_holder) with
  | .error e => .terminated e vm1
  | .ok jump =>
  match (if b.assertOn then pre_write_check b vm1.mem method_holder jump callee entry else none) with
  | some e => .terminated e vm1
  | none =>
  -- Update stub.
  let vm2 := vm1.set_data b method_holder callee.method
  let vm3 := vm2.set_jump_destination b jump entry
  -- Update jump to call.
  .returned (vm3.set_destination_mt_safe self stub)

/-- `CompiledStaticCall::set_stub_to_clean(static_stub)`; the relocation
argument is the static-stub record, `static_stub->addr()` its address. -/
def set_stub_to_clean (b : Build) (vm : VM) (static_stub : Reloc) : Result VM :=
  if b.assertOn && !(vm.CompiledIC_lock_is_locked || vm.is_at_safepoint) then
    .terminated (.assertion "mt unsafe call") vm else
  -- Reset stub.
  let stub := static_stub.addr
  if b.assertOn && stub == NULL then .terminated (.assertion "stub not found") vm else
  match nativeMovConstReg_at b vm.mem stub with
  | .error e => .terminated e vm
  | .ok method_holder =>
  let vm1 := vm.set_data b method_holder 0
  match nativeJump_at b vm1.mem (NativeMovConstReg.next_instruction_address b method_holder) with
  | .error e => .terminated e vm1
  | .ok jump =>
  .returned (vm1.set_jump_destination b jump (addrMinusOne b))

/-- `CompiledStaticCall::to_interp_stub_size`. -/
def to_interp_stub_size (b : Build) : Nat :=
  if b.lp64 then 15 else 10

/-- `CompiledStaticCall::emit_to_interp_stub(cbuf, mark)`: the address of the
stub (or `NULL`) and the code buffer as the call leaves it. -/
def emit_to_interp_stub (b : Build) (cbuf : CodeBuffer) (mark : Nat) :
    Result (Nat × CodeBuffer) :=
  -- Get mark within main instrs section.
  let mark := if mark = NULL then cbuf.insts_mark else mark
  let masm : MacroAssembler := ⟨cbuf, false⟩
  match masm.start_a_stub (to_interp_stub_size b) with
  | (base, masm) =>
  if base = NULL then .returned (NULL, masm.code) else
  -- Static stub relocation stores the instruction address of the call.
  let masm := masm.relocate (RelocKind.static_stub mark)
  -- Static stub relocation also tags the Method* in the code-stream.
  let masm := masm.mov_metadata b MacroAssembler.rbx NULL
  -- This is recognized as unresolved by relocs/nativeinst/ic code.
  let masm := masm.jump masm.pc
  if b.assertOn && !(masm.pc - base ≤ to_interp_stub_size b) then
    .terminated (.assertion "wrong stub size") (base, masm.code) else
  -- Update current stubs pointer and restore insts_end.
  let masm := masm.end_a_stub
  .returned (base, masm.code)

/-- `CompiledStaticCall::reloc_to_interp_stub`. -/
def reloc_to_interp_stub : Nat := 4

end CompiledStaticCall

/-! ## Vocabulary of the statements -/

/-- Run `f` on the state an operation returned with; a terminated VM stays
terminated. -/
def Result.andThen {α : Type} (r : Result α) (f : α → Result α) : Result α :=
  match r with
  | .returned a => f a
  | .terminated e a => .terminated e a

/-- The operation returned (the VM did not terminate). -/
def Result.isReturned {α : Type} (r : Result α) : Bool :=
  match r with
  | .returned _ => true
  | .terminated _ _ => false

/-- The state an operation ended in. -/
def Result.state {α : Type} (r : Result α) : α :=
  match r with
  | .returned a => a
  | .terminated _ a => a

/-- Memory after the stores of `l` are made in order. -/
def applyStores (m : Mem) (l : List Store) : Mem :=
  l.foldl (fun m s => writeLE m s.addr s.width s.value) m

/-- A target is reachable from the end of a `rel32` instruction: always on
32-bit, and on LP64 when the displacement fits a signed 32-bit field. -/
def reach32 (b : Build) (next target : Nat) : Prop :=
  b.lp64 = true →
    (-2147483648 ≤ (target : Int) - (next : Int) ∧ (target : Int) - (next : Int) < 2147483648)

instance (b : Build) (next target : Nat) : Decidable (reach32 b next target) := by
  unfold reach32; infer_instance

/-- Address of the jump instruction of the stub at `stub`. -/
def stubJump (b : Build) (stub : Nat) : Nat :=
  NativeMovConstReg.next_instruction_address b stub

/-- Layout of a static call site and its stub: the stub lies in the address
space, the call instruction lies outside the stub, and the stub is within
reach of the call. -/
def StaticCallSite (b : Build) (self stub : Nat) : Prop :=
  stub + CompiledStaticCall.to_interp_stub_size b ≤ addrSpace b ∧
  (self + NativeCall.instruction_size ≤ stub ∨
    stub + CompiledStaticCall.to_interp_stub_size b ≤ self) ∧
  reach32 b (NativeCall.return_address self) stub

instance (b : Build) (self stub : Nat) : Decidable (StaticCallSite b self stub) := by
  unfold StaticCallSite; infer_instance

/-- An entry address the stub's jump can encode: an address within reach of
the end of the jump. -/
def EntryInReach (b : Build) (stub entry : Nat) : Prop :=
  entry < addrSpace b ∧ reach32 b (NativeJump.next_instruction_address (stubJump b stub)) entry

instance (b : Build) (stub entry : Nat) : Decidable (EntryInReach b stub entry) := by
  unfold EntryInReach; infer_instance

/-- The bytes at `stub` pass the checks made when the stub's two instructions
are wrapped: a `mov reg, imm` followed by a `jmp rel32`. -/
def stubVerifies (b : Build) (m : Mem) (stub : Nat) : Bool :=
  NativeMovConstReg.verify b m stub && NativeJump.verify m (stubJump b stub)

/-- The condition of the two assertions of lines 115-118. -/
def preWriteOk (b : Build) (m : Mem) (stub : Nat) (callee : methodHandle) (entry : Nat) : Prop :=
  (NativeMovConstReg.data b m stub = 0 ∨ NativeMovConstReg.data b m stub = callee.method) ∧
  (NativeJump.jump_destination b m (stubJump b stub) = addrMinusOne b ∨
    NativeJump.jump_destination b m (stubJump b stub) = entry)

instance (b : Build) (m : Mem) (stub : Nat) (callee : methodHandle) (entry : Nat) :
    Decidable (preWriteOk b m stub callee entry) := by
  unfold preWriteOk; infer_instance

/-- A target that resolves a site: a callee handle that is not the zero
sentinel and fits a word, and an entry the stub's jump can encode that is
neither the address of that jump itself nor the unresolved sentinel
`(address)-1`. -/
def ResolvedTarget (b : Build) (stub : Nat) (callee : methodHandle) (entry : Nat) : Prop :=
  callee.method ≠ 0 ∧ callee.method < addrSpace b ∧ EntryInReach b stub entry ∧
  entry ≠ stubJump b stub ∧ entry ≠ addrMinusOne b

instance (b : Build) (stub : Nat) (callee : methodHandle) (entry : Nat) :
    Decidable (ResolvedTarget b stub callee entry) := by
  unfold ResolvedTarget; infer_instance

/-- The stub at `stub` holds `callee` and `entry`: its callee-identifier reads
`callee`, and the displacement field of its jump holds what
`set_jump_destination(entry)` stores. -/
def stubHolds (b : Build) (m : Mem) (stub : Nat) (callee : methodHandle) (entry : Nat) : Prop :=
  NativeMovConstReg.data b m stub = callee.method ∧
  readLE m (stubJump b stub + NativeJump.data_offset) 4
    = toJintBits (NativeJump.displacement_for b (stubJump b stub) entry)

instance (b : Build) (m : Mem) (stub : Nat) (callee : methodHandle) (entry : Nat) :
    Decidable (stubHolds b m stub callee entry) := by
  unfold stubHolds; infer_instance

/-- The three stores `set_to_interpreted` makes, in program order. -/
def bindStores (b : Build) (self stub : Nat) (callee : methodHandle) (entry : Nat) : List Store :=
  [ ⟨stub + NativeMovConstReg.data_offset b, wordSize b, callee.method⟩,
    ⟨stubJump b stub + NativeJump.data_offset, 4,
      toJintBits (NativeJump.displacement_for b (stubJump b stub) entry)⟩,
    ⟨self + NativeCall.displacement_offset, 4,
      toJintBits ((stub : Int) - (NativeCall.return_address self : Int))⟩ ]

/-- The bytes of a freshly emitted stub at `base`, laid over `m`: the load of
a zero immediate into `rbx`, then the jump to itself. -/
def stubImage (b : Build) (m : Mem) (base : Nat) : Mem :=
  let m1 := if b.lp64 then writeLE m base 1 MacroAssembler.REX_W else m
  let m2 := writeLE m1 (base + NativeMovConstReg.rex_size b) 1
    (NativeMovConstReg.instruction_code ||| MacroAssembler.rbx)
  let m3 := writeLE m2 (base + NativeMovConstReg.data_offset b) (wordSize b) NULL
  let m4 := writeLE m3 (stubJump b base) 1 NativeJump.instruction_code
  writeLE m4 (stubJump b base + NativeJump.data_offset) 4 (toJintBits (-5))

/-- The mark `emit_to_interp_stub` uses: the given one, or the buffer's
`insts_mark` when none is given. -/
def effectiveMark (cbuf : CodeBuffer) (mark : Nat) : Nat :=
  if mark = NULL then cbuf.insts_mark else mark

/-- The relocation records one emitted stub adds, in order. -/
def stubRelocs (b : Build) (base mark : Nat) : List Reloc :=
  [⟨base, RelocKind.static_stub mark⟩, ⟨base, RelocKind.metadata⟩,
   ⟨stubJump b base, RelocKind.runtime_call⟩]

/-! ## CompiledStaticCall::verify and the states of a static call site -/

namespace NativeCall

/-- Modelled from the spec: `NativeCall::instruction_code` (nativeInst_x86 is not
among the sources): opcode of `call rel32`. -/
def instruction_code : Nat := 0xE8

/-- Modelled from the spec: `NativeCall::verify` (nativeInst_x86 is not among the
sources): the call instruction's encoding is well-formed, the byte at `self`
being the `call rel32` opcode. -/
def verify (m : Mem) (self : Nat) : Bool := m self % 256 == instruction_code

/-- Modelled from the spec: the condition of `NativeCall::verify_alignment`
(nativeInst_x86 is not among the sources): the displacement field starts at a
multiple of four, so that it can be stored atomically. -/
def displacement_is_aligned (self : Nat) : Bool := (self + displacement_offset) % 4 == 0

end NativeCall

/-- Modelled from the spec: the factory `nativeCall_at` (nativeInst_x86 is not
among the sources); like the other factories it verifies the object in
`ASSERT` builds. -/
def nativeCall_at (b : Build) (m : Mem) (addr : Nat) : Except Fatal Nat :=
  if b.assertOn && !NativeCall.verify m addr then
    .error (.fatal "not a call disp32")
  else .ok addr

namespace CompiledStaticCall

/-- Modelled from the spec: `CompiledStaticCall::is_clean` (compiledIC.cpp is not
among the sources).  Clean: "stub's callee-identifier sentinel is zero, jump
destination is the self-loop sentinel". -/
def is_clean (b : Build) (vm : VM) (self : Nat) : Bool :=
  NativeMovConstReg.data b vm.mem (find_stub vm.relocs self) == 0 &&
  NativeJump.jump_destination b vm.mem
    (NativeMovConstReg.next_instruction_address b (find_stub vm.relocs self)) == addrMinusOne b

/-- Modelled from the spec: `CompiledStaticCall::is_call_to_compiled`
(compiledIC.cpp is not among the sources).  Bound-to-Compiled: "the call
instruction's own target is repatched to point directly at compiled code"; the
stub's content is irrelevant.  Which addresses are compiled code is given by
`is_compiled_code`. -/
def is_call_to_compiled (b : Build) (is_compiled_code : Nat → Bool) (vm : VM) (self : Nat) :
    Bool :=
  is_compiled_code (NativeCall.destination b vm.mem self)

/-- Modelled from the spec: `CompiledStaticCall::is_call_to_interpreted`
(compiledIC.cpp is not among the sources).  Bound-to-Interpreter:
"callee-identifier holds the resolved callee handle, jump destination holds the
interpreter entry point for that callee.  The call instruction itself still
targets the stub": the call's destination is the stub, the stub's
callee-identifier is not the zero sentinel, and the stub's jump destination is
not the unresolved sentinel `(address)-1`. -/
def is_call_to_interpreted (b : Build) (vm : VM) (self : Nat) : Bool :=
  NativeCall.destination b vm.mem self == find_stub vm.relocs self &&
  NativeMovConstReg.data b vm.mem (find_stub vm.relocs self) != 0 &&
  NativeJump.jump_destination b vm.mem
    (NativeMovConstReg.next_instruction_address b (find_stub vm.relocs self)) != addrMinusOne b

/-- `CompiledStaticCall::verify()` (non-product builds) on the call instruction
at `self`; `is_MP` is `os::is_MP()`. -/
def verify (b : Build) (is_MP : Bool) (is_compiled_code : Nat → Bool) (vm : VM) (self : Nat) :
    Result VM :=
  -- Verify call.
  if !NativeCall.verify vm.mem self then .terminated (.fatal "not a call disp32") vm else
  if is_MP && b.assertOn && !NativeCall.displacement_is_aligned self then
    .terminated (.assertion "must be aligned") vm else
  -- Verify stub.
  let stub := find_stub vm.relocs self
  if b.assertOn && stub == NULL then
    .terminated (.assertion "no stub found for static call") vm else
  match nativeMovConstReg_at b vm.mem stub with
  | .error e => .terminated e vm
  | .ok method_holder =>
  match nativeJump_at b vm.mem (NativeMovConstReg.next_instruction_address b method_holder) with
  | .error e => .terminated e vm
  | .ok _ =>
  -- Verify state.
  if b.assertOn && !(is_clean b vm self || is_call_to_compiled b is_compiled_code vm self ||
      is_call_to_interpreted b vm self) then
    .terminated (.assertion "sanity check") vm
  else .returned vm

end CompiledStaticCall

/-- The site a code buffer describes once its code is in place: its bytes and
relocation records, nothing printed or stored yet. -/
def VM.ofCodeBuffer (cb : CodeBuffer) (locked at_safepoint : Bool) : VM :=
  ⟨cb.mem, cb.relocs, [], [], locked, at_safepoint⟩

/-- The states of the site of the call at `self` that are reachable from `vm0`:
by `set_to_interpreted` called with a resolved target when its pre-write
condition holds, by `set_stub_to_clean` on the site's stub, by retargeting the
call to a compiled-code address within reach, and by the lock or the safepoint
state changing. -/
inductive Reachable (b : Build) (is_compiled_code : Nat → Bool) (self : Nat) (vm0 : VM) :
    VM → Prop where
  | start : Reachable b is_compiled_code self vm0 vm0
  | bind (vm vm' : VM) (callee : methodHandle) (entry : Nat) :
      Reachable b is_compiled_code self vm0 vm →
      preWriteOk b vm.mem (CompiledStaticCall.find_stub vm.relocs self) callee entry →
      ResolvedTarget b (CompiledStaticCall.find_stub vm.relocs self) callee entry →
      CompiledStaticCall.set_to_interpreted b vm self callee entry = .returned vm' →
      Reachable b is_compiled_code self vm0 vm'
  | clean (vm vm' : VM) :
      Reachable b is_compiled_code self vm0 vm →
      CompiledStaticCall.set_stub_to_clean b vm
        ⟨CompiledStaticCall.find_stub vm.relocs self, RelocKind.static_stub self⟩
        = .returned vm' →
      Reachable b is_compiled_code self vm0 vm'
  | compiled (vm : VM) (target : Nat) :
      Reachable b is_compiled_code self vm0 vm →
      is_compiled_code target = true → target < addrSpace b →
      reach32 b (NativeCall.return_address self) target →
      Reachable b is_compiled_code self vm0 (vm.set_destination_mt_safe self target)
  | env (vm : VM) (locked at_safepoint : Bool) :
      Reachable b is_compiled_code self vm0 vm →
      Reachable b is_compiled_code self vm0
        { vm with CompiledIC_lock_is_locked := locked, is_at_safepoint := at_safepoint }

/-! ## CompiledIC -/

/-- Modelled from the spec: `virtual_call_Relocation` (relocInfo is not among the
sources): the address of the call and the address of the instruction that
loads the cached value. -/
structure virtual_call_Relocation where
  addr : Nat
  cached_value : Nat
deriving DecidableEq, Repr

/-- The state the inline-cache controller acts on: code memory, the holders
queued for deferred release, and the holders freed so far. -/
structure ICState where
  mem : Mem
  release_queue : List Nat
  freed : List Nat

namespace InlineCacheBuffer

/-- Modelled from the spec: `InlineCacheBuffer::queue_for_release` (icBuffer is
not among the sources): the holder joins the list of holder references awaiting
release; nothing is freed. -/
def queue_for_release (s : ICState) (icholder : Nat) : ICState :=
  { s with release_queue := s.release_queue ++ [icholder] }

end InlineCacheBuffer

namespace CompiledIC

/-- `CompiledIC::cleanup_call_site` with the memory of each of its two reads
made explicit: `at_call` is code memory when the call's destination is read,
`at_value` code memory when the data word is read afterwards.
`is_icholder_entry` classifies an address as a holder-dispatch entry. -/
def cleanup_call_site_at (b : Build) (is_icholder_entry : Nat → Bool) (at_call at_value : Mem)
    (s : ICState) (call_site : virtual_call_Relocation) : Result ICState :=
  -- This call site might have become stale so inspect it carefully.
  match nativeCall_at b at_call call_site.addr with
  | .error e => .terminated e s
  | .ok call =>
  if is_icholder_entry (NativeCall.destination b at_call call) then
    match nativeMovConstReg_at b at_value call_site.cached_value with
    | .error e => .terminated e s
    | .ok value =>
      .returned (InlineCacheBuffer.queue_for_release s (NativeMovConstReg.data b at_value value))
  else .returned s

/-- `CompiledIC::cleanup_call_site(call_site)`, no other thread writing code
memory meanwhile. -/
def cleanup_call_site (b : Build) (is_icholder_entry : Nat → Bool) (s : ICState)
    (call_site : virtual_call_Relocation) : Result ICState :=
  cleanup_call_site_at b is_icholder_entry s.mem s.mem s call_site

/-- `CompiledIC::is_icholder_call_site(call_site)`: the answer (none when the
VM terminates) and the state the query leaves. -/
def is_icholder_call_site (b : Build) (is_icholder_entry : Nat → Bool) (s : ICState)
    (call_site : virtual_call_Relocation) : Result (Option Bool × ICState) :=
  -- This call site might have become stale so inspect it carefully.
  match nativeCall_at b s.mem call_site.addr with
  | .error e => .terminated e (none, s)
  | .ok call => .returned (some (is_icholder_entry (NativeCall.destination b s.mem call)), s)

end CompiledIC

/-- Modelled from the spec: the number of relocation records `emit_call` creates
for the call instruction itself (the emitter of calls is not among the
sources; line 93: "3 in emit_to_interp_stub + 1 in emit_call"). -/
def relocs_in_emit_call : Nat := 1

/-- The two stores `set_stub_to_clean` makes into the stub at `stub`, in
program order. -/
def cleanStores (b : Build) (stub : Nat) : List Store :=
  [ ⟨stub + NativeMovConstReg.data_offset b, wordSize b, 0⟩,
    ⟨stubJump b stub + NativeJump.data_offset, 4,
      toJintBits (NativeJump.displacement_for b (stubJump b stub) (addrMinusOne b))⟩ ]

/-- The address `x` lies in one of the two fields of the stub at `stub` that
are patched: the immediate of its `mov` or the displacement of its `jmp`. -/
def inStubFields (b : Build) (stub x : Nat) : Prop :=
  (stub + NativeMovConstReg.data_offset b ≤ x ∧
    x < stub + NativeMovConstReg.data_offset b + wordSize b) ∨
  (stubJump b stub + NativeJump.data_offset ≤ x ∧
    x < stubJump b stub + NativeJump.data_offset + 4)

instance (b : Build) (stub x : Nat) : Decidable (inStubFields b stub x) := by
  unfold inStubFields; infer_instance

/-! ## Sample inputs -/

namespace Sample

/-- A 32-bit product build. -/
def product32 : Build := ⟨false, false, false⟩

/-- A 32-bit diagnostic build with tracing. -/
def debug32 : Build := ⟨false, true, true⟩

/-- An LP64 product build. -/
def product64 : Build := ⟨true, false, false⟩

/-- An LP64 diagnostic build with tracing. -/
def debug64 : Build := ⟨true, true, true⟩

/-- A code buffer whose main section holds a call at `0x2000` (the mark) and
whose stub section starts at `0x1000` with room for 256 bytes. -/
def cbuf : CodeBuffer :=
  ⟨fun x => if x = 0x2000 then 0xE8 else 0, 0x2000, 0x2005, 0x1000, 0x1100, []⟩

/-- A code buffer whose stub section is full. -/
def fullCbuf : CodeBuffer :=
  ⟨fun x => if x = 0x2000 then 0xE8 else 0, 0x2000, 0x2005, 0x1000, 0x1008, []⟩

/-- The site of the call at `0x2000` right after its stub was emitted into
`cbuf`, with the patching lock held. -/
def freshVM (b : Build) : VM :=
  let c := (CompiledStaticCall.emit_to_interp_stub b cbuf NULL).state.2
  ⟨c.mem, c.relocs, [], [], true, false⟩

/-- A site whose relocation records name no stub. -/
def noStubVM : VM := ⟨fun _ => 0, [⟨0x1000, RelocKind.metadata⟩], [], [], true, false⟩

/-- The static-stub record of the stub emitted into `cbuf`. -/
def stubReloc : Reloc := ⟨0x1000, RelocKind.static_stub 0x2000⟩

/-- A callee handle. -/
def calleeA : methodHandle := ⟨0x7700, "A.run()V"⟩

/-- Another callee handle. -/
def calleeB : methodHandle := ⟨0x8800, "B.run()V"⟩

/-- The site of `freshVM` after it was bound to callee A with entry `0x3000`. -/
def boundVM (b : Build) : VM :=
  (CompiledStaticCall.set_to_interpreted b (freshVM b) 0x2000 calleeA 0x3000).state

/-- The holder-dispatch entries of the samples: the single address `0x5000`. -/
def isHolderEntry (a : Nat) : Bool := a == 0x5000

/-- The compiled-code addresses of the samples: `0x8000` up to `0x9000`. -/
def isCompiledCode (a : Nat) : Bool := 0x8000 ≤ a && a < 0x9000

/-- LP64 code memory holding a call at `0x2000` with destination `dest`, and at
`0x1F00` a `movq` whose immediate, the inline cache's data word, is `0xABCD`. -/
def icMem (dest : Nat) : Mem :=
  writeLE (writeLE (writeLE (writeLE (fun _ => 0) 0x2000 1 0xE8) 0x2001 4
    (toJintBits ((dest : Int) - 0x2005))) 0x1F00 2 0xBB48) 0x1F02 8 0xABCD

/-- The virtual call site of `icMem`. -/
def icSite : virtual_call_Relocation := ⟨0x2000, 0x1F00⟩

/-- An inline-cache state over `icMem dest` with one holder already queued. -/
def icState (dest : Nat) : ICState := ⟨icMem dest, [0x1111], []⟩

/-- A code buffer like `cbuf` whose call, at `0x2003`, has an aligned
displacement field. -/
def alignedCbuf : CodeBuffer :=
  ⟨fun x => if x = 0x2003 then 0xE8 else 0, 0x2003, 0x2008, 0x1000, 0x1100, []⟩

end Sample

end HotSpot

/-!
# The text-area peer

A shallow embedding of functions of
`jdk/src/windows/native/sun/windows/awt_TextArea.cpp`.  A string is the list
of its UTF-16 code units.
-/

namespace AwtTextArea

/-- The character `L'\n'`. -/
def newline : Nat := 10

/-- The loop of `CountNewLines`: `for (i = 0; i < maxlen && i < length - 1; i++)`,
from index `i` on with `nNewlines` counted so far. -/
def CountNewLines.loop (string : List Nat) (maxlen length : Nat) (i nNewlines : Nat) : Nat :=
  if i < maxlen ∧ i < length - 1 then
    CountNewLines.loop string maxlen length (i + 1)
      (if string.getD i 0 = newline then nNewlines + 1 else nNewlines)
  else nNewlines
termination_by length - 1 - i

/-- `AwtTextArea::CountNewLines(env, jStr, maxlen)`; a null `jStr` is `none`.
The buffer holds the characters of the string followed by `'\0'`. -/
def CountNewLines (jStr : Option (List Nat)) (maxlen : Nat) : Nat :=
  match jStr with
  | none => 0
  | some chars =>
    let length := chars.length + 1
    let string := chars ++ [0]
    CountNewLines.loop string maxlen length 0 0

/-- Modelled from the spec: the clipboard format `CF_TEXT` (the Windows headers
are not among the sources). -/
def CF_TEXT : Nat := 1

/-- Modelled from the spec: the clipboard format `CF_OEMTEXT` (the Windows
headers are not among the sources). -/
def CF_OEMTEXT : Nat := 7

/-- Modelled from the spec: the clipboard format `CF_UNICODETEXT` (the Windows
headers are not among the sources). -/
def CF_UNICODETEXT : Nat := 13

/-- Modelled from the spec: the rich-edit clipboard operation `RECO_PASTE` (the
Windows headers are not among the sources). -/
def RECO_PASTE : Nat := 0

/-- Modelled from the spec: the result code `NOERROR` (the Windows headers are
not among the sources). -/
def NOERROR : Nat := 0

/-- `AwtTextArea::OleCallback::QueryAcceptData`: the result code and the value
of `*pcfFormat` on return.  `IsClipboardFormatAvailable` is the state of the
clipboard, `cfFormat` the value of `*pcfFormat` on entry. -/
def OleCallback.QueryAcceptData (IsClipboardFormatAvailable : Nat → Bool) (m_isWin95 : Bool)
    (cfFormat reco : Nat) : Nat × Nat :=
  if reco = RECO_PASTE then
    if IsClipboardFormatAvailable CF_TEXT then (NOERROR, CF_TEXT)
    else if !m_isWin95 && IsClipboardFormatAvailable CF_UNICODETEXT then (NOERROR, CF_UNICODETEXT)
    else if IsClipboardFormatAvailable CF_OEMTEXT then (NOERROR, CF_OEMTEXT)
    else (NOERROR, CF_TEXT)
  else (NOERROR, cfFormat)

/-- Modelled from the spec: `AwtTextComponent::Reshape` (awt_TextComponent is not
among the sources), represented by the arguments the underlying component
receives. -/
def AwtTextComponent.Reshape (x y w h : Int) : Int × Int × Int × Int := (x, y, w, h)

/-- `AwtTextArea::Reshape(x, y, w, h)`: the call it forwards. -/
def Reshape (x y w h : Int) : Int × Int × Int × Int :=
  let w := if w < 2 then 2 else w
  AwtTextComponent.Reshape x y w h

/-! ## getJavaSelPos -/

/-- The value a 32-bit `LONG` holds after the arithmetic result `x` is stored
in it. -/
def wrapLONG (x : Int) : Int := (x + 2147483648) % 4294967296 - 2147483648

/-- The least value of a `LONG`. -/
def LONG_MIN : Int := -2147483648

/-- The greatest value of a `LONG`. -/
def LONG_MAX : Int := 2147483647

/-- The character `_T('\r')`. -/
def carriageReturn : Nat := 13

/-- The loop of `getJavaSelPos`: `while (cur < pos && cur < wlen)`.  `cur` and
`retval` count up from 0 and stay below `wlen`; `pos` is a 32-bit `LONG`. -/
def getJavaSelPos.loop (wbuf : List Nat) (wlen : Nat) (pos : Int) (cur retval : Nat) : Nat :=
  if (cur : Int) < pos ∧ cur < wlen then
    getJavaSelPos.loop wbuf wlen
      (if wbuf.getD cur 0 = carriageReturn ∧ wbuf.getD (cur + 1) 0 = newline then
        wrapLONG (pos + 1) else pos)
      (cur + 1) (retval + 1)
  else retval
termination_by wlen - cur

/-- The text the loop of `getJavaSelPos` runs over: the text of the component,
after `RemoveCR` when `m_isLFonly` is set. -/
def loopText (text : List Nat) (m_isLFonly : Bool) (RemoveCR : List Nat → List Nat) : List Nat :=
  if m_isLFonly then RemoveCR text else text

/-- `AwtTextArea::getJavaSelPos(orgPos)`.  `text` is the text `GetText` copies
into the buffer, its length what `GetTextLength` returns; `RemoveCR` stands for
`AwtTextComponent::RemoveCR` (awt_TextComponent is not among the sources), as
the text it leaves in the buffer, whose length it returns.  The buffer holds
the text followed by `'\0'`. -/
def getJavaSelPos (text : List Nat) (m_isLFonly : Bool) (RemoveCR : List Nat → List Nat)
    (orgPos : Int) : Int :=
  if text.length = 0 then 0 else
  let t := loopText text m_isLFonly RemoveCR
  (getJavaSelPos.loop (t ++ [0]) t.length orgPos 0 0 : Nat)

/-- The number of indices `i < r` at which the text `t` has a `'\r'`
immediately followed by `'\n'`. -/
def crlfPairsBefore (t : List Nat) (r : Nat) : Nat :=
  ((List.range r).filter
    (fun i => decide (t.getD i 0 = carriageReturn ∧ t.getD (i + 1) 0 = newline))).length

/-! ## The mouse wheel -/

/-- Modelled from the spec: `WHEEL_DELTA` (the Windows headers are not among the
sources). -/
def WHEEL_DELTA : Int := 120

/-- Modelled from the spec: `WHEEL_PAGESCROLL`, which is `UINT_MAX` (the Windows
headers are not among the sources). -/
def WHEEL_PAGESCROLL : Nat := 4294967295

/-- Modelled from the spec: the message `WM_MOUSEWHEEL` (the Windows headers are
not among the sources). -/
def WM_MOUSEWHEEL : Nat := 0x020A

/-- Modelled from the spec: the message `WM_HSCROLL` (the Windows headers are not
among the sources). -/
def WM_HSCROLL : Nat := 0x0114

/-- Modelled from the spec: the message `WM_VSCROLL` (the Windows headers are not
among the sources). -/
def WM_VSCROLL : Nat := 0x0115

/-- Modelled from the spec: the window style `WS_HSCROLL` (the Windows headers
are not among the sources). -/
def WS_HSCROLL : Nat := 0x00100000

/-- Modelled from the spec: the window style `WS_VSCROLL` (the Windows headers
are not among the sources). -/
def WS_VSCROLL : Nat := 0x00200000

/-- Modelled from the spec: the scroll request `SB_LINEUP` (the Windows headers
are not among the sources). -/
def SB_LINEUP : Nat := 0

/-- Modelled from the spec: the scroll request `SB_LINEDOWN` (the Windows headers
are not among the sources). -/
def SB_LINEDOWN : Nat := 1

/-- Modelled from the spec: the scroll request `SB_PAGEUP` (the Windows headers
are not among the sources). -/
def SB_PAGEUP : Nat := 2

/-- Modelled from the spec: the scroll request `SB_PAGEDOWN` (the Windows headers
are not among the sources). -/
def SB_PAGEDOWN : Nat := 3

/-- Modelled from the spec: the fields of `SCROLLINFO` the loop reads (the
Windows headers are not among the sources). -/
structure SCROLLINFO where
  nMin : Int
  nMax : Int
  nPage : Nat
  nPos : Int

/-- Modelled from the spec: the fields of `MSG` the branch reads (the Windows
headers are not among the sources). -/
structure MSG where
  message : Nat
  wParam : Nat

/-- What the window system answers while one wheel message is processed: the
scroll-lines setting after `SystemParametersInfo`, the window styles, the
height of the client area, the height of the font, the line count, and the
answer of `GetScrollInfo` in each iteration of the scrolling loop (none when
the call fails). -/
structure WheelEnv where
  platfScrollLines : Nat
  styles : Nat
  rect_bottom : Int
  tmHeight : Int
  lineCount : Int
  GetScrollInfo : Nat → Option SCROLLINFO

/-- The two wheel accumulators of a text area. -/
structure DeltaAccum where
  m_lHDeltaAccum : Int
  m_lVDeltaAccum : Int
deriving DecidableEq, Repr

/-- A scroll message sent to the window: the message and its `wParam`. -/
structure ScrollMessage where
  wm_msg : Nat
  request : Nat
deriving DecidableEq, Repr

/-- The accumulators as the constructor `AwtTextArea::AwtTextArea` leaves
them. -/
def ctor : DeltaAccum := ⟨0, 0⟩

/-- The wheel delta of a message: `(short) HIWORD(msg->wParam)`. -/
def wheelDelta (msg : MSG) : Int :=
  let hi := msg.wParam / 65536 % 65536
  if hi < 32768 then (hi : Int) else (hi : Int) - 65536

/-- The message is accumulated horizontally:
`sb_vert_disabled && (styles & WS_HSCROLL)`. -/
def scrollsHorizontally (env : WheelEnv) : Bool :=
  let visibleLines := wrapLONG (env.rect_bottom.tdiv env.tmHeight + 1)
  let sb_vert_disabled := (env.styles &&& WS_VSCROLL) == 0 || decide (env.lineCount ≤ visibleLines)
  sb_vert_disabled && (env.styles &&& WS_HSCROLL) != 0

/-- The loop that scrolls line by line, with `remaining` iterations to go from
iteration `i` on: the messages it sends. -/
def scrollLines (env : WheelEnv) (wm_msg : Nat) (delta_accum : Int) :
    (remaining i : Nat) → List ScrollMessage
  | 0, _ => []
  | remaining + 1, i =>
    let stop := match env.GetScrollInfo i with
      | some si =>
        wm_msg == WM_VSCROLL &&
          ((decide (delta_accum < 0) && decide (si.nPos ≥ si.nMax - wrapLONG (si.nPage : Int)))
            || (decide (delta_accum > 0) && decide (si.nPos ≤ si.nMin)))
      | none => false
    if stop then []
    else ⟨wm_msg, if delta_accum > 0 then SB_LINEUP else SB_LINEDOWN⟩ ::
      scrollLines env wm_msg delta_accum remaining (i + 1)

/-- `AwtTextArea::HandleEvent(msg, synthetic)`, as far as the wheel
accumulators go: the accumulators afterwards and the scroll messages sent, or
none when the division by the font height faults.  Only the `WM_MOUSEWHEEL`
branch refers to the accumulators; for every other message they are left as
they are. -/
def HandleEvent (env : WheelEnv) (self : DeltaAccum) (msg : MSG) :
    Option (DeltaAccum × List ScrollMessage) :=
  if msg.message = WM_MOUSEWHEEL then
    if env.platfScrollLines > 0 then
      if env.tmHeight = 0 then none else
      let horizontal := scrollsHorizontally env
      let wm_msg := if horizontal then WM_HSCROLL else WM_VSCROLL
      let delta := wheelDelta msg
      let old := if horizontal then self.m_lHDeltaAccum else self.m_lVDeltaAccum
      -- *delta_accum += delta;
      let accum := wrapLONG (old + delta)
      let put := fun (v : Int) =>
        if horizontal then { self with m_lHDeltaAccum := v } else { self with m_lVDeltaAccum := v }
      if wrapLONG |accum| ≥ WHEEL_DELTA then
        if env.platfScrollLines = WHEEL_PAGESCROLL then
          -- Synthesize a page down or a page up message.
          some (put 0, [⟨wm_msg, if delta > 0 then SB_PAGEUP else SB_PAGEDOWN⟩])
        else
          let actualScrollLines :=
            wrapLONG |wrapLONG ((env.platfScrollLines : Int) * accum.tdiv WHEEL_DELTA)|
          some (put (accum.tmod WHEEL_DELTA),
            scrollLines env wm_msg accum actualScrollLines.toNat 0)
      else some (put 0, [])
    else some (self, [])
  else some (self, [])

/-- The accumulator states reachable from the constructed text area by
messages that `HandleEvent` processes, whatever the window system answers. -/
inductive ReachableAccum : DeltaAccum → Prop where
  | constructed : ReachableAccum ctor
  | handled (env : WheelEnv) (s s' : DeltaAccum) (msg : MSG) (sent : List ScrollMessage) :
      ReachableAccum s → HandleEvent env s msg = some (s', sent) → ReachableAccum s'

/-- Sample: the text `"\r\nabc"`. -/
def sampleText : List Nat := [13, 10, 97, 98, 99]

/-- Sample: a window with a vertical scroll bar, 100 lines of which 11 are
visible, and the given scroll-lines setting. -/
def sampleEnv (platfScrollLines : Nat) : WheelEnv :=
  ⟨platfScrollLines, WS_VSCROLL, 200, 20, 100, fun _ => none⟩

/-- Sample: the wheel message with the given non-negative delta. -/
def sampleWheel (delta : Nat) : MSG := ⟨WM_MOUSEWHEEL, delta * 65536⟩

end AwtTextArea

namespace HotSpot

/-! ## Memory lemmas -/

theorem writeLE_outside (m : Mem) (a n v x : Nat) (h : x < a ∨ a + n ≤ x) :
    writeLE m a n v x = m x := by
  unfold writeLE
  have : ¬ (a ≤ x ∧ x < a + n) := by omega
  simp [this]

theorem writeLE_inside (m : Mem) (a n v x : Nat) (h1 : a ≤ x) (h2 : x < a + n) :
    writeLE m a n v x = v / 256 ^ (x - a) % 256 := by
  unfold writeLE
  simp [h1, h2]

theorem readLE_congr (m m' : Mem) (a n : Nat) (h : ∀ x, a ≤ x → x < a + n → m x = m' x) :
    readLE m a n = readLE m' a n := by
  induction n generalizing a with
  | zero => rfl
  | succ n ih =>
    simp only [readLE]
    rw [h a (le_refl a) (by omega), ih (a + 1) (fun x hx1 hx2 => h x (by omega) (by omega))]

theorem readLE_writeLE_disjoint (m : Mem) (a n v c k : Nat) (h : c + k ≤ a ∨ a + n ≤ c) :
    readLE (writeLE m a n v) c k = readLE m c k := by
  apply readLE_congr
  intro x hx1 hx2
  apply writeLE_outside
  omega

theorem readLE_writeLE_part (m : Mem) (a n v k j : Nat) (h : k + j ≤ n) :
    readLE (writeLE m a n v) (a + k) j = v / 256 ^ k % 256 ^ j := by
  induction j generalizing k with
  | zero => simp [readLE, Nat.mod_one]
  | succ j ih =>
    simp only [readLE]
    rw [writeLE_inside m a n v (a + k) (by omega) (by omega)]
    have e : a + k + 1 = a + (k + 1) := by omega
    rw [e, ih (k + 1) (by omega)]
    have e2 : a + k - a = k := by omega
    rw [e2, Nat.mod_mod, pow_succ 256 j, mul_comm (256 ^ j) 256, Nat.mod_mul,
      pow_succ 256 k, Nat.div_div_eq_div_mul]

theorem readLE_writeLE_same (m : Mem) (a n v : Nat) :
    readLE (writeLE m a n v) a n = v % 256 ^ n := by
  have h := readLE_writeLE_part m a n v 0 n (by omega)
  simpa using h

/-! ## Displacement arithmetic -/

theorem addrSpace_cases (b : Build) :
    (b.lp64 = false ∧ addrSpace b = 4294967296 ∧ wordSize b = 4) ∨
    (b.lp64 = true ∧ addrSpace b = 18446744073709551616 ∧ wordSize b = 8) := by
  cases h : b.lp64 <;> simp [addrSpace, wordSize, h]

theorem toJintBits_lt (v : Int) : toJintBits v < 4294967296 := by
  unfold toJintBits; omega

theorem addrOffset_jint (b : Build) (next target : Nat) (ht : target < addrSpace b)
    (hr : reach32 b next target) :
    addrOffset b next (asJint (toJintBits ((target : Int) - (next : Int)))) = target := by
  unfold addrOffset asJint toJintBits
  rcases addrSpace_cases b with ⟨h, hs, _⟩ | ⟨h, hs, _⟩
  · rw [hs] at ht ⊢
    split <;> omega
  · rw [hs] at ht ⊢
    have := hr h
    split <;> omega

theorem addrOffset_minus5 (b : Build) (self : Nat) (hs : self < addrSpace b) :
    addrOffset b (self + 5) (asJint (toJintBits (-5))) = self := by
  unfold addrOffset asJint toJintBits
  rcases addrSpace_cases b with ⟨h, hs', _⟩ | ⟨h, hs', _⟩
  · rw [hs'] at hs ⊢
    split <;> omega
  · rw [hs'] at hs ⊢
    split <;> omega

/-! ## Layout constants -/

theorem layout_cases (b : Build) :
    (b.lp64 = false ∧ addrSpace b = 4294967296 ∧ wordSize b = 4 ∧
      NativeMovConstReg.data_offset b = 1 ∧ NativeMovConstReg.instruction_size b = 5 ∧
      CompiledStaticCall.to_interp_stub_size b = 10) ∨
    (b.lp64 = true ∧ addrSpace b = 18446744073709551616 ∧ wordSize b = 8 ∧
      NativeMovConstReg.data_offset b = 2 ∧ NativeMovConstReg.instruction_size b = 10 ∧
      CompiledStaticCall.to_interp_stub_size b = 15) := by
  cases h : b.lp64 <;>
    simp [addrSpace, wordSize, NativeMovConstReg.data_offset, NativeMovConstReg.instruction_size,
      NativeMovConstReg.rex_size, CompiledStaticCall.to_interp_stub_size, h]

theorem pow_wordSize (b : Build) : 256 ^ wordSize b = addrSpace b := rfl

/-! ## Accessors after a store -/

theorem data_frame (b : Build) (m : Mem) (stub a n v : Nat)
    (h : stub + NativeMovConstReg.instruction_size b ≤ a ∨
      a + n ≤ stub + NativeMovConstReg.data_offset b) :
    NativeMovConstReg.data b (writeLE m a n v) stub = NativeMovConstReg.data b m stub := by
  unfold NativeMovConstReg.data
  apply readLE_writeLE_disjoint
  rcases layout_cases b with ⟨_, _, h2, h3, h4, _⟩ | ⟨_, _, h2, h3, h4, _⟩ <;>
    rw [h3, h2] <;> rw [h3, h4] at h <;> omega

theorem jump_destination_frame (b : Build) (m : Mem) (j a n v : Nat)
    (h : j + 5 ≤ a ∨ a + n ≤ j + 1) :
    NativeJump.jump_destination b (writeLE m a n v) j = NativeJump.jump_destination b m j := by
  unfold NativeJump.jump_destination
  rw [readLE_writeLE_disjoint m a n v (j + NativeJump.data_offset) 4
    (by simp only [NativeJump.data_offset]; omega)]

theorem destination_frame (b : Build) (m : Mem) (self a n v : Nat)
    (h : self + 5 ≤ a ∨ a + n ≤ self + 1) :
    NativeCall.destination b (writeLE m a n v) self = NativeCall.destination b m self := by
  unfold NativeCall.destination
  rw [readLE_writeLE_disjoint m a n v (self + NativeCall.displacement_offset) 4
    (by simp only [NativeCall.displacement_offset]; omega)]

theorem movVerify_frame (b : Build) (m : Mem) (stub a n v : Nat)
    (h : stub + NativeMovConstReg.data_offset b ≤ a ∨ a + n ≤ stub) :
    NativeMovConstReg.verify b (writeLE m a n v) stub = NativeMovConstReg.verify b m stub := by
  unfold NativeMovConstReg.verify
  rcases layout_cases b with ⟨h1, _, _, h3, _, _⟩ | ⟨h1, _, _, h3, _, _⟩
  · rw [h3] at h
    rw [writeLE_outside m a n v stub (by omega)]
    simp [h1]
  · rw [h3] at h
    rw [writeLE_outside m a n v stub (by omega), writeLE_outside m a n v (stub + 1) (by omega)]

theorem jumpVerify_frame (m : Mem) (j a n v : Nat) (h : j + 1 ≤ a ∨ a + n ≤ j) :
    NativeJump.verify (writeLE m a n v) j = NativeJump.verify m j := by
  unfold NativeJump.verify
  rw [writeLE_outside m a n v j (by omega)]

theorem data_after_store (b : Build) (m : Mem) (stub x : Nat) (hx : x < addrSpace b) :
    NativeMovConstReg.data b
      (writeLE m (stub + NativeMovConstReg.data_offset b) (wordSize b) x) stub = x := by
  unfold NativeMovConstReg.data
  rw [readLE_writeLE_same, pow_wordSize, Nat.mod_eq_of_lt hx]

theorem jump_field_after_store (m : Mem) (j : Nat) (val : Int) :
    readLE (writeLE m (j + NativeJump.data_offset) 4 (toJintBits val)) (j + NativeJump.data_offset) 4
      = toJintBits val := by
  rw [readLE_writeLE_same]
  exact Nat.mod_eq_of_lt (by simpa using toJintBits_lt val)

/-- Reading back a jump whose destination was set to `dest`: `dest` itself,
unless `dest` is the jump's own address, which reads as `(address)-1`. -/
theorem jump_destination_after_store (b : Build) (m : Mem) (j dest : Nat)
    (hj : j < addrSpace b) (hd : dest < addrSpace b)
    (hr : reach32 b (NativeJump.next_instruction_address j) dest) :
    NativeJump.jump_destination b
      (writeLE m (j + NativeJump.data_offset) 4
        (toJintBits (NativeJump.displacement_for b j dest))) j
      = if dest = j then addrMinusOne b else dest := by
  unfold NativeJump.jump_destination NativeJump.displacement_for
  rw [jump_field_after_store]
  by_cases h1 : dest = addrMinusOne b
  · simp only [h1, if_true]
    have := addrOffset_minus5 b j hj
    simp only [NativeJump.next_instruction_address, NativeJump.instruction_size]
    rw [this]
    simp
  · simp only [h1, if_false]
    rw [addrOffset_jint b _ dest hd hr]

theorem destination_after_store (b : Build) (m : Mem) (self dest : Nat)
    (hd : dest < addrSpace b) (hr : reach32 b (NativeCall.return_address self) dest) :
    NativeCall.destination b
      (writeLE m (self + NativeCall.displacement_offset) 4
        (toJintBits ((dest : Int) - (NativeCall.return_address self : Int)))) self = dest := by
  unfold NativeCall.destination
  rw [readLE_writeLE_same, Nat.mod_eq_of_lt (by simpa using toJintBits_lt _),
    addrOffset_jint b _ dest hd hr]

end HotSpot

namespace HotSpot
open CompiledStaticCall

/-! ## set_to_interpreted -/

theorem traced_mem (b : Build) (vm : VM) (l : TraceLine) :
    (if b.traceICs then vm.print_cr l else vm).mem = vm.mem := by
  split <;> rfl

theorem traced_stores (b : Build) (vm : VM) (l : TraceLine) :
    (if b.traceICs then vm.print_cr l else vm).stores = vm.stores := by
  split <;> rfl

theorem pre_write_check_none (b : Build) (m : Mem) (stub : Nat) (callee : methodHandle)
    (entry : Nat) :
    pre_write_check b m stub (NativeMovConstReg.next_instruction_address b stub) callee entry = none
      ↔ preWriteOk b m stub callee entry := by
  unfold pre_write_check preWriteOk stubJump
  by_cases h1 : NativeMovConstReg.data b m stub = 0 ∨ NativeMovConstReg.data b m stub = callee.method
  · by_cases h2 : NativeJump.jump_destination b m (NativeMovConstReg.next_instruction_address b stub)
        = addrMinusOne b ∨
        NativeJump.jump_destination b m (NativeMovConstReg.next_instruction_address b stub) = entry
    · simp [h1, h2]
    · simp [h1, h2]
  · simp [h1]

/-- When the stub is found and, in a diagnostic build, verifies and passes the
pre-write check, `set_to_interpreted` returns after its three stores. -/
theorem set_to_interpreted_returned_at (b : Build) (vm : VM) (self stub : Nat)
    (callee : methodHandle) (entry : Nat) (hfind : find_stub vm.relocs self = stub)
    (hstub : stub ≠ NULL)
    (hdiag : b.assertOn = true →
      stubVerifies b vm.mem stub = true ∧ preWriteOk b vm.mem stub callee entry) :
    set_to_interpreted b vm self callee entry =
      .returned ((((if b.traceICs then vm.print_cr ⟨self, callee.name_and_sig⟩ else vm).set_data b
        stub callee.method).set_jump_destination b (stubJump b stub) entry).set_destination_mt_safe
        self stub) := by
  subst hfind
  unfold set_to_interpreted nativeMovConstReg_at nativeJump_at
  simp only [hstub, if_false, traced_mem]
  cases ha : b.assertOn
  · simp [stubJump]
  · obtain ⟨hv, hp⟩ := hdiag ha
    unfold stubVerifies stubJump at hv
    simp only [Bool.and_eq_true] at hv
    have hp' := (pre_write_check_none b vm.mem (find_stub vm.relocs self) callee entry).2 hp
    simp [hv.1, hv.2, hp', stubJump]

theorem set_to_interpreted_returned (b : Build) (vm : VM) (self : Nat) (callee : methodHandle)
    (entry : Nat) (hstub : find_stub vm.relocs self ≠ NULL)
    (hdiag : b.assertOn = true →
      stubVerifies b vm.mem (find_stub vm.relocs self) = true ∧
      preWriteOk b vm.mem (find_stub vm.relocs self) callee entry) :
    set_to_interpreted b vm self callee entry =
      .returned ((((if b.traceICs then vm.print_cr ⟨self, callee.name_and_sig⟩ else vm).set_data b
        (find_stub vm.relocs self) callee.method).set_jump_destination b
        (stubJump b (find_stub vm.relocs self)) entry).set_destination_mt_safe self
        (find_stub vm.relocs self)) :=
  set_to_interpreted_returned_at b vm self _ callee entry rfl hstub hdiag

end HotSpot

namespace HotSpot
open CompiledStaticCall

theorem bound_mem (b : Build) (vm : VM) (self stub : Nat) (callee : methodHandle) (entry : Nat) :
    (((vm.set_data b stub callee.method).set_jump_destination b (stubJump b stub)
      entry).set_destination_mt_safe self stub).mem
      = applyStores vm.mem (bindStores b self stub callee entry) := rfl

theorem bound_stores (b : Build) (vm : VM) (self stub : Nat) (callee : methodHandle) (entry : Nat) :
    (((vm.set_data b stub callee.method).set_jump_destination b (stubJump b stub)
      entry).set_destination_mt_safe self stub).stores
      = vm.stores ++ bindStores b self stub callee entry := by
  simp [VM.set_data, VM.set_jump_destination, VM.set_destination_mt_safe, VM.store, bindStores]

/-- The three fields read after the three stores of a bind. -/
theorem reads_after_bind (b : Build) (m : Mem) (self stub : Nat) (callee : methodHandle)
    (entry : Nat) (hsite : StaticCallSite b self stub) (hcallee : callee.method < addrSpace b)
    (hentry : EntryInReach b stub entry) :
    NativeMovConstReg.data b (applyStores m (bindStores b self stub callee entry)) stub
        = callee.method ∧
    NativeJump.jump_destination b (applyStores m (bindStores b self stub callee entry))
        (stubJump b stub) = (if entry = stubJump b stub then addrMinusOne b else entry) ∧
    NativeCall.destination b (applyStores m (bindStores b self stub callee entry)) self = stub := by
  obtain ⟨hspace, hapart, hreach⟩ := hsite
  obtain ⟨he, her⟩ := hentry
  simp only [applyStores, bindStores, List.foldl, stubJump, NativeMovConstReg.next_instruction_address,
    NativeJump.data_offset, NativeCall.displacement_offset, NativeCall.instruction_size,
    NativeJump.next_instruction_address, NativeJump.instruction_size] at *
  have hL := layout_cases b
  refine ⟨?_, ?_, ?_⟩
  · rw [data_frame, data_frame, data_after_store b m stub _ hcallee]
    · rcases hL with ⟨_, _, h2, h3, h4, h5⟩ | ⟨_, _, h2, h3, h4, h5⟩ <;>
        rw [h4] <;> omega
    · rcases hL with ⟨_, _, h2, h3, h4, h5⟩ | ⟨_, _, h2, h3, h4, h5⟩ <;>
        rw [h4, h3] <;> rw [h5] at hapart <;> omega
  · rw [jump_destination_frame]
    · have := jump_destination_after_store b
        (writeLE m (stub + NativeMovConstReg.data_offset b) (wordSize b) callee.method)
        (stub + NativeMovConstReg.instruction_size b) entry
        (by rcases hL with ⟨_, h1, h2, h3, h4, h5⟩ | ⟨_, h1, h2, h3, h4, h5⟩ <;>
              rw [h4] <;> rw [h5] at hspace <;> omega) he
        (by simpa [NativeJump.next_instruction_address, NativeJump.instruction_size] using her)
      simpa [NativeJump.next_instruction_address, NativeJump.instruction_size,
        NativeJump.data_offset] using this
    · rcases hL with ⟨_, h1, h2, h3, h4, h5⟩ | ⟨_, h1, h2, h3, h4, h5⟩ <;>
        rw [h4] <;> rw [h5] at hapart <;> omega
  · have hs : stub < addrSpace b := by
      rcases hL with ⟨_, h1, h2, h3, h4, h5⟩ | ⟨_, h1, h2, h3, h4, h5⟩ <;>
        rw [h5] at hspace <;> omega
    have := destination_after_store b
      (writeLE (writeLE m (stub + NativeMovConstReg.data_offset b) (wordSize b) callee.method)
        (stub + NativeMovConstReg.instruction_size b + 1) 4
        (toJintBits (NativeJump.displacement_for b (stub + NativeMovConstReg.instruction_size b)
          entry)))
      self stub hs
      (by simpa [NativeCall.return_address, NativeCall.instruction_size] using hreach)
    simpa [NativeCall.return_address, NativeCall.instruction_size,
      NativeCall.displacement_offset] using this

end HotSpot

namespace HotSpot
open CompiledStaticCall

/-! ## Claims on set_to_interpreted -/

/-- C1 (amended): for a static call site with a relocation-registered stub
(call instruction outside the stub, stub within the address space and within
reach of the call), every callee handle, and every entry address within reach
of the stub's jump other than the address of that jump itself, whatever the
stub and the call target held before (in a diagnostic build: whenever the
stub verifies and the pre-write check passes), `set_to_interpreted(callee,
entry)` returns, and afterwards the stub's callee-identifier reads `callee`,
the stub's jump destination reads `entry`, and the call's destination reads
the stub address. -/
theorem set_to_interpreted_binds_stub (b : Build) (vm : VM) (self : Nat) (callee : methodHandle)
    (entry : Nat) (hstub : find_stub vm.relocs self ≠ NULL)
    (hsite : StaticCallSite b self (find_stub vm.relocs self))
    (hcallee : callee.method < addrSpace b)
    (hentry : EntryInReach b (find_stub vm.relocs self) entry)
    (hne : entry ≠ stubJump b (find_stub vm.relocs self))
    (hdiag : b.assertOn = true →
      stubVerifies b vm.mem (find_stub vm.relocs self) = true ∧
      preWriteOk b vm.mem (find_stub vm.relocs self) callee entry) :
    ∃ vm', set_to_interpreted b vm self callee entry = .returned vm' ∧
      NativeMovConstReg.data b vm'.mem (find_stub vm.relocs self) = callee.method ∧
      NativeJump.jump_destination b vm'.mem (stubJump b (find_stub vm.relocs self)) = entry ∧
      NativeCall.destination b vm'.mem self = find_stub vm.relocs self := by
  refine ⟨_, set_to_interpreted_returned b vm self callee entry hstub hdiag, ?_⟩
  rw [bound_mem, traced_mem]
  have h := reads_after_bind b vm.mem self (find_stub vm.relocs self) callee entry hsite hcallee
    hentry
  rw [if_neg hne] at h
  exact h

/-- Witness of C1 (amended): the freshly emitted LP64 site, bound to callee A
with entry `0x3000`. -/
theorem set_to_interpreted_binds_stub_witness :
    ∃ vm', set_to_interpreted Sample.debug64 (Sample.freshVM Sample.debug64) 0x2000
        Sample.calleeA 0x3000 = .returned vm' ∧
      NativeMovConstReg.data Sample.debug64 vm'.mem
        (find_stub (Sample.freshVM Sample.debug64).relocs 0x2000) = Sample.calleeA.method ∧
      NativeJump.jump_destination Sample.debug64 vm'.mem
        (stubJump Sample.debug64 (find_stub (Sample.freshVM Sample.debug64).relocs 0x2000))
        = 0x3000 ∧
      NativeCall.destination Sample.debug64 vm'.mem 0x2000
        = find_stub (Sample.freshVM Sample.debug64).relocs 0x2000 :=
  set_to_interpreted_binds_stub Sample.debug64 (Sample.freshVM Sample.debug64) 0x2000
    Sample.calleeA 0x3000 (by decide) (by decide) (by decide) (by decide) (by decide) (by decide)

/-- C1 (counterexample): on the freshly emitted 32-bit site (stub at `0x1000`,
its jump at `0x1005`), in a diagnostic build, `set_to_interpreted(A, 0x1005)`
returns, the pre-write check having passed, but the stub's jump destination
then reads `(address)-1`, not the entry `0x1005`.  And on the freshly emitted
LP64 site (jump at `0x100A`), in a product build, an entry 8 GB away does not
fit the 32-bit displacement: after `set_to_interpreted(A, 0x200000000)` the
jump destination reads `0`. -/
theorem set_to_interpreted_entry_at_own_jump :
    find_stub (Sample.freshVM Sample.debug32).relocs 0x2000 = 0x1000 ∧
    stubJump Sample.debug32 0x1000 = 0x1005 ∧
    StaticCallSite Sample.debug32 0x2000 0x1000 ∧
    EntryInReach Sample.debug32 0x1000 0x1005 ∧
    (set_to_interpreted Sample.debug32 (Sample.freshVM Sample.debug32) 0x2000
      Sample.calleeA 0x1005).isReturned = true ∧
    NativeJump.jump_destination Sample.debug32
      (set_to_interpreted Sample.debug32 (Sample.freshVM Sample.debug32) 0x2000
        Sample.calleeA 0x1005).state.mem 0x1005 = 0xFFFFFFFF ∧
    ¬ (∀ vm', set_to_interpreted Sample.debug32 (Sample.freshVM Sample.debug32) 0x2000
        Sample.calleeA 0x1005 = .returned vm' →
      NativeJump.jump_destination Sample.debug32 vm'.mem 0x1005 = 0x1005) ∧
    find_stub (Sample.freshVM Sample.product64).relocs 0x2000 = 0x1000 ∧
    stubJump Sample.product64 0x1000 = 0x100A ∧
    StaticCallSite Sample.product64 0x2000 0x1000 ∧
    (set_to_interpreted Sample.product64 (Sample.freshVM Sample.product64) 0x2000
      Sample.calleeA 0x200000000).isReturned = true ∧
    NativeJump.jump_destination Sample.product64
      (set_to_interpreted Sample.product64 (Sample.freshVM Sample.product64) 0x2000
        Sample.calleeA 0x200000000).state.mem 0x100A = 0 := by
  refine ⟨by decide, by decide, by decide, by decide, by decide, by decide, ?_,
    by decide, by decide, by decide, by decide, by decide⟩
  intro h
  have hr := set_to_interpreted_returned Sample.debug32 (Sample.freshVM Sample.debug32) 0x2000
    Sample.calleeA 0x1005 (by decide) (by decide)
  have h2 := h _ hr
  revert h2
  decide

/-- C2: when `find_stub()` finds no stub, `set_to_interpreted(callee, entry)`
terminates the VM with the guarantee failure "stub not found", in every build
(whatever `ASSERT` and `TraceICs` are), and the state at that point is the
state before the call: no byte of memory written, no store made, no trace line
printed. -/
theorem set_to_interpreted_stub_not_found (b : Build) (vm : VM) (self : Nat)
    (callee : methodHandle) (entry : Nat) (hstub : find_stub vm.relocs self = NULL) :
    set_to_interpreted b vm self callee entry
      = .terminated (Fatal.guarantee "stub not found") vm := by
  unfold set_to_interpreted
  simp [hstub]

/-- Witness of C2: a site whose relocation records hold no static-stub record. -/
theorem set_to_interpreted_stub_not_found_witness :
    set_to_interpreted Sample.debug64 Sample.noStubVM 0x2000 Sample.calleeA 0x3000
      = .terminated (Fatal.guarantee "stub not found") Sample.noStubVM :=
  set_to_interpreted_stub_not_found Sample.debug64 Sample.noStubVM 0x2000 Sample.calleeA 0x3000
    (by decide)

end HotSpot

namespace HotSpot
open CompiledStaticCall

/-- The call target is not changed by the two stores into the stub. -/
theorem destination_during_bind (b : Build) (m : Mem) (self stub : Nat) (callee : methodHandle)
    (entry : Nat)
    (hapart : self + NativeCall.instruction_size ≤ stub ∨ stub + to_interp_stub_size b ≤ self)
    (k : Nat) (hk : k < 3) :
    NativeCall.destination b (applyStores m ((bindStores b self stub callee entry).take k)) self
      = NativeCall.destination b m self := by
  simp only [NativeCall.instruction_size] at hapart
  have hL := layout_cases b
  have h1 : NativeCall.destination b
      (writeLE m (stub + NativeMovConstReg.data_offset b) (wordSize b) callee.method) self
      = NativeCall.destination b m self := by
    apply destination_frame
    rcases hL with ⟨_, h1, h2, h3, h4, h5⟩ | ⟨_, h1, h2, h3, h4, h5⟩ <;>
      rw [h3, h2] <;> rw [h5] at hapart <;> omega
  interval_cases k
  · rfl
  · simpa [applyStores, bindStores] using h1
  · simp only [applyStores, bindStores, List.take, List.foldl, stubJump,
      NativeMovConstReg.next_instruction_address, NativeJump.data_offset]
    rw [destination_frame, h1]
    rcases hL with ⟨_, h1, h2, h3, h4, h5⟩ | ⟨_, h1, h2, h3, h4, h5⟩ <;>
      rw [h4] <;> rw [h5] at hapart <;> omega

/-- Once the data store is made, the callee-identifier reads `callee`. -/
theorem data_during_bind (b : Build) (m : Mem) (self stub : Nat) (callee : methodHandle)
    (entry : Nat)
    (hapart : self + NativeCall.instruction_size ≤ stub ∨ stub + to_interp_stub_size b ≤ self)
    (hcallee : callee.method < addrSpace b) (k : Nat) (hk1 : 1 ≤ k) (hk : k ≤ 3) :
    NativeMovConstReg.data b (applyStores m ((bindStores b self stub callee entry).take k)) stub
      = callee.method := by
  simp only [NativeCall.instruction_size] at hapart
  have hL := layout_cases b
  have h1 := data_after_store b m stub callee.method hcallee
  have h2 : NativeMovConstReg.data b
      (writeLE (writeLE m (stub + NativeMovConstReg.data_offset b) (wordSize b) callee.method)
        (stub + NativeMovConstReg.instruction_size b + 1) 4
        (toJintBits (NativeJump.displacement_for b (stub + NativeMovConstReg.instruction_size b)
          entry))) stub = callee.method := by
    rw [data_frame, h1]
    rcases hL with ⟨_, h1, h2, h3, h4, h5⟩ | ⟨_, h1, h2, h3, h4, h5⟩ <;> rw [h4] <;> omega
  interval_cases k
  · simpa [applyStores, bindStores] using h1
  · simpa [applyStores, bindStores, stubJump, NativeMovConstReg.next_instruction_address,
      NativeJump.data_offset] using h2
  · simp only [applyStores, bindStores, List.take, List.foldl, stubJump,
      NativeMovConstReg.next_instruction_address, NativeJump.data_offset,
      NativeCall.displacement_offset]
    rw [data_frame, h2]
    rcases hL with ⟨_, h1, h2, h3, h4, h5⟩ | ⟨_, h1, h2, h3, h4, h5⟩ <;>
      rw [h4, h3] <;> rw [h5] at hapart <;> omega

/-- Once the jump store is made, the stub holds `callee` and `entry`. -/
theorem holds_during_bind (b : Build) (m : Mem) (self stub : Nat) (callee : methodHandle)
    (entry : Nat)
    (hapart : self + NativeCall.instruction_size ≤ stub ∨ stub + to_interp_stub_size b ≤ self)
    (hcallee : callee.method < addrSpace b) (k : Nat) (hk1 : 2 ≤ k) (hk : k ≤ 3) :
    stubHolds b (applyStores m ((bindStores b self stub callee entry).take k)) stub callee
      entry := by
  refine ⟨data_during_bind b m self stub callee entry hapart hcallee k (by omega) hk, ?_⟩
  simp only [NativeCall.instruction_size] at hapart
  have hL := layout_cases b
  have h2 : readLE
      (writeLE (writeLE m (stub + NativeMovConstReg.data_offset b) (wordSize b) callee.method)
        (stubJump b stub + NativeJump.data_offset) 4
        (toJintBits (NativeJump.displacement_for b (stubJump b stub) entry)))
      (stubJump b stub + NativeJump.data_offset) 4
      = toJintBits (NativeJump.displacement_for b (stubJump b stub) entry) :=
    jump_field_after_store _ _ _
  interval_cases k
  · simpa [applyStores, bindStores] using h2
  · simp only [applyStores, bindStores, List.take, List.foldl]
    rw [readLE_writeLE_disjoint, h2]
    simp only [stubJump, NativeMovConstReg.next_instruction_address, NativeJump.data_offset,
      NativeCall.displacement_offset]
    rcases hL with ⟨_, h1, h2, h3, h4, h5⟩ | ⟨_, h1, h2, h3, h4, h5⟩ <;>
      rw [h4] <;> rw [h5] at hapart <;> omega

/-- C3: `set_to_interpreted(callee, entry)` makes exactly three stores, in
this order: the stub's callee-identifier, the stub's jump displacement, the
call's displacement.  For a site whose call target is not the stub beforehand,
in every state of the operation (after none, one, two or all three of the
stores): the call target is the one from before until the third store, and if
the call target is the stub then the stub holds `callee` and `entry`; and in
every state in which the jump store has been made (two or three stores done)
the callee-identifier already reads `callee`. -/
theorem set_to_interpreted_store_order (b : Build) (vm : VM) (self : Nat) (callee : methodHandle)
    (entry : Nat) (hstub : find_stub vm.relocs self ≠ NULL)
    (hapart : self + NativeCall.instruction_size ≤ find_stub vm.relocs self ∨
      find_stub vm.relocs self + to_interp_stub_size b ≤ self)
    (hcallee : callee.method < addrSpace b)
    (hbefore : NativeCall.destination b vm.mem self ≠ find_stub vm.relocs self)
    (hdiag : b.assertOn = true →
      stubVerifies b vm.mem (find_stub vm.relocs self) = true ∧
      preWriteOk b vm.mem (find_stub vm.relocs self) callee entry) :
    ∃ vm', set_to_interpreted b vm self callee entry = .returned vm' ∧
      vm'.stores = vm.stores ++ bindStores b self (find_stub vm.relocs self) callee entry ∧
      vm'.mem = applyStores vm.mem (bindStores b self (find_stub vm.relocs self) callee entry) ∧
      (bindStores b self (find_stub vm.relocs self) callee entry).map Store.addr =
        [find_stub vm.relocs self + NativeMovConstReg.data_offset b,
         stubJump b (find_stub vm.relocs self) + NativeJump.data_offset,
         self + NativeCall.displacement_offset] ∧
      (∀ k, k < 3 →
        NativeCall.destination b (applyStores vm.mem
          ((bindStores b self (find_stub vm.relocs self) callee entry).take k)) self
          = NativeCall.destination b vm.mem self) ∧
      (∀ k, k ≤ 3 →
        NativeCall.destination b (applyStores vm.mem
          ((bindStores b self (find_stub vm.relocs self) callee entry).take k)) self
          = find_stub vm.relocs self →
        stubHolds b (applyStores vm.mem
          ((bindStores b self (find_stub vm.relocs self) callee entry).take k))
          (find_stub vm.relocs self) callee entry) ∧
      (∀ k, 2 ≤ k → k ≤ 3 →
        NativeMovConstReg.data b (applyStores vm.mem
          ((bindStores b self (find_stub vm.relocs self) callee entry).take k))
          (find_stub vm.relocs self) = callee.method) := by
  refine ⟨_, set_to_interpreted_returned b vm self callee entry hstub hdiag, ?_, ?_, ?_, ?_, ?_, ?_⟩
  · rw [bound_stores, traced_stores]
  · rw [bound_mem, traced_mem]
  · simp [bindStores]
  · exact fun k hk => destination_during_bind b vm.mem self _ callee entry hapart k hk
  · intro k hk h
    by_cases hk3 : k < 3
    · rw [destination_during_bind b vm.mem self _ callee entry hapart k hk3] at h
      exact absurd h hbefore
    · exact holds_during_bind b vm.mem self _ callee entry hapart hcallee k (by omega) hk
  · exact fun k h2 h3 =>
      data_during_bind b vm.mem self _ callee entry hapart hcallee k (by omega) h3

/-- Witness of C3: binding the freshly emitted LP64 site, whose call does not
target the stub yet. -/
theorem set_to_interpreted_store_order_witness :
    (set_to_interpreted Sample.debug64 (Sample.freshVM Sample.debug64) 0x2000
      Sample.calleeA 0x3000).state.stores
      = [⟨0x1002, 8, 0x7700⟩, ⟨0x100B, 4, 0x1FF1⟩, ⟨0x2001, 4, 0xFFFFEFFB⟩] := by
  obtain ⟨vm', h1, h2, _⟩ := set_to_interpreted_store_order Sample.debug64
    (Sample.freshVM Sample.debug64) 0x2000 Sample.calleeA 0x3000 (by decide) (by decide)
    (by decide) (by decide) (by decide)
  rw [h1]
  simp only [Result.state]
  rw [h2]
  decide

end HotSpot

namespace HotSpot
open CompiledStaticCall

/-! ## set_stub_to_clean -/

theorem stubVerifies_stub_store (b : Build) (m : Mem) (stub x : Nat) (val : Int) :
    stubVerifies b
      (writeLE (writeLE m (stub + NativeMovConstReg.data_offset b) (wordSize b) x)
        (stubJump b stub + NativeJump.data_offset) 4 (toJintBits val)) stub
      = stubVerifies b m stub := by
  unfold stubVerifies
  have hL := layout_cases b
  simp only [stubJump, NativeMovConstReg.next_instruction_address, NativeJump.data_offset]
  rw [movVerify_frame, movVerify_frame, jumpVerify_frame, jumpVerify_frame]
  all_goals
    rcases hL with ⟨_, h1, h2, h3, h4, h5⟩ | ⟨_, h1, h2, h3, h4, h5⟩ <;>
      simp only [h2, h3, h4] <;> omega

theorem stubVerifies_bind (b : Build) (m : Mem) (self stub : Nat) (callee : methodHandle)
    (entry : Nat)
    (hapart : self + NativeCall.instruction_size ≤ stub ∨ stub + to_interp_stub_size b ≤ self) :
    stubVerifies b (applyStores m (bindStores b self stub callee entry)) stub
      = stubVerifies b m stub := by
  simp only [applyStores, bindStores, List.foldl]
  rw [← stubVerifies_stub_store b m stub callee.method
    (NativeJump.displacement_for b (stubJump b stub) entry)]
  unfold stubVerifies
  have hL := layout_cases b
  simp only [NativeCall.instruction_size] at hapart
  simp only [stubJump, NativeMovConstReg.next_instruction_address, NativeJump.data_offset,
    NativeCall.displacement_offset]
  rw [movVerify_frame, jumpVerify_frame]
  all_goals
    rcases hL with ⟨_, h1, h2, h3, h4, h5⟩ | ⟨_, h1, h2, h3, h4, h5⟩ <;>
      simp only [h2, h3, h4] <;> rw [h5] at hapart <;> omega

/-- In a product build, and in a diagnostic build when the lock is held or the
VM is at a safepoint and the stub is non-null and verifies, `set_stub_to_clean`
returns after its two stores. -/
theorem set_stub_to_clean_returned (b : Build) (vm : VM) (static_stub : Reloc)
    (hdiag : b.assertOn = true →
      (vm.CompiledIC_lock_is_locked = true ∨ vm.is_at_safepoint = true) ∧
      static_stub.addr ≠ NULL ∧ stubVerifies b vm.mem static_stub.addr = true) :
    set_stub_to_clean b vm static_stub =
      .returned ((vm.set_data b static_stub.addr 0).set_jump_destination b
        (stubJump b static_stub.addr) (addrMinusOne b)) := by
  unfold set_stub_to_clean nativeMovConstReg_at nativeJump_at
  cases ha : b.assertOn
  · simp [stubJump]
  · obtain ⟨hl, hn, hv⟩ := hdiag ha
    unfold stubVerifies stubJump at hv
    simp only [Bool.and_eq_true] at hv
    have hj : NativeJump.verify (vm.set_data b static_stub.addr 0).mem
        (NativeMovConstReg.next_instruction_address b static_stub.addr) = true := by
      simp only [VM.set_data, VM.store, NativeMovConstReg.next_instruction_address]
      rw [jumpVerify_frame, ← hv.2]
      · rfl
      · rcases layout_cases b with ⟨_, h1, h2, h3, h4, h5⟩ | ⟨_, h1, h2, h3, h4, h5⟩ <;>
          simp only [h2, h3, h4] <;> omega
    have hl' : (vm.CompiledIC_lock_is_locked || vm.is_at_safepoint) = true := by
      rcases hl with h | h <;> simp [h]
    simp [hl', hn, hv.1, hj, stubJump]

theorem clean_mem (b : Build) (vm : VM) (stub : Nat) :
    ((vm.set_data b stub 0).set_jump_destination b (stubJump b stub) (addrMinusOne b)).mem
      = writeLE (writeLE vm.mem (stub + NativeMovConstReg.data_offset b) (wordSize b) 0)
          (stubJump b stub + NativeJump.data_offset) 4
          (toJintBits (NativeJump.displacement_for b (stubJump b stub) (addrMinusOne b))) := rfl

theorem addrSpace_pos (b : Build) : 0 < addrSpace b := by
  rcases layout_cases b with ⟨_, h1, _⟩ | ⟨_, h1, _⟩ <;> rw [h1] <;> norm_num

/-- The two fields of the stub read after the two stores of a reset. -/
theorem reads_after_clean (b : Build) (m : Mem) (stub : Nat)
    (hspace : stub + to_interp_stub_size b ≤ addrSpace b) :
    NativeMovConstReg.data b
      (writeLE (writeLE m (stub + NativeMovConstReg.data_offset b) (wordSize b) 0)
          (stubJump b stub + NativeJump.data_offset) 4
          (toJintBits (NativeJump.displacement_for b (stubJump b stub) (addrMinusOne b)))) stub = 0 ∧
    NativeJump.jump_destination b
      (writeLE (writeLE m (stub + NativeMovConstReg.data_offset b) (wordSize b) 0)
          (stubJump b stub + NativeJump.data_offset) 4
          (toJintBits (NativeJump.displacement_for b (stubJump b stub) (addrMinusOne b))))
      (stubJump b stub) = addrMinusOne b ∧
    readLE
      (writeLE (writeLE m (stub + NativeMovConstReg.data_offset b) (wordSize b) 0)
          (stubJump b stub + NativeJump.data_offset) 4
          (toJintBits (NativeJump.displacement_for b (stubJump b stub) (addrMinusOne b))))
      (stubJump b stub + NativeJump.data_offset) 4 = toJintBits (-5) := by
  have hL := layout_cases b
  have hj : stubJump b stub < addrSpace b := by
    simp only [stubJump, NativeMovConstReg.next_instruction_address]
    rcases hL with ⟨_, h1, h2, h3, h4, h5⟩ | ⟨_, h1, h2, h3, h4, h5⟩ <;>
      rw [h4] <;> rw [h5] at hspace <;> omega
  refine ⟨?_, ?_, ?_⟩
  · rw [data_frame, data_after_store b m stub 0 (addrSpace_pos b)]
    simp only [stubJump, NativeMovConstReg.next_instruction_address, NativeJump.data_offset]
    omega
  · unfold NativeJump.jump_destination
    rw [jump_field_after_store]
    simp only [NativeJump.displacement_for, if_true, NativeJump.next_instruction_address,
      NativeJump.instruction_size]
    rw [addrOffset_minus5 b _ hj]
    simp
  · rw [jump_field_after_store]
    simp [NativeJump.displacement_for]

/-- C4: for every static-stub relocation with a non-null stub address (the
stub lying in the address space), whatever the stub held before,
`set_stub_to_clean` returns (in a diagnostic build: given that the lock is
held or the VM is at a safepoint, and that the stub verifies), and afterwards
the stub's callee-identifier reads 0 and the stub's jump destination reads as
the unresolved sentinel `(address)-1`, the jump being encoded as the jump to
self (displacement -5). -/
theorem set_stub_to_clean_resets_stub (b : Build) (vm : VM) (static_stub : Reloc)
    (hstub : static_stub.addr ≠ NULL)
    (hspace : static_stub.addr + to_interp_stub_size b ≤ addrSpace b)
    (hdiag : b.assertOn = true →
      (vm.CompiledIC_lock_is_locked = true ∨ vm.is_at_safepoint = true) ∧
      stubVerifies b vm.mem static_stub.addr = true) :
    ∃ vm', set_stub_to_clean b vm static_stub = .returned vm' ∧
      NativeMovConstReg.data b vm'.mem static_stub.addr = 0 ∧
      NativeJump.jump_destination b vm'.mem (stubJump b static_stub.addr) = addrMinusOne b ∧
      readLE vm'.mem (stubJump b static_stub.addr + NativeJump.data_offset) 4
        = toJintBits (-5) := by
  refine ⟨_, set_stub_to_clean_returned b vm static_stub
    (fun ha => ⟨(hdiag ha).1, hstub, (hdiag ha).2⟩), ?_⟩
  rw [clean_mem]
  exact reads_after_clean b vm.mem static_stub.addr hspace

end HotSpot

namespace HotSpot
open CompiledStaticCall

/-- Witness of C4: resetting the stub of a site bound to callee A. -/
theorem set_stub_to_clean_resets_stub_witness :
    ∃ vm', set_stub_to_clean Sample.debug64 (Sample.boundVM Sample.debug64) Sample.stubReloc
        = .returned vm' ∧
      NativeMovConstReg.data Sample.debug64 vm'.mem Sample.stubReloc.addr = 0 ∧
      NativeJump.jump_destination Sample.debug64 vm'.mem
        (stubJump Sample.debug64 Sample.stubReloc.addr) = addrMinusOne Sample.debug64 ∧
      readLE vm'.mem (stubJump Sample.debug64 Sample.stubReloc.addr + NativeJump.data_offset) 4
        = toJintBits (-5) :=
  set_stub_to_clean_resets_stub Sample.debug64 (Sample.boundVM Sample.debug64) Sample.stubReloc
    (by decide) (by decide) (by decide)

/-! ## Sequences of binds and resets -/

theorem bound_relocs (b : Build) (vm : VM) (l : TraceLine) (self stub : Nat)
    (callee : methodHandle) (entry : Nat) :
    ((((if b.traceICs then vm.print_cr l else vm).set_data b stub callee.method).set_jump_destination
      b (stubJump b stub) entry).set_destination_mt_safe self stub).relocs = vm.relocs := by
  cases b.traceICs <;> rfl

theorem bound_flags (b : Build) (vm : VM) (l : TraceLine) (self stub : Nat)
    (callee : methodHandle) (entry : Nat) :
    ((((if b.traceICs then vm.print_cr l else vm).set_data b stub callee.method).set_jump_destination
      b (stubJump b stub) entry).set_destination_mt_safe self stub).CompiledIC_lock_is_locked
      = vm.CompiledIC_lock_is_locked ∧
    ((((if b.traceICs then vm.print_cr l else vm).set_data b stub callee.method).set_jump_destination
      b (stubJump b stub) entry).set_destination_mt_safe self stub).is_at_safepoint
      = vm.is_at_safepoint := by
  cases b.traceICs <;> exact ⟨rfl, rfl⟩

/-- Making the three stores of a bind a second time changes nothing. -/
theorem applyStores_bind_twice (b : Build) (m : Mem) (self stub : Nat) (callee : methodHandle)
    (entry : Nat) :
    applyStores (applyStores m (bindStores b self stub callee entry))
      (bindStores b self stub callee entry)
      = applyStores m (bindStores b self stub callee entry) := by
  funext x
  simp only [applyStores, bindStores, List.foldl, writeLE]
  split_ifs <;> rfl

/-- The pre-write check passes on a clean stub, for every callee and entry. -/
theorem preWriteOk_of_clean (b : Build) (m : Mem) (stub : Nat) (callee : methodHandle)
    (entry : Nat) (h1 : NativeMovConstReg.data b m stub = 0)
    (h2 : NativeJump.jump_destination b m (stubJump b stub) = addrMinusOne b) :
    preWriteOk b m stub callee entry :=
  ⟨Or.inl h1, Or.inl h2⟩

/-- The pre-write check passes on a stub bound to the same callee and entry. -/
theorem preWriteOk_after_bind (b : Build) (m : Mem) (self stub : Nat) (callee : methodHandle)
    (entry : Nat) (hsite : StaticCallSite b self stub) (hcallee : callee.method < addrSpace b)
    (hentry : EntryInReach b stub entry) :
    preWriteOk b (applyStores m (bindStores b self stub callee entry)) stub callee entry := by
  obtain ⟨h1, h2, _⟩ := reads_after_bind b m self stub callee entry hsite hcallee hentry
  refine ⟨Or.inr h1, ?_⟩
  rw [h2]
  by_cases h : entry = stubJump b stub
  · simp [h]
  · simp [h]

/-- A reset followed by a bind: the state it returns with. -/
theorem clean_then_bind (b : Build) (vm : VM) (self : Nat) (static_stub : Reloc)
    (callee : methodHandle) (entry : Nat)
    (hrel : static_stub.addr = find_stub vm.relocs self)
    (hstub : find_stub vm.relocs self ≠ NULL)
    (hsite : StaticCallSite b self (find_stub vm.relocs self))
    (hdiag : b.assertOn = true →
      (vm.CompiledIC_lock_is_locked = true ∨ vm.is_at_safepoint = true) ∧
      stubVerifies b vm.mem (find_stub vm.relocs self) = true) :
    ∃ vm0 vm1, set_stub_to_clean b vm static_stub = .returned vm0 ∧
      set_to_interpreted b vm0 self callee entry = .returned vm1 ∧
      vm1.relocs = vm.relocs ∧
      vm1.CompiledIC_lock_is_locked = vm.CompiledIC_lock_is_locked ∧
      vm1.is_at_safepoint = vm.is_at_safepoint ∧
      vm1.mem = applyStores vm0.mem (bindStores b self (find_stub vm.relocs self) callee entry) ∧
      stubVerifies b vm1.mem (find_stub vm.relocs self)
        = stubVerifies b vm.mem (find_stub vm.relocs self) := by
  have hc := set_stub_to_clean_returned b vm static_stub
    (fun ha => ⟨(hdiag ha).1, by rw [hrel]; exact hstub, by rw [hrel]; exact (hdiag ha).2⟩)
  rw [hrel] at hc
  obtain ⟨hspace, hapart, _⟩ := hsite
  obtain ⟨r1, r2, _⟩ := reads_after_clean b vm.mem (find_stub vm.relocs self) hspace
  have hv0 := stubVerifies_stub_store b vm.mem (find_stub vm.relocs self) 0
    (NativeJump.displacement_for b (stubJump b (find_stub vm.relocs self)) (addrMinusOne b))
  have hb := set_to_interpreted_returned_at b
    ((vm.set_data b (find_stub vm.relocs self) 0).set_jump_destination b
      (stubJump b (find_stub vm.relocs self)) (addrMinusOne b)) self (find_stub vm.relocs self)
    callee entry rfl hstub
    (fun ha => ⟨by rw [clean_mem, hv0]; exact (hdiag ha).2,
      preWriteOk_of_clean b _ _ callee entry (by rw [clean_mem]; exact r1)
        (by rw [clean_mem]; exact r2)⟩)
  refine ⟨_, _, hc, hb, ?_, ?_, ?_, ?_, ?_⟩
  · rw [bound_relocs]; rfl
  · rw [(bound_flags _ _ _ _ _ _ _).1]; rfl
  · rw [(bound_flags _ _ _ _ _ _ _).2]; rfl
  · rw [bound_mem, traced_mem]
  · rw [bound_mem, traced_mem, stubVerifies_bind b _ self _ callee entry hapart, clean_mem, hv0]

end HotSpot

namespace HotSpot
open CompiledStaticCall

/-- What a bind that returns leaves behind. -/
theorem bind_spec (b : Build) (vm : VM) (self stub : Nat) (callee : methodHandle) (entry : Nat)
    (hfind : find_stub vm.relocs self = stub) (hstub : stub ≠ NULL)
    (hapart : self + NativeCall.instruction_size ≤ stub ∨ stub + to_interp_stub_size b ≤ self)
    (hdiag : b.assertOn = true →
      stubVerifies b vm.mem stub = true ∧ preWriteOk b vm.mem stub callee entry) :
    ∃ vm1, set_to_interpreted b vm self callee entry = .returned vm1 ∧
      vm1.relocs = vm.relocs ∧
      vm1.CompiledIC_lock_is_locked = vm.CompiledIC_lock_is_locked ∧
      vm1.is_at_safepoint = vm.is_at_safepoint ∧
      vm1.mem = applyStores vm.mem (bindStores b self stub callee entry) ∧
      stubVerifies b vm1.mem stub = stubVerifies b vm.mem stub := by
  refine ⟨_, set_to_interpreted_returned_at b vm self stub callee entry hfind hstub hdiag,
    bound_relocs _ _ _ _ _ _ _, (bound_flags _ _ _ _ _ _ _).1, (bound_flags _ _ _ _ _ _ _).2, ?_, ?_⟩
  · rw [bound_mem, traced_mem]
  · rw [bound_mem, traced_mem, stubVerifies_bind b _ self _ callee entry hapart]

/-- What a reset that returns leaves behind. -/
theorem clean_spec (b : Build) (vm : VM) (static_stub : Reloc)
    (hspace : static_stub.addr + to_interp_stub_size b ≤ addrSpace b)
    (hdiag : b.assertOn = true →
      (vm.CompiledIC_lock_is_locked = true ∨ vm.is_at_safepoint = true) ∧
      static_stub.addr ≠ NULL ∧ stubVerifies b vm.mem static_stub.addr = true) :
    ∃ vm1, set_stub_to_clean b vm static_stub = .returned vm1 ∧
      vm1.relocs = vm.relocs ∧
      NativeMovConstReg.data b vm1.mem static_stub.addr = 0 ∧
      NativeJump.jump_destination b vm1.mem (stubJump b static_stub.addr) = addrMinusOne b ∧
      stubVerifies b vm1.mem static_stub.addr = stubVerifies b vm.mem static_stub.addr := by
  obtain ⟨r1, r2, _⟩ := reads_after_clean b vm.mem static_stub.addr hspace
  refine ⟨_, set_stub_to_clean_returned b vm static_stub hdiag, rfl, ?_, ?_, ?_⟩
  · rw [clean_mem]; exact r1
  · rw [clean_mem]; exact r2
  · rw [clean_mem, stubVerifies_stub_store]

/-- In a diagnostic build, on a stub that is found and verifies,
`set_to_interpreted` returns exactly when the pre-write check passes. -/
theorem set_to_interpreted_diag (b : Build) (vm : VM) (self stub : Nat) (callee : methodHandle)
    (entry : Nat) (hb : b.assertOn = true) (hfind : find_stub vm.relocs self = stub)
    (hstub : stub ≠ NULL) (hver : stubVerifies b vm.mem stub = true) :
    set_to_interpreted b vm self callee entry =
      match pre_write_check b vm.mem stub (stubJump b stub) callee entry with
      | some e => .terminated e (if b.traceICs then vm.print_cr ⟨self, callee.name_and_sig⟩ else vm)
      | none => .returned ((((if b.traceICs then vm.print_cr ⟨self, callee.name_and_sig⟩
          else vm).set_data b stub callee.method).set_jump_destination b (stubJump b stub)
          entry).set_destination_mt_safe self stub) := by
  subst hfind
  unfold set_to_interpreted nativeMovConstReg_at nativeJump_at
  unfold stubVerifies stubJump at hver
  simp only [Bool.and_eq_true] at hver
  simp [hstub, traced_mem, hb, hver.1, hver.2, stubJump]

/-- C5 (amended): rebinding to an unchanged target is a no-op.  For a site
with a stub and every `(A, eA)` whose entry `eA` is within reach of the stub's
jump, the sequence `set_stub_to_clean; set_to_interpreted(A, eA)` returns, a
second `set_to_interpreted(A, eA)` then passes the diagnostic-build check and
returns, and it leaves code memory as it was: the stub's callee-identifier,
the stub's jump destination and the call target read the same after two binds
as after one. -/
theorem rebind_same_target_is_noop (b : Build) (vm : VM) (self : Nat) (static_stub : Reloc)
    (A : methodHandle) (eA : Nat)
    (hrel : static_stub.addr = find_stub vm.relocs self)
    (hstub : find_stub vm.relocs self ≠ NULL)
    (hsite : StaticCallSite b self (find_stub vm.relocs self))
    (hA : A.method < addrSpace b)
    (heA : EntryInReach b (find_stub vm.relocs self) eA)
    (hdiag : b.assertOn = true →
      (vm.CompiledIC_lock_is_locked = true ∨ vm.is_at_safepoint = true) ∧
      stubVerifies b vm.mem (find_stub vm.relocs self) = true) :
    ∃ vm1 vm2,
      (set_stub_to_clean b vm static_stub).andThen
        (fun s => set_to_interpreted b s self A eA) = .returned vm1 ∧
      ((set_stub_to_clean b vm static_stub).andThen
        (fun s => set_to_interpreted b s self A eA)).andThen
        (fun s => set_to_interpreted b s self A eA) = .returned vm2 ∧
      preWriteOk b vm1.mem (find_stub vm.relocs self) A eA ∧
      vm2.mem = vm1.mem ∧
      NativeMovConstReg.data b vm2.mem (find_stub vm.relocs self)
        = NativeMovConstReg.data b vm1.mem (find_stub vm.relocs self) ∧
      NativeJump.jump_destination b vm2.mem (stubJump b (find_stub vm.relocs self))
        = NativeJump.jump_destination b vm1.mem (stubJump b (find_stub vm.relocs self)) ∧
      NativeCall.destination b vm2.mem self = NativeCall.destination b vm1.mem self := by
  obtain ⟨vm0, vm1, hc, hb1, hrelocs, _, _, hmem, hver⟩ :=
    clean_then_bind b vm self static_stub A eA hrel hstub hsite hdiag
  have hok : preWriteOk b vm1.mem (find_stub vm.relocs self) A eA := by
    rw [hmem]; exact preWriteOk_after_bind b vm0.mem self _ A eA hsite hA heA
  obtain ⟨vm2, hb2, _, _, _, hmem2, _⟩ := bind_spec b vm1 self (find_stub vm.relocs self) A eA
    (by rw [hrelocs]) hstub hsite.2.1
    (fun ha => ⟨by rw [hver]; exact (hdiag ha).2, hok⟩)
  have hsame : vm2.mem = vm1.mem := by
    rw [hmem2, hmem, applyStores_bind_twice]
  refine ⟨vm1, vm2, ?_, ?_, hok, hsame, ?_, ?_, ?_⟩
  · rw [hc]; exact hb1
  · rw [hc]; simp only [Result.andThen]; rw [hb1]; exact hb2
  · rw [hsame]
  · rw [hsame]
  · rw [hsame]

/-- Witness of C5 (amended): resetting the bound LP64 site and binding it
twice to callee B with entry `0x4000`. -/
theorem rebind_same_target_is_noop_witness :
    ∃ vm1 vm2,
      (set_stub_to_clean Sample.debug64 (Sample.boundVM Sample.debug64) Sample.stubReloc).andThen
        (fun s => set_to_interpreted Sample.debug64 s 0x2000 Sample.calleeB 0x4000)
        = .returned vm1 ∧
      ((set_stub_to_clean Sample.debug64 (Sample.boundVM Sample.debug64)
        Sample.stubReloc).andThen
        (fun s => set_to_interpreted Sample.debug64 s 0x2000 Sample.calleeB 0x4000)).andThen
        (fun s => set_to_interpreted Sample.debug64 s 0x2000 Sample.calleeB 0x4000)
        = .returned vm2 ∧
      vm2.mem = vm1.mem := by
  obtain ⟨vm1, vm2, h1, h2, _, h4, _⟩ := rebind_same_target_is_noop Sample.debug64
    (Sample.boundVM Sample.debug64) 0x2000 Sample.stubReloc Sample.calleeB 0x4000
    (by decide) (by decide) (by decide) (by decide) (by decide) (by decide)
  exact ⟨vm1, vm2, h1, h2, h4⟩

/-- C5 (counterexample): on the LP64 sample site in a diagnostic build, the
entry `0x200000000` lies 8 GB from the stub's jump at `0x100A` and does not fit
its 32-bit displacement.  After `set_stub_to_clean`, the first
`set_to_interpreted(A, 0x200000000)` returns and the jump destination then
reads `0`; the second `set_to_interpreted(A, 0x200000000)` reads neither
`(address)-1` nor the entry and stops at assertion b). -/
theorem rebind_out_of_reach_entry_stops :
    StaticCallSite Sample.debug64 0x2000 0x1000 ∧
    find_stub (Sample.boundVM Sample.debug64).relocs 0x2000 = 0x1000 ∧
    Sample.calleeA.method < addrSpace Sample.debug64 ∧
    0x200000000 < addrSpace Sample.debug64 ∧
    ((set_stub_to_clean Sample.debug64 (Sample.boundVM Sample.debug64) Sample.stubReloc).andThen
      (fun s => set_to_interpreted Sample.debug64 s 0x2000 Sample.calleeA
        0x200000000)).isReturned = true ∧
    NativeJump.jump_destination Sample.debug64
      ((set_stub_to_clean Sample.debug64 (Sample.boundVM Sample.debug64)
        Sample.stubReloc).andThen
        (fun s => set_to_interpreted Sample.debug64 s 0x2000 Sample.calleeA
          0x200000000)).state.mem 0x100A = 0 ∧
    (((set_stub_to_clean Sample.debug64 (Sample.boundVM Sample.debug64)
      Sample.stubReloc).andThen
      (fun s => set_to_interpreted Sample.debug64 s 0x2000 Sample.calleeA 0x200000000)).andThen
      (fun s => set_to_interpreted Sample.debug64 s 0x2000 Sample.calleeA
        0x200000000)).isReturned = false ∧
    ((set_stub_to_clean Sample.debug64 (Sample.boundVM Sample.debug64)
      Sample.stubReloc).andThen
      (fun s => set_to_interpreted Sample.debug64 s 0x2000 Sample.calleeA 0x200000000)).andThen
      (fun s => set_to_interpreted Sample.debug64 s 0x2000 Sample.calleeA 0x200000000)
      = .terminated (Fatal.assertion "b) MT-unsafe modification of inline cache")
        (((set_stub_to_clean Sample.debug64 (Sample.boundVM Sample.debug64)
          Sample.stubReloc).andThen
          (fun s => set_to_interpreted Sample.debug64 s 0x2000 Sample.calleeA
            0x200000000)).andThen
          (fun s => set_to_interpreted Sample.debug64 s 0x2000 Sample.calleeA
            0x200000000)).state := by
  refine ⟨by decide, by decide, by decide, by decide, by decide, by decide, by decide, ?_⟩
  rfl

end HotSpot

namespace HotSpot
open CompiledStaticCall

/-! ## The pre-write check -/

theorem applyStores_bind_full (b : Build) (m : Mem) (self stub : Nat) (callee : methodHandle)
    (entry : Nat) :
    applyStores m ((bindStores b self stub callee entry).take 3)
      = applyStores m (bindStores b self stub callee entry) := rfl

/-- C6 (amended): in a diagnostic build, on a site whose stub is found and
verifies, `set_to_interpreted(callee, entry)` passes its pre-write check (and
returns) if and only if the stub's current callee-identifier is 0 or equals
`callee` and the stub's current jump destination is `(address)-1` or equals
`entry`.  Hence, when a first `bind(A, eA)` passes: `bind(A, eA);
set_stub_to_clean; bind(B, eB)` passes the check at each step and, for an
entry `eB` within reach of the stub's jump other than the address of that jump
itself, ends in the state `{B, eB}`, the callee-identifier reading `B`, the
jump destination `eB` and the call targeting the stub; while `bind(A, eA)`
immediately followed by `bind(B, eB)`, for `A` non-zero and `B` a different
callee, terminates at assertion a) before any store of the second bind. -/
theorem pre_write_check_decides (b : Build) (vm : VM) (self : Nat) (static_stub : Reloc)
    (A B : methodHandle) (eA eB : Nat)
    (hb : b.assertOn = true)
    (hstub : find_stub vm.relocs self ≠ NULL)
    (hsite : StaticCallSite b self (find_stub vm.relocs self))
    (hver : stubVerifies b vm.mem (find_stub vm.relocs self) = true) :
    (∀ callee entry, (set_to_interpreted b vm self callee entry).isReturned = true ↔
      preWriteOk b vm.mem (find_stub vm.relocs self) callee entry) ∧
    (preWriteOk b vm.mem (find_stub vm.relocs self) A eA →
      B.method < addrSpace b →
      EntryInReach b (find_stub vm.relocs self) eB →
      eB ≠ stubJump b (find_stub vm.relocs self) →
      static_stub.addr = find_stub vm.relocs self →
      (vm.CompiledIC_lock_is_locked = true ∨ vm.is_at_safepoint = true) →
      ∃ vm1 vm2 vm3, set_to_interpreted b vm self A eA = .returned vm1 ∧
        set_stub_to_clean b vm1 static_stub = .returned vm2 ∧
        preWriteOk b vm2.mem (find_stub vm.relocs self) B eB ∧
        set_to_interpreted b vm2 self B eB = .returned vm3 ∧
        NativeMovConstReg.data b vm3.mem (find_stub vm.relocs self) = B.method ∧
        NativeJump.jump_destination b vm3.mem (stubJump b (find_stub vm.relocs self)) = eB ∧
        NativeCall.destination b vm3.mem self = find_stub vm.relocs self) ∧
    (preWriteOk b vm.mem (find_stub vm.relocs self) A eA →
      A.method < addrSpace b → A.method ≠ 0 → B.method ≠ A.method →
      ∃ vm1, set_to_interpreted b vm self A eA = .returned vm1 ∧
        vm1.stores = vm.stores ++ bindStores b self (find_stub vm.relocs self) A eA ∧
        ¬ preWriteOk b vm1.mem (find_stub vm.relocs self) B eB ∧
        set_to_interpreted b vm1 self B eB =
          .terminated (Fatal.assertion "a) MT-unsafe modification of inline cache")
            (if b.traceICs then vm1.print_cr ⟨self, B.name_and_sig⟩ else vm1)) := by
  have hsite' := hsite
  obtain ⟨hspace, hapart, _⟩ := hsite
  refine ⟨?_, ?_, ?_⟩
  · intro callee entry
    rw [set_to_interpreted_diag b vm self _ callee entry hb rfl hstub hver,
      ← pre_write_check_none]
    unfold stubJump
    cases pre_write_check b vm.mem (find_stub vm.relocs self)
      (NativeMovConstReg.next_instruction_address b (find_stub vm.relocs self)) callee entry <;>
      simp [Result.isReturned]
  · intro hokA hB hreach hne hrel hlock
    obtain ⟨vm1, h1, hr1, hl1, hs1, hm1, hv1⟩ := bind_spec b vm self _ A eA rfl hstub hapart
      (fun _ => ⟨hver, hokA⟩)
    obtain ⟨vm2, h2, hr2, hd2, hj2, hv2⟩ := clean_spec b vm1 static_stub
      (by rw [hrel]; exact hspace)
      (fun _ => ⟨by rw [hl1, hs1]; exact hlock, by rw [hrel]; exact hstub,
        by rw [hrel, hv1]; exact hver⟩)
    rw [hrel] at hd2 hj2 hv2
    have hok2 : preWriteOk b vm2.mem (find_stub vm.relocs self) B eB :=
      preWriteOk_of_clean b vm2.mem _ B eB hd2 hj2
    obtain ⟨vm3, h3, _, _, _, hm3, _⟩ := bind_spec b vm2 self (find_stub vm.relocs self) B eB
      (by rw [hr2, hr1]) hstub hapart (fun _ => ⟨by rw [hv2, hv1]; exact hver, hok2⟩)
    obtain ⟨r1, r2, r3⟩ := reads_after_bind b vm2.mem self _ B eB hsite' hB hreach
    rw [if_neg hne] at r2
    rw [← hm3] at r1 r2 r3
    exact ⟨vm1, vm2, vm3, h1, h2, hok2, h3, r1, r2, r3⟩
  · intro hokA hA hA0 hne
    obtain ⟨vm1, h1, hr1, _, _, hm1, hv1⟩ := bind_spec b vm self _ A eA rfl hstub hapart
      (fun _ => ⟨hver, hokA⟩)
    have hst : vm1.stores = vm.stores ++ bindStores b self (find_stub vm.relocs self) A eA := by
      have h1' := set_to_interpreted_returned b vm self A eA hstub (fun _ => ⟨hver, hokA⟩)
      rw [h1] at h1'
      injection h1' with h1'
      rw [h1', bound_stores, traced_stores]
    have hdata : NativeMovConstReg.data b vm1.mem (find_stub vm.relocs self) = A.method := by
      rw [hm1, ← applyStores_bind_full]
      exact data_during_bind b vm.mem self _ A eA hapart hA 3 (by omega) (by omega)
    have hnot : ¬ (NativeMovConstReg.data b vm1.mem (find_stub vm.relocs self) = 0 ∨
        NativeMovConstReg.data b vm1.mem (find_stub vm.relocs self) = B.method) := by
      rw [hdata]
      intro h
      rcases h with h | h
      · exact hA0 h
      · exact hne h.symm
    refine ⟨vm1, h1, hst, fun h => hnot h.1, ?_⟩
    rw [set_to_interpreted_diag b vm1 self (find_stub vm.relocs self) B eB hb (by rw [hr1]) hstub
      (by rw [hv1]; exact hver)]
    unfold pre_write_check
    simp [hnot]

/-- Witness of C6 (amended): the freshly emitted LP64 site, callees A and B. -/
theorem pre_write_check_decides_witness :
    (∀ callee entry,
      (set_to_interpreted Sample.debug64 (Sample.freshVM Sample.debug64) 0x2000 callee
        entry).isReturned = true ↔
      preWriteOk Sample.debug64 (Sample.freshVM Sample.debug64).mem
        (find_stub (Sample.freshVM Sample.debug64).relocs 0x2000) callee entry) ∧
    (∃ vm1 vm2 vm3, set_to_interpreted Sample.debug64 (Sample.freshVM Sample.debug64) 0x2000
        Sample.calleeA 0x3000 = .returned vm1 ∧
      set_stub_to_clean Sample.debug64 vm1 Sample.stubReloc = .returned vm2 ∧
      set_to_interpreted Sample.debug64 vm2 0x2000 Sample.calleeB 0x4000 = .returned vm3 ∧
      NativeMovConstReg.data Sample.debug64 vm3.mem
        (find_stub (Sample.freshVM Sample.debug64).relocs 0x2000) = Sample.calleeB.method ∧
      NativeJump.jump_destination Sample.debug64 vm3.mem
        (stubJump Sample.debug64 (find_stub (Sample.freshVM Sample.debug64).relocs 0x2000))
        = 0x4000) ∧
    (∃ vm1, set_to_interpreted Sample.debug64 (Sample.freshVM Sample.debug64) 0x2000
        Sample.calleeA 0x3000 = .returned vm1 ∧
      set_to_interpreted Sample.debug64 vm1 0x2000 Sample.calleeB 0x4000 =
        .terminated (Fatal.assertion "a) MT-unsafe modification of inline cache")
          (if Sample.debug64.traceICs then vm1.print_cr ⟨0x2000, Sample.calleeB.name_and_sig⟩
            else vm1)) := by
  obtain ⟨h1, h2, h3⟩ := pre_write_check_decides Sample.debug64 (Sample.freshVM Sample.debug64)
    0x2000 Sample.stubReloc Sample.calleeA Sample.calleeB 0x3000 0x4000
    (by decide) (by decide) (by decide) (by decide)
  obtain ⟨w1, w2, w3, g1, g2, _, g4, g5, g6, _⟩ := h2 (by decide) (by decide) (by decide)
    (by decide) (by decide) (by decide)
  obtain ⟨vm1, h4, _, _, h5⟩ := h3 (by decide) (by decide) (by decide) (by decide)
  exact ⟨h1, ⟨w1, w2, w3, g1, g2, g4, g5, g6⟩, vm1, h4, h5⟩

/-- C6 (counterexample): on the freshly emitted 32-bit site (stub at `0x1000`,
its jump at `0x1005`) in a diagnostic build, `bind(A, 0x3000);
set_stub_to_clean; bind(B, 0x1005)` passes every check and returns, but it
does not end in the state `{B, 0x1005}`: the callee-identifier reads
`0x8800`, while the jump destination reads `(address)-1`, the jump to its own
address being the unresolved encoding. -/
theorem rebind_after_reset_to_own_jump_reads_unresolved :
    stubJump Sample.debug32 0x1000 = 0x1005 ∧
    (((set_to_interpreted Sample.debug32 (Sample.freshVM Sample.debug32) 0x2000
      Sample.calleeA 0x3000).andThen
      (fun s => set_stub_to_clean Sample.debug32 s Sample.stubReloc)).andThen
      (fun s => set_to_interpreted Sample.debug32 s 0x2000 Sample.calleeB
        0x1005)).isReturned = true ∧
    NativeMovConstReg.data Sample.debug32
      (((set_to_interpreted Sample.debug32 (Sample.freshVM Sample.debug32) 0x2000
        Sample.calleeA 0x3000).andThen
        (fun s => set_stub_to_clean Sample.debug32 s Sample.stubReloc)).andThen
        (fun s => set_to_interpreted Sample.debug32 s 0x2000 Sample.calleeB
          0x1005)).state.mem 0x1000 = 0x8800 ∧
    NativeJump.jump_destination Sample.debug32
      (((set_to_interpreted Sample.debug32 (Sample.freshVM Sample.debug32) 0x2000
        Sample.calleeA 0x3000).andThen
        (fun s => set_stub_to_clean Sample.debug32 s Sample.stubReloc)).andThen
        (fun s => set_to_interpreted Sample.debug32 s 0x2000 Sample.calleeB
          0x1005)).state.mem 0x1005 = addrMinusOne Sample.debug32 ∧
    NativeJump.jump_destination Sample.debug32
      (((set_to_interpreted Sample.debug32 (Sample.freshVM Sample.debug32) 0x2000
        Sample.calleeA 0x3000).andThen
        (fun s => set_stub_to_clean Sample.debug32 s Sample.stubReloc)).andThen
        (fun s => set_to_interpreted Sample.debug32 s 0x2000 Sample.calleeB
          0x1005)).state.mem 0x1005 ≠ 0x1005 := by
  refine ⟨by decide, by decide, by decide, by decide, by decide⟩

end HotSpot

namespace HotSpot
open CompiledStaticCall

/-! ## emit_to_interp_stub -/

/-- The outcome of `emit_to_interp_stub` in closed form: no stub when the
space cannot be had (or the stub section starts at `NULL`), and otherwise the
stub at the end of the stub section. -/
theorem emit_to_interp_stub_eq (b : Build) (cbuf : CodeBuffer) (mark : Nat) :
    emit_to_interp_stub b cbuf mark =
      .returned (if cbuf.stubs_limit - cbuf.stubs_end < to_interp_stub_size b ∨
          cbuf.stubs_end = NULL then (NULL, cbuf)
        else (cbuf.stubs_end,
          { cbuf with
            mem := stubImage b cbuf.mem cbuf.stubs_end,
            stubs_end := cbuf.stubs_end + to_interp_stub_size b,
            relocs := cbuf.relocs ++ stubRelocs b cbuf.stubs_end (effectiveMark cbuf mark) })) := by
  unfold emit_to_interp_stub MacroAssembler.start_a_stub
  by_cases h1 : cbuf.stubs_limit - cbuf.stubs_end < to_interp_stub_size b
  · simp [h1]
  · by_cases h2 : cbuf.stubs_end = NULL
    · have h1' := h1
      rw [h2] at h1'
      simp [h1', h2]
    · simp only [h1, h2, if_false, or_self]
      rcases layout_cases b with ⟨hl, h3, h4, h5, h6, h7⟩ | ⟨hl, h3, h4, h5, h6, h7⟩
      all_goals
        simp [MacroAssembler.relocate, MacroAssembler.relocate_at, MacroAssembler.mov_metadata,
          MacroAssembler.jump, MacroAssembler.emit_bytes, MacroAssembler.pc,
          MacroAssembler.end_a_stub, hl, h4, h7, stubImage, stubRelocs, effectiveMark, stubJump,
          NativeMovConstReg.next_instruction_address, h6, h5, NativeMovConstReg.rex_size,
          NativeJump.data_offset, add_assoc]

end HotSpot

namespace HotSpot
open CompiledStaticCall

/-- Bytes outside the stub are not touched by the emission. -/
theorem stubImage_outside (b : Build) (m : Mem) (base x : Nat)
    (h : x < base ∨ base + to_interp_stub_size b ≤ x) : stubImage b m base x = m x := by
  rcases layout_cases b with ⟨hl, h3, h4, h5, h6, h7⟩ | ⟨hl, h3, h4, h5, h6, h7⟩ <;>
    rw [h7] at h <;>
    simp only [stubImage, hl, stubJump, NativeMovConstReg.next_instruction_address, h4, h5, h6,
      NativeMovConstReg.rex_size, NativeJump.data_offset, if_true, if_false, Bool.false_eq_true] <;>
    repeat rw [writeLE_outside _ _ _ _ _ (by omega)]

/-- The freshly emitted stub, as the controller reads it. -/
theorem stubImage_reads (b : Build) (m : Mem) (base : Nat)
    (hspace : base + to_interp_stub_size b ≤ addrSpace b) :
    NativeMovConstReg.verify b (stubImage b m base) base = true ∧
    NativeMovConstReg.data b (stubImage b m base) base = 0 ∧
    NativeJump.verify (stubImage b m base) (stubJump b base) = true ∧
    addrOffset b (NativeJump.next_instruction_address (stubJump b base))
      (asJint (readLE (stubImage b m base) (stubJump b base + NativeJump.data_offset) 4))
      = stubJump b base ∧
    NativeJump.jump_destination b (stubImage b m base) (stubJump b base) = addrMinusOne b := by
  have hraw : addrOffset b (NativeJump.next_instruction_address (stubJump b base))
      (asJint (readLE (stubImage b m base) (stubJump b base + NativeJump.data_offset) 4))
      = stubJump b base := by
    unfold stubImage
    simp only []
    rw [jump_field_after_store]
    apply addrOffset_minus5
    rcases layout_cases b with ⟨hl, h3, h4, h5, h6, h7⟩ | ⟨hl, h3, h4, h5, h6, h7⟩ <;>
      rw [h7] at hspace <;>
      simp only [stubJump, NativeMovConstReg.next_instruction_address, h6] <;> omega
  refine ⟨?_, ?_, ?_, hraw, ?_⟩
  · rcases layout_cases b with ⟨hl, h3, h4, h5, h6, h7⟩ | ⟨hl, h3, h4, h5, h6, h7⟩
    · simp only [stubImage, NativeMovConstReg.verify, hl, stubJump,
        NativeMovConstReg.next_instruction_address, h4, h5, h6, NativeMovConstReg.rex_size,
        NativeJump.data_offset, if_false, Bool.false_eq_true]
      rw [writeLE_outside _ _ _ _ _ (by omega), writeLE_outside _ _ _ _ _ (by omega),
        writeLE_outside _ _ _ _ _ (by omega), writeLE_inside _ _ _ _ _ (by omega) (by omega)]
      have e : base - (base + 0) = 0 := by omega
      rw [e]
      decide
    · simp only [stubImage, NativeMovConstReg.verify, hl, stubJump,
        NativeMovConstReg.next_instruction_address, h4, h5, h6, NativeMovConstReg.rex_size,
        NativeJump.data_offset, if_true]
      rw [writeLE_outside _ _ _ _ _ (by omega), writeLE_outside _ _ _ _ _ (by omega),
        writeLE_outside _ _ _ _ _ (by omega), writeLE_outside _ _ _ _ _ (by omega),
        writeLE_inside _ _ _ _ _ (by omega) (by omega),
        writeLE_outside _ _ _ _ _ (by omega), writeLE_outside _ _ _ _ _ (by omega),
        writeLE_outside _ _ _ _ _ (by omega), writeLE_inside _ _ _ _ _ (by omega) (by omega)]
      simp [MacroAssembler.REX_W, NativeMovConstReg.instruction_code, MacroAssembler.rbx,
        NativeMovConstReg.register_mask]
      decide
  · unfold stubImage
    simp only []
    rw [data_frame, data_frame, data_after_store b _ base NULL (addrSpace_pos b)]
    · rfl
    · left
      simp only [stubJump, NativeMovConstReg.next_instruction_address]
      omega
    · left
      simp only [stubJump, NativeMovConstReg.next_instruction_address, NativeJump.data_offset]
      omega
  · unfold stubImage NativeJump.verify
    simp only []
    rw [writeLE_outside _ _ _ _ _ (by simp only [NativeJump.data_offset]; omega),
      writeLE_inside _ _ _ _ _ (by omega) (by omega), Nat.sub_self]
    decide
  · unfold NativeJump.jump_destination
    simp only []
    rw [hraw]
    simp

end HotSpot

namespace HotSpot
open CompiledStaticCall

/-- A successful emission: where the stub is and what the buffer becomes. -/
theorem emit_to_interp_stub_success (b : Build) (cbuf : CodeBuffer) (mark base : Nat)
    (cb' : CodeBuffer) (h : emit_to_interp_stub b cbuf mark = .returned (base, cb'))
    (hbase : base ≠ NULL) :
    to_interp_stub_size b ≤ cbuf.stubs_limit - cbuf.stubs_end ∧
    base = cbuf.stubs_end ∧
    cb' = { cbuf with
            mem := stubImage b cbuf.mem cbuf.stubs_end,
            stubs_end := cbuf.stubs_end + to_interp_stub_size b,
            relocs := cbuf.relocs ++ stubRelocs b cbuf.stubs_end (effectiveMark cbuf mark) } := by
  rw [emit_to_interp_stub_eq] at h
  injection h with h
  by_cases hc : cbuf.stubs_limit - cbuf.stubs_end < to_interp_stub_size b ∨ cbuf.stubs_end = NULL
  · rw [if_pos hc] at h
    injection h with h1 h2
    exact absurd h1.symm hbase
  · rw [if_neg hc] at h
    injection h with h1 h2
    refine ⟨?_, h1.symm, h2.symm⟩
    have := not_or.1 hc
    omega

theorem find_stub_append (l : List Reloc) (base self : Nat) (rest : List Reloc)
    (hfresh : ∀ r ∈ l, r.kind ≠ RelocKind.static_stub self) :
    find_stub (l ++ ⟨base, RelocKind.static_stub self⟩ :: rest) self = base := by
  unfold find_stub
  have h1 : l.find? (fun r => r.kind == RelocKind.static_stub self) = none := by
    rw [List.find?_eq_none]
    intro r hr
    simpa using hfresh r hr
  rw [List.find?_append, h1]
  simp

/-- C7: whenever `emit_to_interp_stub(cbuf, mark)` succeeds and returns
`base` (the stub section lying in the address space), the stub at `base` is in
the Clean state as the controller reads it: a static-stub relocation naming
the mark is recorded at `base` (and `find_stub` of the marked call yields
`base` when no older record names that call), the instruction at `base` is a
`mov` of a metadata-tagged immediate whose value is 0, and the instruction
right after it is a `jmp` whose destination is the jump's own address, which
the controller reads back as the unresolved sentinel `(address)-1`. -/
theorem emit_to_interp_stub_is_clean (b : Build) (cbuf : CodeBuffer) (mark base : Nat)
    (cb' : CodeBuffer) (h : emit_to_interp_stub b cbuf mark = .returned (base, cb'))
    (hbase : base ≠ NULL) (hlimit : cbuf.stubs_limit ≤ addrSpace b) :
    (⟨base, RelocKind.static_stub (effectiveMark cbuf mark)⟩ : Reloc) ∈ cb'.relocs ∧
    (⟨base, RelocKind.metadata⟩ : Reloc) ∈ cb'.relocs ∧
    NativeMovConstReg.verify b cb'.mem base = true ∧
    NativeMovConstReg.data b cb'.mem base = 0 ∧
    NativeJump.verify cb'.mem (NativeMovConstReg.next_instruction_address b base) = true ∧
    addrOffset b (NativeJump.next_instruction_address (stubJump b base))
      (asJint (readLE cb'.mem (stubJump b base + NativeJump.data_offset) 4))
      = stubJump b base ∧
    NativeJump.jump_destination b cb'.mem (stubJump b base) = addrMinusOne b ∧
    ((∀ r ∈ cbuf.relocs, r.kind ≠ RelocKind.static_stub (effectiveMark cbuf mark)) →
      find_stub cb'.relocs (effectiveMark cbuf mark) = base) := by
  obtain ⟨hs, hb, hcb⟩ := emit_to_interp_stub_success b cbuf mark base cb' h hbase
  subst hb hcb
  have hpos : 0 < to_interp_stub_size b := by
    rcases layout_cases b with ⟨_, _, _, _, _, h7⟩ | ⟨_, _, _, _, _, h7⟩ <;> omega
  have hspace : cbuf.stubs_end + to_interp_stub_size b ≤ addrSpace b := by omega
  obtain ⟨r1, r2, r3, r4, r5⟩ := stubImage_reads b cbuf.mem cbuf.stubs_end hspace
  refine ⟨by simp [stubRelocs], by simp [stubRelocs], r1, r2, r3, r4, r5, ?_⟩
  intro hfresh
  exact find_stub_append cbuf.relocs cbuf.stubs_end _ _ hfresh

/-- Witness of C7: the stub emitted into the sample LP64 buffer. -/
theorem emit_to_interp_stub_is_clean_witness :
    NativeMovConstReg.data Sample.debug64
      (emit_to_interp_stub Sample.debug64 Sample.cbuf NULL).state.2.mem 0x1000 = 0 ∧
    NativeJump.jump_destination Sample.debug64
      (emit_to_interp_stub Sample.debug64 Sample.cbuf NULL).state.2.mem
      (stubJump Sample.debug64 0x1000) = addrMinusOne Sample.debug64 ∧
    find_stub (emit_to_interp_stub Sample.debug64 Sample.cbuf NULL).state.2.relocs 0x2000
      = 0x1000 := by
  have h := emit_to_interp_stub_is_clean Sample.debug64 Sample.cbuf NULL 0x1000
    (emit_to_interp_stub Sample.debug64 Sample.cbuf NULL).state.2 (by rfl) (by decide)
    (by decide)
  exact ⟨h.2.2.2.1, h.2.2.2.2.2.2.1, h.2.2.2.2.2.2.2 (by decide)⟩

/-- C8: when `start_a_stub` returns `NULL` (the stub section cannot hold
`to_interp_stub_size()` more bytes), `emit_to_interp_stub` returns `NULL`
without terminating the VM and leaves the code buffer as it was: no relocation
record added, no byte written, the stub section unchanged. -/
theorem emit_to_interp_stub_no_space (b : Build) (cbuf : CodeBuffer) (mark : Nat)
    (h : (MacroAssembler.start_a_stub ⟨cbuf, false⟩ (to_interp_stub_size b)).1 = NULL) :
    emit_to_interp_stub b cbuf mark = .returned (NULL, cbuf) := by
  rw [emit_to_interp_stub_eq]
  unfold MacroAssembler.start_a_stub at h
  by_cases hc : cbuf.stubs_limit - cbuf.stubs_end < to_interp_stub_size b
  · simp [hc]
  · simp only [hc, if_false] at h
    simp [h]

/-- Witness of C8: a stub section with 8 bytes left. -/
theorem emit_to_interp_stub_no_space_witness :
    Sample.fullCbuf.stubs_limit - Sample.fullCbuf.stubs_end
      < to_interp_stub_size Sample.debug64 ∧
    emit_to_interp_stub Sample.debug64 Sample.fullCbuf 0x2000
      = .returned (NULL, Sample.fullCbuf) :=
  ⟨by decide, emit_to_interp_stub_no_space Sample.debug64 Sample.fullCbuf 0x2000 (by decide)⟩

/-- C9: `emit_to_interp_stub` never fails its size assertion: it always
returns, and a successful emission advances the stub section by exactly
`to_interp_stub_size()` bytes from `base`, which is within the budget.  The
budget is the length of the `mov` plus the length of the `jmp`: 15 = 10 + 5 on
LP64, 10 = 5 + 5 otherwise; and `relocate` emits no bytes (it moves neither
the insertion point nor any byte). -/
theorem emit_to_interp_stub_within_budget (b : Build) (cbuf : CodeBuffer) (mark : Nat) :
    (emit_to_interp_stub b cbuf mark).isReturned = true ∧
    (∀ base cb', emit_to_interp_stub b cbuf mark = .returned (base, cb') → base ≠ NULL →
      cb'.stubs_end - base = to_interp_stub_size b ∧
      cb'.stubs_end - base ≤ to_interp_stub_size b ∧
      cb'.stubs_end ≤ cbuf.stubs_limit) ∧
    to_interp_stub_size b = NativeMovConstReg.instruction_size b + NativeJump.instruction_size ∧
    NativeJump.instruction_size = 5 ∧
    (b.lp64 = true → to_interp_stub_size b = 15 ∧ NativeMovConstReg.instruction_size b = 10) ∧
    (b.lp64 = false → to_interp_stub_size b = 10 ∧ NativeMovConstReg.instruction_size b = 5) ∧
    (∀ (a : MacroAssembler) (k : RelocKind),
      (a.relocate k).pc = a.pc ∧ (a.relocate k).code.mem = a.code.mem) := by
  refine ⟨?_, ?_, ?_, rfl, ?_, ?_, ?_⟩
  · rw [emit_to_interp_stub_eq]; rfl
  · intro base cb' h hbase
    obtain ⟨hs, hb, hcb⟩ := emit_to_interp_stub_success b cbuf mark base cb' h hbase
    subst hb hcb
    have hpos : 0 < to_interp_stub_size b := by
      rcases layout_cases b with ⟨_, _, _, _, _, h7⟩ | ⟨_, _, _, _, _, h7⟩ <;> omega
    simp only []
    omega
  · rcases layout_cases b with ⟨hl, h3, h4, h5, h6, h7⟩ | ⟨hl, h3, h4, h5, h6, h7⟩ <;>
      simp [h6, h7, NativeJump.instruction_size]
  · intro hl
    rcases layout_cases b with ⟨hl', h3, h4, h5, h6, h7⟩ | ⟨hl', h3, h4, h5, h6, h7⟩
    · rw [hl] at hl'; cases hl'
    · exact ⟨h7, h6⟩
  · intro hl
    rcases layout_cases b with ⟨hl', h3, h4, h5, h6, h7⟩ | ⟨hl', h3, h4, h5, h6, h7⟩
    · exact ⟨h7, h6⟩
    · rw [hl] at hl'; cases hl'
  · intro a k
    exact ⟨rfl, rfl⟩

/-- C10 (amended): the static-stub relocation a successful
`emit_to_interp_stub` records at the stub names the code buffer's `insts_mark`
(the mark within the main instruction section, not the insertion point) when
`mark` is `NULL`, and names `mark` itself otherwise; it is the only
static-stub record the emission adds. -/
theorem emit_to_interp_stub_names_mark (b : Build) (cbuf : CodeBuffer) (mark base : Nat)
    (cb' : CodeBuffer) (h : emit_to_interp_stub b cbuf mark = .returned (base, cb'))
    (hbase : base ≠ NULL) :
    cb'.relocs = cbuf.relocs ++
      [⟨base, RelocKind.static_stub (if mark = NULL then cbuf.insts_mark else mark)⟩,
       ⟨base, RelocKind.metadata⟩,
       ⟨NativeMovConstReg.next_instruction_address b base, RelocKind.runtime_call⟩] ∧
    (mark = NULL →
      (⟨base, RelocKind.static_stub cbuf.insts_mark⟩ : Reloc) ∈ cb'.relocs) ∧
    (mark ≠ NULL → (⟨base, RelocKind.static_stub mark⟩ : Reloc) ∈ cb'.relocs) := by
  obtain ⟨hs, hb, hcb⟩ := emit_to_interp_stub_success b cbuf mark base cb' h hbase
  subst hb hcb
  refine ⟨rfl, ?_, ?_⟩
  · intro hm
    simp [stubRelocs, effectiveMark, hm]
  · intro hm
    simp [stubRelocs, effectiveMark, hm]

/-- Witness of C10 (amended): emission into the sample buffer without a mark
names the buffer's `insts_mark`, `0x2000`. -/
theorem emit_to_interp_stub_names_mark_witness :
    (⟨0x1000, RelocKind.static_stub Sample.cbuf.insts_mark⟩ : Reloc) ∈
      (emit_to_interp_stub Sample.debug32 Sample.cbuf NULL).state.2.relocs :=
  (emit_to_interp_stub_names_mark Sample.debug32 Sample.cbuf NULL 0x1000
    (emit_to_interp_stub Sample.debug32 Sample.cbuf NULL).state.2 (by rfl) (by decide)).2.1 rfl

/-- C10 (counterexample): the sample buffer has its mark at `0x2000`, the
start of the call, and its insertion point at `0x2005`, the end of the main
section (`0x1000` once the assembler is in the stub section).  Emission
without a mark returns the stub at `0x1000`, and the static-stub record names
the mark `0x2000` as the originating call; no static-stub record names the
insertion point. -/
theorem emit_to_interp_stub_names_mark_not_insertion_point :
    Sample.cbuf.insts_mark = 0x2000 ∧
    MacroAssembler.pc ⟨Sample.cbuf, false⟩ = 0x2005 ∧
    MacroAssembler.pc ⟨Sample.cbuf, true⟩ = 0x1000 ∧
    (emit_to_interp_stub Sample.debug32 Sample.cbuf NULL).isReturned = true ∧
    (emit_to_interp_stub Sample.debug32 Sample.cbuf NULL).state.1 = 0x1000 ∧
    (emit_to_interp_stub Sample.debug32 Sample.cbuf NULL).state.2.relocs =
      [⟨0x1000, RelocKind.static_stub 0x2000⟩, ⟨0x1000, RelocKind.metadata⟩,
       ⟨0x1005, RelocKind.runtime_call⟩] ∧
    (⟨0x1000, RelocKind.static_stub 0x2005⟩ : Reloc) ∉
      (emit_to_interp_stub Sample.debug32 Sample.cbuf NULL).state.2.relocs ∧
    (⟨0x1000, RelocKind.static_stub 0x1000⟩ : Reloc) ∉
      (emit_to_interp_stub Sample.debug32 Sample.cbuf NULL).state.2.relocs := by
  refine ⟨by decide, by decide, by decide, by decide, by decide, by decide, by decide,
    by decide⟩

end HotSpot

namespace HotSpot
open CompiledStaticCall

/-! ## Inline-cache call sites -/

theorem callVerify_frame (m : Mem) (self a n v : Nat) (h : self < a ∨ a + n ≤ self) :
    NativeCall.verify (writeLE m a n v) self = NativeCall.verify m self := by
  unfold NativeCall.verify
  rw [writeLE_outside m a n v self h]

theorem callVerify_repatched (m : Mem) (self dest : Nat) :
    NativeCall.verify (NativeCall.repatched m self dest) self = NativeCall.verify m self := by
  unfold NativeCall.repatched
  apply callVerify_frame
  simp only [NativeCall.displacement_offset]
  omega

theorem destination_repatched (b : Build) (m : Mem) (self dest : Nat)
    (hd : dest < addrSpace b) (hr : reach32 b (NativeCall.return_address self) dest) :
    NativeCall.destination b (NativeCall.repatched m self dest) self = dest :=
  destination_after_store b m self dest hd hr

theorem nativeCall_at_ok (b : Build) (m : Mem) (addr : Nat)
    (h : b.assertOn = true → NativeCall.verify m addr = true) :
    nativeCall_at b m addr = .ok addr := by
  unfold nativeCall_at
  cases hb : b.assertOn
  · simp
  · simp [h hb]

theorem nativeMovConstReg_at_ok (b : Build) (m : Mem) (addr : Nat)
    (h : b.assertOn = true → NativeMovConstReg.verify b m addr = true) :
    nativeMovConstReg_at b m addr = .ok addr := by
  unfold nativeMovConstReg_at
  cases hb : b.assertOn
  · simp
  · simp [h hb]

/-- The outcome of `cleanup_call_site` in closed form, for a site whose
instructions verify: the data word is queued exactly when the destination read
from `at_call` is a holder entry. -/
theorem cleanup_call_site_at_eq (b : Build) (is_icholder_entry : Nat → Bool)
    (at_call at_value : Mem) (s : ICState) (call_site : virtual_call_Relocation)
    (hcall : b.assertOn = true → NativeCall.verify at_call call_site.addr = true)
    (hvalue : b.assertOn = true →
      NativeMovConstReg.verify b at_value call_site.cached_value = true) :
    CompiledIC.cleanup_call_site_at b is_icholder_entry at_call at_value s call_site =
      .returned (if is_icholder_entry (NativeCall.destination b at_call call_site.addr) then
        InlineCacheBuffer.queue_for_release s
          (NativeMovConstReg.data b at_value call_site.cached_value)
      else s) := by
  unfold CompiledIC.cleanup_call_site_at
  rw [nativeCall_at_ok b at_call _ hcall, nativeMovConstReg_at_ok b at_value _ hvalue]
  simp only []
  split <;> rfl

/-- C11: `is_icholder_call_site(site)` is a pure query: on a site whose call
instruction verifies it returns, leaves code memory, the release queue and the
freed holders as they were, and answers true if and only if the current
destination of the call at the site's address is a holder-dispatch entry.  In
particular, right after the call is repatched to `dest` (within reach), it
answers `is_icholder_entry(dest)`, whatever the rest of memory, the embedded
data word included, holds. -/
theorem is_icholder_call_site_is_pure (b : Build) (is_icholder_entry : Nat → Bool)
    (s : ICState) (call_site : virtual_call_Relocation)
    (hcall : b.assertOn = true → NativeCall.verify s.mem call_site.addr = true) :
    CompiledIC.is_icholder_call_site b is_icholder_entry s call_site =
      .returned (some (is_icholder_entry (NativeCall.destination b s.mem call_site.addr)), s) ∧
    (∀ dest, dest < addrSpace b → reach32 b (NativeCall.return_address call_site.addr) dest →
      CompiledIC.is_icholder_call_site b is_icholder_entry
        { s with mem := NativeCall.repatched s.mem call_site.addr dest } call_site =
      .returned (some (is_icholder_entry dest),
        { s with mem := NativeCall.repatched s.mem call_site.addr dest })) := by
  refine ⟨?_, ?_⟩
  · unfold CompiledIC.is_icholder_call_site
    rw [nativeCall_at_ok b s.mem _ hcall]
  · intro dest hd hr
    unfold CompiledIC.is_icholder_call_site
    simp only []
    rw [nativeCall_at_ok b _ _ (by rw [callVerify_repatched]; exact hcall)]
    simp only []
    rw [destination_repatched b s.mem _ dest hd hr]

/-- Witness of C11: the sample site, its call targeting the holder entry, and
then repatched to `0x6000`. -/
theorem is_icholder_call_site_is_pure_witness :
    CompiledIC.is_icholder_call_site Sample.debug64 Sample.isHolderEntry
      (Sample.icState 0x5000) Sample.icSite = .returned (some true, Sample.icState 0x5000) ∧
    CompiledIC.is_icholder_call_site Sample.debug64 Sample.isHolderEntry
      { Sample.icState 0x5000 with
        mem := NativeCall.repatched (Sample.icState 0x5000).mem 0x2000 0x6000 } Sample.icSite =
      .returned (some false, { Sample.icState 0x5000 with
        mem := NativeCall.repatched (Sample.icState 0x5000).mem 0x2000 0x6000 }) := by
  have h := is_icholder_call_site_is_pure Sample.debug64 Sample.isHolderEntry
    (Sample.icState 0x5000) Sample.icSite (by decide)
  refine ⟨?_, ?_⟩
  · rw [h.1]
    have e : NativeCall.destination Sample.debug64 (Sample.icState 0x5000).mem
        Sample.icSite.addr = 0x5000 := by decide
    rw [e]
    rfl
  · exact h.2 0x6000 (by decide) (by decide)

/-- C12: on a site whose instructions verify, `cleanup_call_site(site)`
returns; when the call's destination is a holder entry (when
`is_icholder_call_site` answers true) it adds exactly one reference to the
release queue, the site's embedded data word, and otherwise it adds nothing.
In both cases nothing is freed and code memory is as before, so the call's
destination and the data word are unchanged. -/
theorem cleanup_call_site_queues_holder (b : Build) (is_icholder_entry : Nat → Bool)
    (s : ICState) (call_site : virtual_call_Relocation)
    (hcall : b.assertOn = true → NativeCall.verify s.mem call_site.addr = true)
    (hvalue : b.assertOn = true →
      NativeMovConstReg.verify b s.mem call_site.cached_value = true) :
    ∃ s', CompiledIC.cleanup_call_site b is_icholder_entry s call_site = .returned s' ∧
      (CompiledIC.is_icholder_call_site b is_icholder_entry s call_site).state.1 =
        some (is_icholder_entry (NativeCall.destination b s.mem call_site.addr)) ∧
      (is_icholder_entry (NativeCall.destination b s.mem call_site.addr) = true →
        s'.release_queue =
          s.release_queue ++ [NativeMovConstReg.data b s.mem call_site.cached_value]) ∧
      (is_icholder_entry (NativeCall.destination b s.mem call_site.addr) = false →
        s'.release_queue = s.release_queue) ∧
      s'.freed = s.freed ∧
      s'.mem = s.mem ∧
      NativeCall.destination b s'.mem call_site.addr
        = NativeCall.destination b s.mem call_site.addr ∧
      NativeMovConstReg.data b s'.mem call_site.cached_value
        = NativeMovConstReg.data b s.mem call_site.cached_value := by
  have hq : (CompiledIC.is_icholder_call_site b is_icholder_entry s call_site).state.1 =
      some (is_icholder_entry (NativeCall.destination b s.mem call_site.addr)) := by
    unfold CompiledIC.is_icholder_call_site
    rw [nativeCall_at_ok b s.mem _ hcall]
    rfl
  refine ⟨_, cleanup_call_site_at_eq b is_icholder_entry s.mem s.mem s call_site hcall hvalue,
    hq, ?_⟩
  cases hd : is_icholder_entry (NativeCall.destination b s.mem call_site.addr) <;>
    simp [InlineCacheBuffer.queue_for_release]

/-- Witness of C12: the sample site with its call targeting the holder entry;
the data word `0xABCD` joins the queue. -/
theorem cleanup_call_site_queues_holder_witness :
    ∃ s', CompiledIC.cleanup_call_site Sample.debug64 Sample.isHolderEntry
        (Sample.icState 0x5000) Sample.icSite = .returned s' ∧
      s'.release_queue = [0x1111, 0xABCD] ∧ s'.freed = [] := by
  obtain ⟨s', h1, _, h3, _, h5, _⟩ := cleanup_call_site_queues_holder Sample.debug64
    Sample.isHolderEntry (Sample.icState 0x5000) Sample.icSite (by decide) (by decide)
  refine ⟨s', h1, ?_, h5⟩
  rw [h3 (by decide)]
  decide

/-- C13 (amended): `cleanup_call_site` reads the call's destination once,
before it reads the data word, and not again: on a site whose instructions
verify it queues the data word exactly when that one read classifies as a
holder entry, whatever the destination is by the time the data word is
read. -/
theorem cleanup_call_site_classifies_once (b : Build) (is_icholder_entry : Nat → Bool)
    (at_call at_value : Mem) (s : ICState) (call_site : virtual_call_Relocation)
    (hcall : b.assertOn = true → NativeCall.verify at_call call_site.addr = true)
    (hvalue : b.assertOn = true →
      NativeMovConstReg.verify b at_value call_site.cached_value = true) :
    ∃ s', CompiledIC.cleanup_call_site_at b is_icholder_entry at_call at_value s call_site
        = .returned s' ∧
      (is_icholder_entry (NativeCall.destination b at_call call_site.addr) = true →
        s'.release_queue =
          s.release_queue ++ [NativeMovConstReg.data b at_value call_site.cached_value]) ∧
      (is_icholder_entry (NativeCall.destination b at_call call_site.addr) = false →
        s'.release_queue = s.release_queue) := by
  refine ⟨_, cleanup_call_site_at_eq b is_icholder_entry at_call at_value s call_site hcall
    hvalue, ?_⟩
  cases hd : is_icholder_entry (NativeCall.destination b at_call call_site.addr) <;>
    simp [InlineCacheBuffer.queue_for_release]

/-- Witness of C13 (amended): the destination is a holder entry when it is
read and another address when the data word is read. -/
theorem cleanup_call_site_classifies_once_witness :
    ∃ s', CompiledIC.cleanup_call_site_at Sample.debug64 Sample.isHolderEntry
        (Sample.icMem 0x5000) (Sample.icMem 0x6000) (Sample.icState 0x6000) Sample.icSite
        = .returned s' ∧
      s'.release_queue = [0x1111, 0xABCD] := by
  obtain ⟨s', h1, h2, _⟩ := cleanup_call_site_classifies_once Sample.debug64
    Sample.isHolderEntry (Sample.icMem 0x5000) (Sample.icMem 0x6000) (Sample.icState 0x6000)
    Sample.icSite (by decide) (by decide)
  refine ⟨s', h1, ?_⟩
  rw [h2 (by decide)]
  decide

/-- C13 (counterexample): the call targets the holder entry `0x5000` when
`cleanup_call_site` reads its destination, and another thread has repatched it
to `0x6000`, not a holder entry, by the time the data word is read.  A second
read of the destination would classify the site as not in holder state, yet
the data word `0xABCD` is queued. -/
theorem cleanup_call_site_queues_stale_site :
    Sample.isHolderEntry (NativeCall.destination Sample.debug64 (Sample.icMem 0x5000)
      Sample.icSite.addr) = true ∧
    Sample.isHolderEntry (NativeCall.destination Sample.debug64 (Sample.icMem 0x6000)
      Sample.icSite.addr) = false ∧
    (CompiledIC.cleanup_call_site_at Sample.debug64 Sample.isHolderEntry
      (Sample.icMem 0x5000) (Sample.icMem 0x6000) (Sample.icState 0x6000)
      Sample.icSite).isReturned = true ∧
    (CompiledIC.cleanup_call_site_at Sample.debug64 Sample.isHolderEntry
      (Sample.icMem 0x5000) (Sample.icMem 0x6000) (Sample.icState 0x6000)
      Sample.icSite).state.release_queue = [0x1111, 0xABCD] := by
  refine ⟨by decide, by decide, by decide, by decide⟩

end HotSpot

namespace HotSpot
open CompiledStaticCall

/-! ## The precondition of set_stub_to_clean -/

/-- With neither the lock held nor the VM at a safepoint, a diagnostic build
stops `set_stub_to_clean` at its first assertion, in the state it was called
in. -/
theorem set_stub_to_clean_unlocked (b : Build) (vm : VM) (static_stub : Reloc)
    (hb : b.assertOn = true)
    (h : ¬ (vm.CompiledIC_lock_is_locked = true ∨ vm.is_at_safepoint = true)) :
    set_stub_to_clean b vm static_stub = .terminated (Fatal.assertion "mt unsafe call") vm := by
  have h1 : vm.CompiledIC_lock_is_locked = false := by
    cases hl : vm.CompiledIC_lock_is_locked
    · rfl
    · exact absurd (Or.inl hl) h
  have h2 : vm.is_at_safepoint = false := by
    cases hl : vm.is_at_safepoint
    · rfl
    · exact absurd (Or.inr hl) h
  unfold set_stub_to_clean
  simp [hb, h1, h2]

theorem nativeMovConstReg_at_error (b : Build) (m : Mem) (addr : Nat) (e : Fatal)
    (h : nativeMovConstReg_at b m addr = .error e) : e = Fatal.fatal "not a mov reg, imm" := by
  unfold nativeMovConstReg_at at h
  split at h
  · injection h with h; exact h.symm
  · cases h

theorem nativeMovConstReg_at_value (b : Build) (m : Mem) (addr x : Nat)
    (h : nativeMovConstReg_at b m addr = .ok x) :
    x = addr ∧ (b.assertOn = true → NativeMovConstReg.verify b m addr = true) := by
  unfold nativeMovConstReg_at at h
  split at h
  · cases h
  · rename_i hc
    injection h with h
    refine ⟨h.symm, fun hb => ?_⟩
    simpa [hb] using hc

theorem nativeJump_at_error (b : Build) (m : Mem) (addr : Nat) (e : Fatal)
    (h : nativeJump_at b m addr = .error e) : e = Fatal.fatal "not a jump instruction" := by
  unfold nativeJump_at at h
  split at h
  · injection h with h; exact h.symm
  · cases h

theorem nativeJump_at_value (b : Build) (m : Mem) (addr x : Nat)
    (h : nativeJump_at b m addr = .ok x) :
    x = addr ∧ (b.assertOn = true → NativeJump.verify m addr = true) := by
  unfold nativeJump_at at h
  split at h
  · cases h
  · rename_i hc
    injection h with h
    refine ⟨h.symm, fun hb => ?_⟩
    simpa [hb] using hc

/-- With the lock held or the VM at a safepoint, `set_stub_to_clean` does not
stop at its first assertion. -/
theorem set_stub_to_clean_locked (b : Build) (vm : VM) (static_stub : Reloc)
    (h : vm.CompiledIC_lock_is_locked = true ∨ vm.is_at_safepoint = true) (s : VM) :
    set_stub_to_clean b vm static_stub ≠ .terminated (Fatal.assertion "mt unsafe call") s := by
  have hl : (vm.CompiledIC_lock_is_locked || vm.is_at_safepoint) = true := by
    rcases h with h | h <;> simp [h]
  unfold set_stub_to_clean
  simp only [hl, Bool.not_true, Bool.and_false, Bool.false_eq_true, if_false]
  intro heq
  split at heq
  · injection heq with h1 _
    injection h1 with h1
    revert h1
    decide
  · split at heq
    · rename_i e he
      rw [nativeMovConstReg_at_error b _ _ e he] at heq
      injection heq with h1 _
      cases h1
    · split at heq
      · rename_i e he
        rw [nativeJump_at_error b _ _ e he] at heq
        injection heq with h1 _
        cases h1
      · cases heq

/-- C15: in a diagnostic build, `set_stub_to_clean` passes its precondition
check if and only if the patching lock is held or the VM is at a safepoint;
when neither holds it stops at the assertion "mt unsafe call" in the state it
was called in, no store made and no byte of the stub written. -/
theorem set_stub_to_clean_precondition (b : Build) (vm : VM) (static_stub : Reloc)
    (hb : b.assertOn = true) :
    ((∀ s, set_stub_to_clean b vm static_stub
        ≠ .terminated (Fatal.assertion "mt unsafe call") s) ↔
      (vm.CompiledIC_lock_is_locked = true ∨ vm.is_at_safepoint = true)) ∧
    (¬ (vm.CompiledIC_lock_is_locked = true ∨ vm.is_at_safepoint = true) →
      set_stub_to_clean b vm static_stub
        = .terminated (Fatal.assertion "mt unsafe call") vm) := by
  refine ⟨⟨?_, fun h s => set_stub_to_clean_locked b vm static_stub h s⟩,
    set_stub_to_clean_unlocked b vm static_stub hb⟩
  intro h
  by_contra hn
  exact h vm (set_stub_to_clean_unlocked b vm static_stub hb hn)

/-- Witness of C15: the bound sample site with the lock released and the VM
not at a safepoint. -/
theorem set_stub_to_clean_precondition_witness :
    set_stub_to_clean Sample.debug64
      { Sample.boundVM Sample.debug64 with CompiledIC_lock_is_locked := false }
      Sample.stubReloc
      = .terminated (Fatal.assertion "mt unsafe call")
        { Sample.boundVM Sample.debug64 with CompiledIC_lock_is_locked := false } :=
  (set_stub_to_clean_precondition Sample.debug64
    { Sample.boundVM Sample.debug64 with CompiledIC_lock_is_locked := false }
    Sample.stubReloc (by decide)).2 (by decide)

/-- C16 (amended): `set_stub_to_clean` requires the patching lock or a global
safepoint, not both: a call made while the lock is held and the VM is not at a
safepoint passes the precondition check, returns (the stub being non-null,
within the address space and, in a diagnostic build, verifying) and resets the
stub. -/
theorem set_stub_to_clean_lock_suffices (b : Build) (vm : VM) (static_stub : Reloc)
    (hlock : vm.CompiledIC_lock_is_locked = true) (hsafe : vm.is_at_safepoint = false)
    (hstub : static_stub.addr ≠ NULL)
    (hspace : static_stub.addr + to_interp_stub_size b ≤ addrSpace b)
    (hver : b.assertOn = true → stubVerifies b vm.mem static_stub.addr = true) :
    ∃ vm', set_stub_to_clean b vm static_stub = .returned vm' ∧
      vm'.is_at_safepoint = false ∧
      NativeMovConstReg.data b vm'.mem static_stub.addr = 0 ∧
      NativeJump.jump_destination b vm'.mem (stubJump b static_stub.addr) = addrMinusOne b := by
  refine ⟨_, set_stub_to_clean_returned b vm static_stub
    (fun ha => ⟨Or.inl hlock, hstub, hver ha⟩), hsafe, ?_⟩
  rw [clean_mem]
  exact ⟨(reads_after_clean b vm.mem static_stub.addr hspace).1,
    (reads_after_clean b vm.mem static_stub.addr hspace).2.1⟩

/-- Witness of C16 (amended): the bound sample site, lock held, not at a
safepoint. -/
theorem set_stub_to_clean_lock_suffices_witness :
    ∃ vm', set_stub_to_clean Sample.debug64 (Sample.boundVM Sample.debug64) Sample.stubReloc
        = .returned vm' ∧
      vm'.is_at_safepoint = false ∧
      NativeMovConstReg.data Sample.debug64 vm'.mem Sample.stubReloc.addr = 0 ∧
      NativeJump.jump_destination Sample.debug64 vm'.mem
        (stubJump Sample.debug64 Sample.stubReloc.addr) = addrMinusOne Sample.debug64 :=
  set_stub_to_clean_lock_suffices Sample.debug64 (Sample.boundVM Sample.debug64)
    Sample.stubReloc (by decide) (by decide) (by decide) (by decide) (by decide)

/-- C16 (counterexample): in a diagnostic build, on the sample site bound to
callee A, with the patching lock held and the VM not at a safepoint,
`set_stub_to_clean` is not rejected: it returns, and the stub's
callee-identifier, which read `0x7700` before, reads 0 afterwards. -/
theorem set_stub_to_clean_under_lock_only :
    Sample.debug64.assertOn = true ∧
    (Sample.boundVM Sample.debug64).CompiledIC_lock_is_locked = true ∧
    (Sample.boundVM Sample.debug64).is_at_safepoint = false ∧
    NativeMovConstReg.data Sample.debug64 (Sample.boundVM Sample.debug64).mem 0x1000
      = 0x7700 ∧
    (set_stub_to_clean Sample.debug64 (Sample.boundVM Sample.debug64)
      Sample.stubReloc).isReturned = true ∧
    NativeMovConstReg.data Sample.debug64
      (set_stub_to_clean Sample.debug64 (Sample.boundVM Sample.debug64)
        Sample.stubReloc).state.mem 0x1000 = 0 := by
  refine ⟨by decide, by decide, by decide, by decide, by decide, by decide⟩

end HotSpot

namespace HotSpot
open CompiledStaticCall

/-! ## Reachable states of a static call site -/

/-- A bind that returns found its stub and made its three stores. -/
theorem set_to_interpreted_inv (b : Build) (vm vm' : VM) (self : Nat) (callee : methodHandle)
    (entry : Nat) (h : set_to_interpreted b vm self callee entry = .returned vm') :
    find_stub vm.relocs self ≠ NULL ∧
    vm' = (((if b.traceICs then vm.print_cr ⟨self, callee.name_and_sig⟩ else vm).set_data b
        (find_stub vm.relocs self) callee.method).set_jump_destination b
        (stubJump b (find_stub vm.relocs self)) entry).set_destination_mt_safe self
        (find_stub vm.relocs self) := by
  unfold set_to_interpreted at h
  simp only [] at h
  split at h
  · cases h
  · rename_i hstub
    refine ⟨hstub, ?_⟩
    split at h
    · cases h
    · rename_i mh hmh
      obtain ⟨e1, _⟩ := nativeMovConstReg_at_value b _ _ mh hmh
      subst e1
      split at h
      · cases h
      · rename_i j hj
        obtain ⟨e2, _⟩ := nativeJump_at_value b _ _ j hj
        subst e2
        split at h
        · cases h
        · injection h with h
          exact h.symm

/-- A reset that returns made its two stores. -/
theorem set_stub_to_clean_inv (b : Build) (vm vm' : VM) (static_stub : Reloc)
    (h : set_stub_to_clean b vm static_stub = .returned vm') :
    vm' = (vm.set_data b static_stub.addr 0).set_jump_destination b
      (stubJump b static_stub.addr) (addrMinusOne b) := by
  unfold set_stub_to_clean at h
  simp only [] at h
  split at h
  · cases h
  · split at h
    · cases h
    · split at h
      · cases h
      · rename_i mh hmh
        obtain ⟨e1, _⟩ := nativeMovConstReg_at_value b _ _ mh hmh
        subst e1
        split at h
        · cases h
        · rename_i j hj
          obtain ⟨e2, _⟩ := nativeJump_at_value b _ _ j hj
          subst e2
          injection h with h
          exact h.symm

/-- The stores of a bind leave the call's opcode alone and make the call
target the stub. -/
theorem bind_effects (b : Build) (m : Mem) (self stub : Nat) (callee : methodHandle)
    (entry : Nat) (hsite : StaticCallSite b self stub) :
    NativeCall.destination b (applyStores m (bindStores b self stub callee entry)) self = stub ∧
    NativeCall.verify (applyStores m (bindStores b self stub callee entry)) self
      = NativeCall.verify m self := by
  obtain ⟨hspace, hapart, hreach⟩ := hsite
  have hL := layout_cases b
  simp only [NativeCall.instruction_size] at hapart
  have hs : stub < addrSpace b := by
    rcases hL with ⟨_, h1, h2, h3, h4, h5⟩ | ⟨_, h1, h2, h3, h4, h5⟩ <;>
      rw [h5] at hspace <;> omega
  refine ⟨?_, ?_⟩
  · simp only [applyStores, bindStores, List.foldl]
    exact destination_after_store b _ self stub hs hreach
  · simp only [applyStores, bindStores, List.foldl, stubJump,
      NativeMovConstReg.next_instruction_address, NativeJump.data_offset,
      NativeCall.displacement_offset]
    rw [callVerify_frame, callVerify_frame, callVerify_frame]
    · rcases hL with ⟨_, h1, h2, h3, h4, h5⟩ | ⟨_, h1, h2, h3, h4, h5⟩ <;>
        rw [h3, h2] <;> rw [h5] at hapart <;> omega
    · rcases hL with ⟨_, h1, h2, h3, h4, h5⟩ | ⟨_, h1, h2, h3, h4, h5⟩ <;>
        rw [h4] <;> rw [h5] at hapart <;> omega
    · omega

/-- The stores of a reset leave the call instruction alone. -/
theorem clean_effects (b : Build) (m : Mem) (self stub x : Nat) (val : Int)
    (hapart : self + NativeCall.instruction_size ≤ stub ∨ stub + to_interp_stub_size b ≤ self) :
    NativeCall.verify
      (writeLE (writeLE m (stub + NativeMovConstReg.data_offset b) (wordSize b) x)
        (stubJump b stub + NativeJump.data_offset) 4 (toJintBits val)) self
      = NativeCall.verify m self ∧
    NativeCall.destination b
      (writeLE (writeLE m (stub + NativeMovConstReg.data_offset b) (wordSize b) x)
        (stubJump b stub + NativeJump.data_offset) 4 (toJintBits val)) self
      = NativeCall.destination b m self := by
  have hL := layout_cases b
  simp only [NativeCall.instruction_size] at hapart
  simp only [stubJump, NativeMovConstReg.next_instruction_address, NativeJump.data_offset]
  refine ⟨?_, ?_⟩
  · rw [callVerify_frame, callVerify_frame]
    · rcases hL with ⟨_, h1, h2, h3, h4, h5⟩ | ⟨_, h1, h2, h3, h4, h5⟩ <;>
        rw [h3, h2] <;> rw [h5] at hapart <;> omega
    · rcases hL with ⟨_, h1, h2, h3, h4, h5⟩ | ⟨_, h1, h2, h3, h4, h5⟩ <;>
        rw [h4] <;> rw [h5] at hapart <;> omega
  · rw [destination_frame, destination_frame]
    · rcases hL with ⟨_, h1, h2, h3, h4, h5⟩ | ⟨_, h1, h2, h3, h4, h5⟩ <;>
        rw [h3, h2] <;> rw [h5] at hapart <;> omega
    · rcases hL with ⟨_, h1, h2, h3, h4, h5⟩ | ⟨_, h1, h2, h3, h4, h5⟩ <;>
        rw [h4] <;> rw [h5] at hapart <;> omega

/-- Repatching the call leaves the stub alone. -/
theorem repatched_effects (b : Build) (m : Mem) (self stub target : Nat)
    (hapart : self + NativeCall.instruction_size ≤ stub ∨ stub + to_interp_stub_size b ≤ self) :
    stubVerifies b (NativeCall.repatched m self target) stub = stubVerifies b m stub ∧
    NativeMovConstReg.data b (NativeCall.repatched m self target) stub
      = NativeMovConstReg.data b m stub ∧
    NativeJump.jump_destination b (NativeCall.repatched m self target) (stubJump b stub)
      = NativeJump.jump_destination b m (stubJump b stub) := by
  have hL := layout_cases b
  simp only [NativeCall.instruction_size] at hapart
  unfold NativeCall.repatched stubVerifies
  simp only [stubJump, NativeMovConstReg.next_instruction_address,
    NativeCall.displacement_offset]
  refine ⟨?_, ?_, ?_⟩
  · rw [movVerify_frame, jumpVerify_frame]
    all_goals
      rcases hL with ⟨_, h1, h2, h3, h4, h5⟩ | ⟨_, h1, h2, h3, h4, h5⟩ <;>
        simp only [h2, h3, h4] <;> rw [h5] at hapart <;> omega
  · rw [data_frame]
    rcases hL with ⟨_, h1, h2, h3, h4, h5⟩ | ⟨_, h1, h2, h3, h4, h5⟩ <;>
      simp only [h2, h3, h4] <;> rw [h5] at hapart <;> omega
  · rw [jump_destination_frame]
    rcases hL with ⟨_, h1, h2, h3, h4, h5⟩ | ⟨_, h1, h2, h3, h4, h5⟩ <;>
      simp only [h2, h3, h4] <;> rw [h5] at hapart <;> omega

end HotSpot

namespace HotSpot
open CompiledStaticCall

/-- What every reachable state keeps from the first one, and the state
assertion of `verify`. -/
theorem reachable_invariant (b : Build) (is_compiled_code : Nat → Bool) (self stub : Nat)
    (vm0 : VM) (hfind : find_stub vm0.relocs self = stub) (hsite : StaticCallSite b self stub)
    (h0 : (is_clean b vm0 self || is_call_to_compiled b is_compiled_code vm0 self ||
      is_call_to_interpreted b vm0 self) = true)
    (vm : VM) (hr : Reachable b is_compiled_code self vm0 vm) :
    vm.relocs = vm0.relocs ∧
    stubVerifies b vm.mem stub = stubVerifies b vm0.mem stub ∧
    NativeCall.verify vm.mem self = NativeCall.verify vm0.mem self ∧
    (is_clean b vm self || is_call_to_compiled b is_compiled_code vm self ||
      is_call_to_interpreted b vm self) = true := by
  induction hr with
  | start => exact ⟨rfl, rfl, rfl, h0⟩
  | bind vm vm' callee entry _ _ hres hret ih =>
    obtain ⟨ih1, ih2, ih3, _⟩ := ih
    obtain ⟨_, hvm'⟩ := set_to_interpreted_inv b vm vm' self callee entry hret
    have hf : find_stub vm.relocs self = stub := by rw [ih1]; exact hfind
    rw [hf] at hvm' hres
    obtain ⟨hc0, hc, hE, hne, hn1⟩ := hres
    have hrel : vm'.relocs = vm.relocs := by rw [hvm']; exact bound_relocs _ _ _ _ _ _ _
    have hmem : vm'.mem = applyStores vm.mem (bindStores b self stub callee entry) := by
      rw [hvm', bound_mem, traced_mem]
    obtain ⟨_, e2⟩ := bind_effects b vm.mem self stub callee entry hsite
    obtain ⟨r1, r2, r3⟩ := reads_after_bind b vm.mem self stub callee entry hsite hc hE
    rw [if_neg hne] at r2
    refine ⟨by rw [hrel, ih1], ?_, ?_, ?_⟩
    · rw [hmem, stubVerifies_bind b _ self _ callee entry hsite.2.1, ih2]
    · rw [hmem, e2, ih3]
    · have : is_call_to_interpreted b vm' self = true := by
        unfold is_call_to_interpreted
        rw [hrel, hf, hmem, r3, r1]
        unfold stubJump at r2
        rw [r2]
        simp [hc0, hn1]
      simp [this]
  | clean vm vm' _ hret ih =>
    obtain ⟨ih1, ih2, ih3, _⟩ := ih
    have hf : find_stub vm.relocs self = stub := by rw [ih1]; exact hfind
    have hvm' := set_stub_to_clean_inv b vm vm' _ hret
    simp only [hf] at hvm'
    have hrel : vm'.relocs = vm.relocs := by rw [hvm']; rfl
    have hmem := clean_mem b vm stub
    rw [← hvm'] at hmem
    obtain ⟨r1, r2, _⟩ := reads_after_clean b vm.mem stub hsite.1
    obtain ⟨c1, _⟩ := clean_effects b vm.mem self stub 0
      (NativeJump.displacement_for b (stubJump b stub) (addrMinusOne b)) hsite.2.1
    refine ⟨by rw [hrel, ih1], ?_, ?_, ?_⟩
    · rw [hmem, stubVerifies_stub_store, ih2]
    · rw [hmem, c1, ih3]
    · have : is_clean b vm' self = true := by
        unfold is_clean
        rw [hrel, hf, hmem, r1]
        unfold stubJump at r2 ⊢
        rw [r2]
        simp
      simp [this]
  | compiled vm target _ hc ht hreach ih =>
    obtain ⟨ih1, ih2, ih3, _⟩ := ih
    have hmem : (vm.set_destination_mt_safe self target).mem
        = NativeCall.repatched vm.mem self target := rfl
    obtain ⟨p1, _, _⟩ := repatched_effects b vm.mem self stub target hsite.2.1
    refine ⟨ih1, ?_, ?_, ?_⟩
    · rw [hmem, p1, ih2]
    · rw [hmem, callVerify_repatched, ih3]
    · have : is_call_to_compiled b is_compiled_code (vm.set_destination_mt_safe self target) self
          = true := by
        unfold is_call_to_compiled
        rw [hmem, destination_repatched b vm.mem self target ht hreach]
        exact hc
      simp [this]
  | env vm locked at_safepoint _ ih =>
    exact ih

theorem nativeJump_at_ok (b : Build) (m : Mem) (addr : Nat)
    (h : b.assertOn = true → NativeJump.verify m addr = true) :
    nativeJump_at b m addr = .ok addr := by
  unfold nativeJump_at
  cases hb : b.assertOn
  · simp
  · simp [h hb]

/-- `verify` returns on a site whose call and stub are well-formed and whose
state is one of the three legal ones. -/
theorem verify_returns (b : Build) (is_MP : Bool) (is_compiled_code : Nat → Bool) (vm : VM)
    (self : Nat) (hcall : NativeCall.verify vm.mem self = true)
    (halign : is_MP = true → NativeCall.displacement_is_aligned self = true)
    (hstub : find_stub vm.relocs self ≠ NULL)
    (hver : stubVerifies b vm.mem (find_stub vm.relocs self) = true)
    (hlegal : (is_clean b vm self || is_call_to_compiled b is_compiled_code vm self ||
      is_call_to_interpreted b vm self) = true) :
    verify b is_MP is_compiled_code vm self = .returned vm := by
  unfold stubVerifies stubJump at hver
  simp only [Bool.and_eq_true] at hver
  have ha : (is_MP && b.assertOn && !NativeCall.displacement_is_aligned self) = false := by
    cases hm : is_MP
    · simp
    · simp [halign hm]
  unfold verify
  simp only []
  rw [nativeMovConstReg_at_ok b vm.mem _ (fun _ => hver.1)]
  simp only []
  rw [nativeJump_at_ok b vm.mem _ (fun _ => hver.2)]
  simp [hcall, ha, hlegal, hstub]

end HotSpot

namespace HotSpot
open CompiledStaticCall

/-- The site of a freshly emitted stub: the stub is found through the
relocation records, verifies, and is clean; the call instruction is as the
buffer held it. -/
theorem fresh_site (b : Build) (cbuf : CodeBuffer) (mark base : Nat) (cb' : CodeBuffer)
    (locked at_safepoint : Bool)
    (hemit : emit_to_interp_stub b cbuf mark = .returned (base, cb'))
    (hbase : base ≠ NULL)
    (hfresh : ∀ r ∈ cbuf.relocs, r.kind ≠ RelocKind.static_stub (effectiveMark cbuf mark))
    (hsite : StaticCallSite b (effectiveMark cbuf mark) base) :
    find_stub (VM.ofCodeBuffer cb' locked at_safepoint).relocs (effectiveMark cbuf mark) = base ∧
    stubVerifies b (VM.ofCodeBuffer cb' locked at_safepoint).mem base = true ∧
    is_clean b (VM.ofCodeBuffer cb' locked at_safepoint) (effectiveMark cbuf mark) = true ∧
    NativeCall.verify (VM.ofCodeBuffer cb' locked at_safepoint).mem (effectiveMark cbuf mark)
      = NativeCall.verify cbuf.mem (effectiveMark cbuf mark) := by
  obtain ⟨hs, hb, hcb⟩ := emit_to_interp_stub_success b cbuf mark base cb' hemit hbase
  subst hb hcb
  obtain ⟨r1, r2, r3, _, r5⟩ := stubImage_reads b cbuf.mem cbuf.stubs_end hsite.1
  have hf : find_stub (cbuf.relocs ++ stubRelocs b cbuf.stubs_end (effectiveMark cbuf mark))
      (effectiveMark cbuf mark) = cbuf.stubs_end :=
    find_stub_append cbuf.relocs cbuf.stubs_end _ _ hfresh
  have hap := hsite.2.1
  simp only [NativeCall.instruction_size] at hap
  refine ⟨hf, ?_, ?_, ?_⟩
  · simp only [VM.ofCodeBuffer, stubVerifies, r1, r3, Bool.and_self]
  · unfold is_clean
    simp only [VM.ofCodeBuffer]
    rw [hf, r2]
    unfold stubJump at r5
    rw [r5]
    simp
  · simp only [VM.ofCodeBuffer, NativeCall.verify]
    rw [stubImage_outside b cbuf.mem cbuf.stubs_end _ (by omega)]

/-- The outcome of `verify` on a site whose call and stub are well-formed is
that of its state assertion. -/
theorem verify_eq (b : Build) (is_MP : Bool) (is_compiled_code : Nat → Bool) (vm : VM)
    (self : Nat) (hcall : NativeCall.verify vm.mem self = true)
    (halign : is_MP = true → NativeCall.displacement_is_aligned self = true)
    (hstub : find_stub vm.relocs self ≠ NULL)
    (hver : stubVerifies b vm.mem (find_stub vm.relocs self) = true) :
    verify b is_MP is_compiled_code vm self =
      if (b.assertOn && !(is_clean b vm self || is_call_to_compiled b is_compiled_code vm self ||
          is_call_to_interpreted b vm self)) = true then
        .terminated (Fatal.assertion "sanity check") vm
      else .returned vm := by
  unfold stubVerifies stubJump at hver
  simp only [Bool.and_eq_true] at hver
  have ha : (is_MP && b.assertOn && !NativeCall.displacement_is_aligned self) = false := by
    cases hm : is_MP
    · simp
    · simp [halign hm]
  unfold verify
  simp only []
  rw [nativeMovConstReg_at_ok b vm.mem _ (fun _ => hver.1)]
  simp only []
  rw [nativeJump_at_ok b vm.mem _ (fun _ => hver.2)]
  simp [hcall, ha, hstub]

/-- C20 (amended): every state of a static call site that is reachable from
the freshly emitted Clean state, by any sequence of `set_to_interpreted`
(called when its pre-write condition holds, with a resolved target: a
non-zero callee handle and an entry within reach of the stub's jump that is
neither the address of that jump nor `(address)-1`), `set_stub_to_clean`,
retargeting the call to compiled code, and changes of the lock and safepoint
state, is Clean, Bound-to-Compiled or Bound-to-Interpreter: the state
assertion of `verify()` holds there, and `verify()` returns whenever the call
instruction is well-formed (and aligned on a multiprocessor). -/
theorem reachable_states_are_legal (b : Build) (is_compiled_code : Nat → Bool)
    (cbuf : CodeBuffer) (mark base : Nat) (cb' : CodeBuffer) (locked at_safepoint : Bool)
    (hemit : emit_to_interp_stub b cbuf mark = .returned (base, cb'))
    (hbase : base ≠ NULL)
    (hfresh : ∀ r ∈ cbuf.relocs, r.kind ≠ RelocKind.static_stub (effectiveMark cbuf mark))
    (hsite : StaticCallSite b (effectiveMark cbuf mark) base)
    (vm : VM)
    (hreach : Reachable b is_compiled_code (effectiveMark cbuf mark)
      (VM.ofCodeBuffer cb' locked at_safepoint) vm) :
    (is_clean b vm (effectiveMark cbuf mark) ||
      is_call_to_compiled b is_compiled_code vm (effectiveMark cbuf mark) ||
      is_call_to_interpreted b vm (effectiveMark cbuf mark)) = true ∧
    (∀ is_MP : Bool, NativeCall.verify cbuf.mem (effectiveMark cbuf mark) = true →
      (is_MP = true → NativeCall.displacement_is_aligned (effectiveMark cbuf mark) = true) →
      verify b is_MP is_compiled_code vm (effectiveMark cbuf mark) = .returned vm) := by
  obtain ⟨f1, f2, f3, f4⟩ := fresh_site b cbuf mark base cb' locked at_safepoint hemit hbase
    hfresh hsite
  obtain ⟨i1, i2, i3, i4⟩ := reachable_invariant b is_compiled_code (effectiveMark cbuf mark)
    base (VM.ofCodeBuffer cb' locked at_safepoint) f1 hsite (by simp [f3]) vm hreach
  refine ⟨i4, ?_⟩
  intro is_MP hcall halign
  have hf : find_stub vm.relocs (effectiveMark cbuf mark) = base := by rw [i1]; exact f1
  exact verify_returns b is_MP is_compiled_code vm _ (by rw [i3, f4]; exact hcall) halign
    (by rw [hf]; exact hbase) (by rw [hf, i2]; exact f2) i4

/-- Witness of C20 (amended): the aligned sample site after it is bound to
callee A with entry `0x3000`. -/
theorem reachable_states_are_legal_witness :
    verify Sample.debug64 true Sample.isCompiledCode
      (set_to_interpreted Sample.debug64
        (VM.ofCodeBuffer (emit_to_interp_stub Sample.debug64 Sample.alignedCbuf NULL).state.2
          true false) 0x2003 Sample.calleeA 0x3000).state 0x2003
      = .returned (set_to_interpreted Sample.debug64
        (VM.ofCodeBuffer (emit_to_interp_stub Sample.debug64 Sample.alignedCbuf NULL).state.2
          true false) 0x2003 Sample.calleeA 0x3000).state :=
  (reachable_states_are_legal Sample.debug64 Sample.isCompiledCode Sample.alignedCbuf NULL
    0x1000 (emit_to_interp_stub Sample.debug64 Sample.alignedCbuf NULL).state.2 true false
    (by rfl) (by decide) (by decide) (by decide) _
    (Reachable.bind _ _ Sample.calleeA 0x3000 Reachable.start (by decide) (by decide)
      (by rfl))).2 true (by decide) (by decide)

/-- C20 (counterexample): the freshly emitted 32-bit site (stub at `0x1000`,
its jump at `0x1005`) is Clean, and the pre-write condition of
`set_to_interpreted(A, 0x1005)` holds there.  The bind returns and leaves the
call targeting the stub, the callee-identifier `0x7700` and the jump
unresolved, reading `(address)-1`: a state that is neither Clean nor
Bound-to-Compiled nor Bound-to-Interpreter, on which the state assertion of
`verify()` fails. -/
theorem bind_to_own_jump_leaves_hybrid :
    is_clean Sample.debug32 (Sample.freshVM Sample.debug32) 0x2000 = true ∧
    preWriteOk Sample.debug32 (Sample.freshVM Sample.debug32).mem
      (find_stub (Sample.freshVM Sample.debug32).relocs 0x2000) Sample.calleeA 0x1005 ∧
    (set_to_interpreted Sample.debug32 (Sample.freshVM Sample.debug32) 0x2000
      Sample.calleeA 0x1005).isReturned = true ∧
    NativeCall.destination Sample.debug32
      (set_to_interpreted Sample.debug32 (Sample.freshVM Sample.debug32) 0x2000
        Sample.calleeA 0x1005).state.mem 0x2000 = 0x1000 ∧
    NativeMovConstReg.data Sample.debug32
      (set_to_interpreted Sample.debug32 (Sample.freshVM Sample.debug32) 0x2000
        Sample.calleeA 0x1005).state.mem 0x1000 = 0x7700 ∧
    NativeJump.jump_destination Sample.debug32
      (set_to_interpreted Sample.debug32 (Sample.freshVM Sample.debug32) 0x2000
        Sample.calleeA 0x1005).state.mem 0x1005 = addrMinusOne Sample.debug32 ∧
    is_clean Sample.debug32
      (set_to_interpreted Sample.debug32 (Sample.freshVM Sample.debug32) 0x2000
        Sample.calleeA 0x1005).state 0x2000 = false ∧
    is_call_to_compiled Sample.debug32 Sample.isCompiledCode
      (set_to_interpreted Sample.debug32 (Sample.freshVM Sample.debug32) 0x2000
        Sample.calleeA 0x1005).state 0x2000 = false ∧
    is_call_to_interpreted Sample.debug32
      (set_to_interpreted Sample.debug32 (Sample.freshVM Sample.debug32) 0x2000
        Sample.calleeA 0x1005).state 0x2000 = false ∧
    (verify Sample.debug32 false Sample.isCompiledCode
      (set_to_interpreted Sample.debug32 (Sample.freshVM Sample.debug32) 0x2000
        Sample.calleeA 0x1005).state 0x2000).isReturned = false ∧
    verify Sample.debug32 false Sample.isCompiledCode
      (set_to_interpreted Sample.debug32 (Sample.freshVM Sample.debug32) 0x2000
        Sample.calleeA 0x1005).state 0x2000
      = .terminated (Fatal.assertion "sanity check")
        (set_to_interpreted Sample.debug32 (Sample.freshVM Sample.debug32) 0x2000
          Sample.calleeA 0x1005).state := by
  refine ⟨by decide, by decide, by decide, by decide, by decide, by decide, by decide,
    by decide, by decide, by decide, ?_⟩
  rfl

/-- C14 (amended): starting from a freshly emitted Clean site,
`set_to_interpreted(M, E1)`, for an entry `E1` within reach of the stub's jump
other than the address of that jump itself, returns and leaves the call
targeting the stub, the stub's callee-identifier reading `M` and its jump
destination reading `E1`.  When the call is then retargeted to a compiled-code
address `C` (within reach, not the stub), `verify()` returns, the site being
Bound-to-Compiled and not Bound-to-Interpreter, although the stub still reads
`M` and `E1`.  The stub not being clean (`M` non-zero or `E1` not
`(address)-1`), it is the call's target alone that makes the state assertion
of `verify()` pass: retargeted to an address that is not compiled code,
`verify()` stops at that assertion in a diagnostic build. -/
theorem retargeted_site_is_bound_to_compiled (b : Build) (is_MP : Bool)
    (is_compiled_code : Nat → Bool) (cbuf : CodeBuffer) (mark base : Nat) (cb' : CodeBuffer)
    (locked at_safepoint : Bool) (M : methodHandle) (E1 C : Nat)
    (hemit : emit_to_interp_stub b cbuf mark = .returned (base, cb'))
    (hbase : base ≠ NULL)
    (hfresh : ∀ r ∈ cbuf.relocs, r.kind ≠ RelocKind.static_stub (effectiveMark cbuf mark))
    (hsite : StaticCallSite b (effectiveMark cbuf mark) base)
    (hcall : NativeCall.verify cbuf.mem (effectiveMark cbuf mark) = true)
    (halign : is_MP = true → NativeCall.displacement_is_aligned (effectiveMark cbuf mark) = true)
    (hM : M.method < addrSpace b)
    (hE : EntryInReach b base E1) (hne : E1 ≠ stubJump b base)
    (hC : is_compiled_code C = true) (hCs : C ≠ base) (hCa : C < addrSpace b)
    (hCr : reach32 b (NativeCall.return_address (effectiveMark cbuf mark)) C) :
    ∃ vm1, set_to_interpreted b (VM.ofCodeBuffer cb' locked at_safepoint)
        (effectiveMark cbuf mark) M E1 = .returned vm1 ∧
      NativeCall.destination b vm1.mem (effectiveMark cbuf mark) = base ∧
      NativeMovConstReg.data b vm1.mem base = M.method ∧
      NativeJump.jump_destination b vm1.mem (stubJump b base) = E1 ∧
      verify b is_MP is_compiled_code (vm1.set_destination_mt_safe (effectiveMark cbuf mark) C)
        (effectiveMark cbuf mark)
        = .returned (vm1.set_destination_mt_safe (effectiveMark cbuf mark) C) ∧
      is_call_to_compiled b is_compiled_code
        (vm1.set_destination_mt_safe (effectiveMark cbuf mark) C) (effectiveMark cbuf mark)
        = true ∧
      is_call_to_interpreted b (vm1.set_destination_mt_safe (effectiveMark cbuf mark) C)
        (effectiveMark cbuf mark) = false ∧
      NativeMovConstReg.data b (vm1.set_destination_mt_safe (effectiveMark cbuf mark) C).mem base
        = M.method ∧
      NativeJump.jump_destination b
        (vm1.set_destination_mt_safe (effectiveMark cbuf mark) C).mem (stubJump b base) = E1 ∧
      (M.method ≠ 0 ∨ E1 ≠ addrMinusOne b →
        is_clean b (vm1.set_destination_mt_safe (effectiveMark cbuf mark) C)
          (effectiveMark cbuf mark) = false) ∧
      (b.assertOn = true → (M.method ≠ 0 ∨ E1 ≠ addrMinusOne b) →
        ∀ D, is_compiled_code D = false → D ≠ base → D < addrSpace b →
          reach32 b (NativeCall.return_address (effectiveMark cbuf mark)) D →
          verify b is_MP is_compiled_code
            (vm1.set_destination_mt_safe (effectiveMark cbuf mark) D) (effectiveMark cbuf mark)
            = .terminated (Fatal.assertion "sanity check")
              (vm1.set_destination_mt_safe (effectiveMark cbuf mark) D)) := by
  obtain ⟨f1, f2, f3, f4⟩ := fresh_site b cbuf mark base cb' locked at_safepoint hemit hbase
    hfresh hsite
  have hclean : NativeMovConstReg.data b (VM.ofCodeBuffer cb' locked at_safepoint).mem base = 0 ∧
      NativeJump.jump_destination b (VM.ofCodeBuffer cb' locked at_safepoint).mem
        (stubJump b base) = addrMinusOne b := by
    unfold is_clean at f3
    rw [f1] at f3
    simpa [stubJump] using f3
  have hok : preWriteOk b (VM.ofCodeBuffer cb' locked at_safepoint).mem base M E1 :=
    preWriteOk_of_clean b _ base M E1 hclean.1 hclean.2
  obtain ⟨vm1, h1, hr1, _, _, hm1, hv1⟩ := bind_spec b (VM.ofCodeBuffer cb' locked at_safepoint)
    (effectiveMark cbuf mark) base M E1 f1 hbase hsite.2.1 (fun _ => ⟨f2, hok⟩)
  obtain ⟨_, e2⟩ := bind_effects b (VM.ofCodeBuffer cb' locked at_safepoint).mem
    (effectiveMark cbuf mark) base M E1 hsite
  obtain ⟨r1, r2, r3⟩ := reads_after_bind b (VM.ofCodeBuffer cb' locked at_safepoint).mem
    (effectiveMark cbuf mark) base M E1 hsite hM hE
  rw [if_neg hne] at r2
  rw [← hm1] at r1 r2 r3 e2
  have key : ∀ D, D < addrSpace b →
      reach32 b (NativeCall.return_address (effectiveMark cbuf mark)) D →
      find_stub (vm1.set_destination_mt_safe (effectiveMark cbuf mark) D).relocs
        (effectiveMark cbuf mark) = base ∧
      stubVerifies b (vm1.set_destination_mt_safe (effectiveMark cbuf mark) D).mem base = true ∧
      NativeCall.verify (vm1.set_destination_mt_safe (effectiveMark cbuf mark) D).mem
        (effectiveMark cbuf mark) = true ∧
      NativeMovConstReg.data b (vm1.set_destination_mt_safe (effectiveMark cbuf mark) D).mem base
        = M.method ∧
      NativeJump.jump_destination b
        (vm1.set_destination_mt_safe (effectiveMark cbuf mark) D).mem (stubJump b base) = E1 ∧
      NativeCall.destination b (vm1.set_destination_mt_safe (effectiveMark cbuf mark) D).mem
        (effectiveMark cbuf mark) = D := by
    intro D hDa hDr
    have hmemD : (vm1.set_destination_mt_safe (effectiveMark cbuf mark) D).mem
        = NativeCall.repatched vm1.mem (effectiveMark cbuf mark) D := rfl
    have hrelD : (vm1.set_destination_mt_safe (effectiveMark cbuf mark) D).relocs
        = vm1.relocs := rfl
    obtain ⟨p1, p2, p3⟩ := repatched_effects b vm1.mem (effectiveMark cbuf mark) base D hsite.2.1
    refine ⟨by rw [hrelD, hr1]; exact f1, ?_, ?_, ?_, ?_, ?_⟩
    · rw [hmemD, p1, hv1]; exact f2
    · rw [hmemD, callVerify_repatched, e2, f4]; exact hcall
    · rw [hmemD, p2]; exact r1
    · rw [hmemD, p3]; exact r2
    · rw [hmemD]; exact destination_repatched b vm1.mem (effectiveMark cbuf mark) D hDa hDr
  have hnotclean : ∀ D, D < addrSpace b →
      reach32 b (NativeCall.return_address (effectiveMark cbuf mark)) D →
      (M.method ≠ 0 ∨ E1 ≠ addrMinusOne b) →
      is_clean b (vm1.set_destination_mt_safe (effectiveMark cbuf mark) D)
        (effectiveMark cbuf mark) = false := by
    intro D hDa hDr hor
    obtain ⟨k1, _, _, k4, k5, _⟩ := key D hDa hDr
    unfold is_clean
    rw [k1, k4]
    unfold stubJump at k5
    rw [k5]
    rcases hor with h | h <;> simp [h]
  have hnotinterp : ∀ D, D < addrSpace b →
      reach32 b (NativeCall.return_address (effectiveMark cbuf mark)) D → D ≠ base →
      is_call_to_interpreted b (vm1.set_destination_mt_safe (effectiveMark cbuf mark) D)
        (effectiveMark cbuf mark) = false := by
    intro D hDa hDr hDs
    obtain ⟨k1, _, _, _, _, k6⟩ := key D hDa hDr
    unfold is_call_to_interpreted
    rw [k1, k6]
    simp [hDs]
  have hcomp : ∀ D, D < addrSpace b →
      reach32 b (NativeCall.return_address (effectiveMark cbuf mark)) D →
      is_call_to_compiled b is_compiled_code
        (vm1.set_destination_mt_safe (effectiveMark cbuf mark) D) (effectiveMark cbuf mark)
        = is_compiled_code D := by
    intro D hDa hDr
    obtain ⟨_, _, _, _, _, k6⟩ := key D hDa hDr
    unfold is_call_to_compiled
    rw [k6]
  obtain ⟨c1, c2, c3, c4, c5, _⟩ := key C hCa hCr
  refine ⟨vm1, h1, r3, r1, r2, ?_, by rw [hcomp C hCa hCr]; exact hC,
    hnotinterp C hCa hCr hCs, c4, c5, hnotclean C hCa hCr, ?_⟩
  · rw [verify_eq b is_MP is_compiled_code _ _ c3 halign (by rw [c1]; exact hbase)
      (by rw [c1]; exact c2), hcomp C hCa hCr, hC]
    simp
  · intro hb hor D hD hDs hDa hDr
    obtain ⟨d1, d2, d3, _, _, _⟩ := key D hDa hDr
    rw [verify_eq b is_MP is_compiled_code _ _ d3 halign (by rw [d1]; exact hbase)
      (by rw [d1]; exact d2), hcomp D hDa hDr, hD, hnotclean D hDa hDr hor,
      hnotinterp D hDa hDr hDs, hb]
    simp

/-- Witness of C14 (amended): the stub emitted for the aligned sample call at
`0x2003`, bound to callee A with entry `0x3000`, then retargeted to `0x8000`;
retargeted to `0x9000`, which is not compiled code, `verify()` stops. -/
theorem retargeted_site_is_bound_to_compiled_witness :
    ∃ vm1, set_to_interpreted Sample.debug64
        (VM.ofCodeBuffer (emit_to_interp_stub Sample.debug64 Sample.alignedCbuf NULL).state.2
          true false) 0x2003 Sample.calleeA 0x3000 = .returned vm1 ∧
      NativeJump.jump_destination Sample.debug64 vm1.mem (stubJump Sample.debug64 0x1000)
        = 0x3000 ∧
      verify Sample.debug64 true Sample.isCompiledCode
        (vm1.set_destination_mt_safe 0x2003 0x8000) 0x2003
        = .returned (vm1.set_destination_mt_safe 0x2003 0x8000) ∧
      is_call_to_compiled Sample.debug64 Sample.isCompiledCode
        (vm1.set_destination_mt_safe 0x2003 0x8000) 0x2003 = true ∧
      is_call_to_interpreted Sample.debug64
        (vm1.set_destination_mt_safe 0x2003 0x8000) 0x2003 = false ∧
      verify Sample.debug64 true Sample.isCompiledCode
        (vm1.set_destination_mt_safe 0x2003 0x9000) 0x2003
        = .terminated (Fatal.assertion "sanity check")
          (vm1.set_destination_mt_safe 0x2003 0x9000) := by
  obtain ⟨vm1, h1, _, _, h4, h5, h6, h7, _, _, _, h11⟩ := retargeted_site_is_bound_to_compiled
    Sample.debug64 true Sample.isCompiledCode Sample.alignedCbuf NULL 0x1000
    (emit_to_interp_stub Sample.debug64 Sample.alignedCbuf NULL).state.2 true false
    Sample.calleeA 0x3000 0x8000 (by rfl) (by decide) (by decide) (by decide) (by decide)
    (by decide) (by decide) (by decide) (by decide) (by decide) (by decide) (by decide)
    (by decide)
  exact ⟨vm1, h1, h4, h5, h6, h7,
    h11 (by decide) (Or.inl (by decide)) 0x9000 (by decide) (by decide) (by decide) (by decide)⟩

/-- C14 (counterexample): on the freshly emitted LP64 site of the aligned
sample call (stub at `0x1000`, its jump at `0x100A`), which is Clean,
`set_to_interpreted(A, 0x100A)` returns and leaves the call targeting the stub
and the callee-identifier reading `0x7700`, but the stub's jump destination
reads `(address)-1`, not the entry `0x100A`. -/
theorem bind_entry_at_own_jump_reads_unresolved :
    is_clean Sample.debug64
      (VM.ofCodeBuffer (emit_to_interp_stub Sample.debug64 Sample.alignedCbuf NULL).state.2
        true false) 0x2003 = true ∧
    stubJump Sample.debug64 0x1000 = 0x100A ∧
    (set_to_interpreted Sample.debug64
      (VM.ofCodeBuffer (emit_to_interp_stub Sample.debug64 Sample.alignedCbuf NULL).state.2
        true false) 0x2003 Sample.calleeA 0x100A).isReturned = true ∧
    NativeCall.destination Sample.debug64
      (set_to_interpreted Sample.debug64
        (VM.ofCodeBuffer (emit_to_interp_stub Sample.debug64 Sample.alignedCbuf NULL).state.2
          true false) 0x2003 Sample.calleeA 0x100A).state.mem 0x2003 = 0x1000 ∧
    NativeMovConstReg.data Sample.debug64
      (set_to_interpreted Sample.debug64
        (VM.ofCodeBuffer (emit_to_interp_stub Sample.debug64 Sample.alignedCbuf NULL).state.2
          true false) 0x2003 Sample.calleeA 0x100A).state.mem 0x1000 = 0x7700 ∧
    NativeJump.jump_destination Sample.debug64
      (set_to_interpreted Sample.debug64
        (VM.ofCodeBuffer (emit_to_interp_stub Sample.debug64 Sample.alignedCbuf NULL).state.2
          true false) 0x2003 Sample.calleeA 0x100A).state.mem 0x100A
      = addrMinusOne Sample.debug64 ∧
    NativeJump.jump_destination Sample.debug64
      (set_to_interpreted Sample.debug64
        (VM.ofCodeBuffer (emit_to_interp_stub Sample.debug64 Sample.alignedCbuf NULL).state.2
          true false) 0x2003 Sample.calleeA 0x100A).state.mem 0x100A ≠ 0x100A := by
  refine ⟨by decide, by decide, by decide, by decide, by decide, by decide, by decide⟩

end HotSpot

namespace AwtTextArea

/-! ## CountNewLines -/

/-- The loop of `CountNewLines` from index `i` on: it adds the newlines among
the characters from `i` up to `min maxlen length`. -/
theorem CountNewLines_loop_eq (chars : List Nat) (maxlen : Nat) (m i n : Nat)
    (hm : m = min maxlen chars.length - i) (hi : i ≤ min maxlen chars.length) :
    CountNewLines.loop (chars ++ [0]) maxlen (chars.length + 1) i n
      = n + (((chars.take (min maxlen chars.length)).drop i).count newline) := by
  induction m generalizing i n with
  | zero =>
    have hik : i = min maxlen chars.length := by omega
    rw [CountNewLines.loop]
    have hc : ¬ (i < maxlen ∧ i < chars.length + 1 - 1) := by
      rw [hik]
      simp only [Nat.add_sub_cancel]
      omega
    rw [if_neg hc, hik]
    have hnil : (chars.take (min maxlen chars.length)).drop (min maxlen chars.length) = [] :=
      List.drop_eq_nil_of_le (by rw [List.length_take]; omega)
    rw [hnil]
    simp
  | succ m ih =>
    have hik : i < min maxlen chars.length := by omega
    have hil : i < chars.length := by omega
    rw [CountNewLines.loop]
    have hc : i < maxlen ∧ i < chars.length + 1 - 1 := by
      simp only [Nat.add_sub_cancel]
      omega
    rw [if_pos hc, ih (i + 1) _ (by omega) (by omega)]
    have hget : (chars ++ [0]).getD i 0 = chars[i] := by
      rw [List.getD_eq_getElem?_getD, List.getElem?_append_left hil,
        List.getElem?_eq_getElem hil]
      rfl
    have hlen : i < (chars.take (min maxlen chars.length)).length := by
      rw [List.length_take]
      omega
    have hdrop : (chars.take (min maxlen chars.length)).drop i
        = chars[i] :: (chars.take (min maxlen chars.length)).drop (i + 1) := by
      rw [List.drop_eq_getElem_cons hlen, List.getElem_take]
    rw [hget, hdrop, List.count_cons]
    by_cases hnl : chars[i] = newline
    · simp [hnl]
      omega
    · have hnl' : ¬ (chars[i] == newline) = true := by simpa using hnl
      simp [hnl, hnl']

/-- C17: `CountNewLines(env, jStr, maxlen)` returns 0 when `jStr` is null, and
otherwise the number of `'\n'` among the first `min(maxlen, length(jStr))`
characters of `jStr`; so it is at most `min(maxlen, length(jStr))`, and it is
the number of `'\n'` in the whole of `jStr` whenever `maxlen >= length(jStr)`. -/
theorem CountNewLines_counts (maxlen : Nat) :
    CountNewLines none maxlen = 0 ∧
    ∀ chars : List Nat,
      CountNewLines (some chars) maxlen
        = (chars.take (min maxlen chars.length)).count newline ∧
      CountNewLines (some chars) maxlen ≤ min maxlen chars.length ∧
      (chars.length ≤ maxlen → CountNewLines (some chars) maxlen = chars.count newline) := by
  refine ⟨rfl, ?_⟩
  intro chars
  have h : CountNewLines (some chars) maxlen
      = (chars.take (min maxlen chars.length)).count newline := by
    unfold CountNewLines
    simp only []
    rw [CountNewLines_loop_eq chars maxlen _ 0 0 rfl (by omega)]
    simp
  refine ⟨h, ?_, ?_⟩
  · rw [h]
    calc (chars.take (min maxlen chars.length)).count newline
        ≤ (chars.take (min maxlen chars.length)).length := List.count_le_length _ _
      _ ≤ min maxlen chars.length := by rw [List.length_take]; omega
  · intro hl
    rw [h, Nat.min_eq_right hl, List.take_length]

/-! ## QueryAcceptData -/

/-- C18: for `RECO_PASTE`, `QueryAcceptData` sets the paste format by fixed
priority: `CF_TEXT` if it is available; otherwise `CF_UNICODETEXT` if the
platform is not Win95 and that format is available; otherwise `CF_OEMTEXT` if
it is available; otherwise `CF_TEXT`.  The format chosen is one of these three
text formats.  For any other `reco` the format is left as it was, and the call
returns `NOERROR` in every case. -/
theorem QueryAcceptData_picks_text_format (available : Nat → Bool) (m_isWin95 : Bool)
    (cfFormat reco : Nat) :
    (OleCallback.QueryAcceptData available m_isWin95 cfFormat reco).1 = NOERROR ∧
    (reco ≠ RECO_PASTE →
      (OleCallback.QueryAcceptData available m_isWin95 cfFormat reco).2 = cfFormat) ∧
    (reco = RECO_PASTE →
      (OleCallback.QueryAcceptData available m_isWin95 cfFormat reco).2 =
        (if available CF_TEXT = true then CF_TEXT
         else if m_isWin95 = false ∧ available CF_UNICODETEXT = true then CF_UNICODETEXT
         else if available CF_OEMTEXT = true then CF_OEMTEXT
         else CF_TEXT) ∧
      ((OleCallback.QueryAcceptData available m_isWin95 cfFormat reco).2 = CF_TEXT ∨
       (OleCallback.QueryAcceptData available m_isWin95 cfFormat reco).2 = CF_UNICODETEXT ∨
       (OleCallback.QueryAcceptData available m_isWin95 cfFormat reco).2 = CF_OEMTEXT)) := by
  unfold OleCallback.QueryAcceptData
  refine ⟨?_, ?_, ?_⟩
  · split
    · split
      · rfl
      · split
        · rfl
        · split <;> rfl
    · rfl
  · intro h
    rw [if_neg h]
  · intro h
    rw [if_pos h]
    cases h1 : available CF_TEXT <;> cases h2 : m_isWin95 <;>
      cases h3 : available CF_UNICODETEXT <;> cases h4 : available CF_OEMTEXT <;> simp

/-! ## Reshape -/

/-- C19: `Reshape(x, y, w, h)` forwards `(x, y, max(w, 2), h)` to the
underlying component: the width it passes is never below 2, widths below 2
(0, 1 and the negative ones) become 2, every width of at least 2 is passed
unchanged, and `x`, `y` and `h` are always passed unchanged. -/
theorem Reshape_width_at_least_two (x y w h : Int) :
    Reshape x y w h = AwtTextComponent.Reshape x y (max w 2) h ∧
    (Reshape x y w h).1 = x ∧ (Reshape x y w h).2.1 = y ∧ (Reshape x y w h).2.2.2 = h ∧
    2 ≤ (Reshape x y w h).2.2.1 ∧
    (w < 2 → (Reshape x y w h).2.2.1 = 2) ∧
    (2 ≤ w → (Reshape x y w h).2.2.1 = w) := by
  have key : Reshape x y w h = (x, y, max w 2, h) := by
    unfold Reshape AwtTextComponent.Reshape
    by_cases hw : w < 2
    · have hmax : max w 2 = 2 := max_eq_right (by omega)
      simp only [if_pos hw, hmax]
    · have hmax : max w 2 = w := max_eq_left (by omega)
      simp only [if_neg hw, hmax]
  rw [key]
  refine ⟨rfl, rfl, rfl, rfl, ?_, ?_, ?_⟩
  · show 2 ≤ max w 2
    exact le_max_right w 2
  · intro hw
    show max w 2 = 2
    exact max_eq_right (by omega)
  · intro hw
    show max w 2 = w
    exact max_eq_left hw

end AwtTextArea

namespace HotSpot
open CompiledStaticCall

/-! ## Relocation records of a stub -/

/-- C21: `reloc_to_interp_stub()` returns 4.  A successful
`emit_to_interp_stub` creates exactly 3 relocation records, in this order: the
static-stub record at the stub, the metadata record of the callee-identifier
load, and the runtime-call record of the jump; with the 1 record of the call
instruction itself that makes 4. -/
theorem reloc_to_interp_stub_counts (b : Build) (cbuf : CodeBuffer) (mark base : Nat)
    (cb' : CodeBuffer) (h : emit_to_interp_stub b cbuf mark = .returned (base, cb'))
    (hbase : base ≠ NULL) :
    reloc_to_interp_stub = 4 ∧
    cb'.relocs.length = cbuf.relocs.length + 3 ∧
    cb'.relocs = cbuf.relocs ++
      [⟨base, RelocKind.static_stub (effectiveMark cbuf mark)⟩,
       ⟨base, RelocKind.metadata⟩,
       ⟨NativeMovConstReg.next_instruction_address b base, RelocKind.runtime_call⟩] ∧
    reloc_to_interp_stub = (cb'.relocs.length - cbuf.relocs.length) + relocs_in_emit_call := by
  obtain ⟨_, hb, hcb⟩ := emit_to_interp_stub_success b cbuf mark base cb' h hbase
  subst hb hcb
  refine ⟨rfl, ?_, rfl, ?_⟩
  · simp [stubRelocs]
  · simp [stubRelocs, reloc_to_interp_stub, relocs_in_emit_call]

/-- Witness of C21: the emission into the sample buffer creates three
records. -/
theorem reloc_to_interp_stub_counts_witness :
    reloc_to_interp_stub = 4 ∧
    (emit_to_interp_stub Sample.debug64 Sample.cbuf NULL).state.2.relocs.length
      = Sample.cbuf.relocs.length + 3 := by
  have h := reloc_to_interp_stub_counts Sample.debug64 Sample.cbuf NULL 0x1000
    (emit_to_interp_stub Sample.debug64 Sample.cbuf NULL).state.2 (by rfl) (by decide)
  exact ⟨h.1, h.2.1⟩

/-! ## The frame of set_stub_to_clean -/

/-- The state `set_stub_to_clean` ends in, returned or not: the one it was
called in, or that state after the first store, or after both stores. -/
theorem set_stub_to_clean_state_cases (b : Build) (vm : VM) (static_stub : Reloc) :
    (set_stub_to_clean b vm static_stub).state = vm ∨
    (set_stub_to_clean b vm static_stub).state = vm.set_data b static_stub.addr 0 ∨
    (set_stub_to_clean b vm static_stub).state =
      (vm.set_data b static_stub.addr 0).set_jump_destination b
        (stubJump b static_stub.addr) (addrMinusOne b) := by
  unfold set_stub_to_clean
  simp only []
  split
  · exact Or.inl rfl
  · split
    · exact Or.inl rfl
    · split
      · exact Or.inl rfl
      · rename_i mh hmh
        obtain ⟨e1, _⟩ := nativeMovConstReg_at_value b _ _ mh hmh
        subst e1
        split
        · exact Or.inr (Or.inl rfl)
        · rename_i j hj
          obtain ⟨e2, _⟩ := nativeJump_at_value b _ _ j hj
          subst e2
          exact Or.inr (Or.inr rfl)

/-- Bytes outside the two patched fields of the stub are the same after the
stores of a reset, whether one or both were made. -/
theorem clean_stores_outside (b : Build) (m : Mem) (stub x : Nat)
    (hx : ¬ inStubFields b stub x) :
    writeLE m (stub + NativeMovConstReg.data_offset b) (wordSize b) 0 x = m x ∧
    writeLE (writeLE m (stub + NativeMovConstReg.data_offset b) (wordSize b) 0)
      (stubJump b stub + NativeJump.data_offset) 4
      (toJintBits (NativeJump.displacement_for b (stubJump b stub) (addrMinusOne b))) x
      = m x := by
  unfold inStubFields at hx
  have h1 : writeLE m (stub + NativeMovConstReg.data_offset b) (wordSize b) 0 x = m x :=
    writeLE_outside _ _ _ _ _ (by omega)
  refine ⟨h1, ?_⟩
  rw [writeLE_outside _ _ _ _ _ (by omega), h1]

end HotSpot

namespace HotSpot
open CompiledStaticCall

theorem destination_congr (b : Build) (m m' : Mem) (self : Nat)
    (h : ∀ x, self + 1 ≤ x → x < self + 5 → m' x = m x) :
    NativeCall.destination b m' self = NativeCall.destination b m self := by
  unfold NativeCall.destination
  rw [readLE_congr m' m (self + NativeCall.displacement_offset) 4
    (fun x h1 h2 => h x (by simp only [NativeCall.displacement_offset] at h1; omega)
      (by simp only [NativeCall.displacement_offset] at h2; omega))]

theorem data_congr (b : Build) (m m' : Mem) (stub : Nat)
    (h : ∀ x, stub + NativeMovConstReg.data_offset b ≤ x →
      x < stub + NativeMovConstReg.data_offset b + wordSize b → m' x = m x) :
    NativeMovConstReg.data b m' stub = NativeMovConstReg.data b m stub := by
  unfold NativeMovConstReg.data
  exact readLE_congr m' m _ _ h

theorem jump_destination_congr (b : Build) (m m' : Mem) (j : Nat)
    (h : ∀ x, j + 1 ≤ x → x < j + 5 → m' x = m x) :
    NativeJump.jump_destination b m' j = NativeJump.jump_destination b m j := by
  unfold NativeJump.jump_destination
  rw [readLE_congr m' m (j + NativeJump.data_offset) 4
    (fun x h1 h2 => h x (by simp only [NativeJump.data_offset] at h1; omega)
      (by simp only [NativeJump.data_offset] at h2; omega))]

/-- Code memory at the end of `set_stub_to_clean`, returned or not, differs
from the memory before at most in the two patched fields of the stub. -/
theorem set_stub_to_clean_mem_outside (b : Build) (vm : VM) (static_stub : Reloc) (x : Nat)
    (hx : ¬ inStubFields b static_stub.addr x) :
    (set_stub_to_clean b vm static_stub).state.mem x = vm.mem x := by
  obtain ⟨h1, h2⟩ := clean_stores_outside b vm.mem static_stub.addr x hx
  rcases set_stub_to_clean_state_cases b vm static_stub with h | h | h
  · rw [h]
  · rw [h]; exact h1
  · rw [h, clean_mem]; exact h2

/-- The fields of a call instruction outside the stub, and of another stub,
are not among the patched fields. -/
theorem not_inStubFields_of_apart (b : Build) (stub lo hi x : Nat)
    (hapart : hi ≤ stub ∨ stub + to_interp_stub_size b ≤ lo) (h1 : lo ≤ x) (h2 : x < hi) :
    ¬ inStubFields b stub x := by
  unfold inStubFields
  simp only [stubJump, NativeMovConstReg.next_instruction_address, NativeJump.data_offset]
  rcases layout_cases b with ⟨_, _, h2', h3, h4, h5⟩ | ⟨_, _, h2', h3, h4, h5⟩ <;>
    rw [h3, h2', h4] <;> rw [h5] at hapart <;> omega

/-- C22: the frame of `set_stub_to_clean`.  Whether it returns or stops on
the way, it changes no byte of code memory outside the callee-identifier field
and the jump-displacement field of the one stub its argument names, and no
relocation record; when it returns, its stores are exactly those two.  So the
destination of every call instruction outside that stub, and the
callee-identifier and jump destination of every other stub, read as before;
and a site whose call targeted the stub, as that of every Bound-to-Interpreter
site does, still has its call targeting the stub, now clean, after the
reset. -/
theorem set_stub_to_clean_frame (b : Build) (vm : VM) (static_stub : Reloc) :
    (∀ x, ¬ inStubFields b static_stub.addr x →
      (set_stub_to_clean b vm static_stub).state.mem x = vm.mem x) ∧
    (set_stub_to_clean b vm static_stub).state.relocs = vm.relocs ∧
    (∀ vm', set_stub_to_clean b vm static_stub = .returned vm' →
      vm'.stores = vm.stores ++ cleanStores b static_stub.addr) ∧
    (∀ self, (self + NativeCall.instruction_size ≤ static_stub.addr ∨
        static_stub.addr + to_interp_stub_size b ≤ self) →
      NativeCall.destination b (set_stub_to_clean b vm static_stub).state.mem self
        = NativeCall.destination b vm.mem self) ∧
    (∀ stub', (stub' + to_interp_stub_size b ≤ static_stub.addr ∨
        static_stub.addr + to_interp_stub_size b ≤ stub') →
      NativeMovConstReg.data b (set_stub_to_clean b vm static_stub).state.mem stub'
        = NativeMovConstReg.data b vm.mem stub' ∧
      NativeJump.jump_destination b (set_stub_to_clean b vm static_stub).state.mem
        (stubJump b stub') = NativeJump.jump_destination b vm.mem (stubJump b stub')) ∧
    (∀ self vm', set_stub_to_clean b vm static_stub = .returned vm' →
      (self + NativeCall.instruction_size ≤ static_stub.addr ∨
        static_stub.addr + to_interp_stub_size b ≤ self) →
      static_stub.addr + to_interp_stub_size b ≤ addrSpace b →
      find_stub vm.relocs self = static_stub.addr →
      NativeCall.destination b vm.mem self = find_stub vm.relocs self →
      NativeCall.destination b vm'.mem self = static_stub.addr ∧
      NativeCall.destination b vm'.mem self = find_stub vm'.relocs self ∧
      is_clean b vm' self = true) ∧
    (∀ self vm', set_stub_to_clean b vm static_stub = .returned vm' →
      (self + NativeCall.instruction_size ≤ static_stub.addr ∨
        static_stub.addr + to_interp_stub_size b ≤ self) →
      static_stub.addr + to_interp_stub_size b ≤ addrSpace b →
      find_stub vm.relocs self = static_stub.addr →
      is_call_to_interpreted b vm self = true →
      NativeCall.destination b vm'.mem self = static_stub.addr ∧
      is_clean b vm' self = true) := by
  have hout := set_stub_to_clean_mem_outside b vm static_stub
  have hdest : ∀ self, (self + NativeCall.instruction_size ≤ static_stub.addr ∨
        static_stub.addr + to_interp_stub_size b ≤ self) →
      NativeCall.destination b (set_stub_to_clean b vm static_stub).state.mem self
        = NativeCall.destination b vm.mem self := by
    intro self hap
    simp only [NativeCall.instruction_size] at hap
    apply destination_congr
    intro x h1 h2
    exact hout x (not_inStubFields_of_apart b static_stub.addr (self + 1) (self + 5) x
      (by omega) h1 h2)
  have hlast : ∀ self vm', set_stub_to_clean b vm static_stub = .returned vm' →
      (self + NativeCall.instruction_size ≤ static_stub.addr ∨
        static_stub.addr + to_interp_stub_size b ≤ self) →
      static_stub.addr + to_interp_stub_size b ≤ addrSpace b →
      find_stub vm.relocs self = static_stub.addr →
      NativeCall.destination b vm.mem self = find_stub vm.relocs self →
      NativeCall.destination b vm'.mem self = static_stub.addr ∧
      NativeCall.destination b vm'.mem self = find_stub vm'.relocs self ∧
      is_clean b vm' self = true := by
    intro self vm' hret hap hspace hfind hi
    have hst : (set_stub_to_clean b vm static_stub).state = vm' := by rw [hret]; rfl
    have hd := hdest self hap
    rw [hst] at hd
    have hvm' := set_stub_to_clean_inv b vm vm' static_stub hret
    have hrel : vm'.relocs = vm.relocs := by rw [hvm']; rfl
    have hmem := clean_mem b vm static_stub.addr
    rw [← hvm'] at hmem
    obtain ⟨r1, r2, _⟩ := reads_after_clean b vm.mem static_stub.addr hspace
    rw [hfind] at hi
    refine ⟨by rw [hd, hi], ?_, ?_⟩
    · rw [hrel, hfind, hd, hi]
    · unfold is_clean
      rw [hrel, hfind, hmem, r1]
      unfold stubJump at r2 ⊢
      rw [r2]
      simp
  refine ⟨hout, ?_, ?_, hdest, ?_, hlast, ?_⟩
  · rcases set_stub_to_clean_state_cases b vm static_stub with h | h | h <;> rw [h] <;> rfl
  · intro vm' hret
    rw [set_stub_to_clean_inv b vm vm' static_stub hret]
    simp [VM.set_data, VM.set_jump_destination, VM.store, cleanStores]
  · intro stub' hap
    have hL := layout_cases b
    refine ⟨?_, ?_⟩
    · apply data_congr
      intro x h1 h2
      refine hout x (not_inStubFields_of_apart b static_stub.addr
        (stub' + NativeMovConstReg.data_offset b)
        (stub' + NativeMovConstReg.data_offset b + wordSize b) x ?_ h1 h2)
      rcases hL with ⟨_, _, h2', h3, h4, h5⟩ | ⟨_, _, h2', h3, h4, h5⟩ <;>
        rw [h3, h2'] <;> rw [h5] at hap ⊢ <;> omega
    · apply jump_destination_congr
      intro x h1 h2
      refine hout x (not_inStubFields_of_apart b static_stub.addr
        (stubJump b stub' + 1) (stubJump b stub' + 5) x ?_ h1 h2)
      simp only [stubJump, NativeMovConstReg.next_instruction_address]
      rcases hL with ⟨_, _, h2', h3, h4, h5⟩ | ⟨_, _, h2', h3, h4, h5⟩ <;>
        rw [h4] <;> rw [h5] at hap ⊢ <;> omega
  · intro self vm' hret hap hspace hfind hi
    unfold is_call_to_interpreted at hi
    simp only [Bool.and_eq_true, beq_iff_eq] at hi
    obtain ⟨h1, _, h3⟩ := hlast self vm' hret hap hspace hfind hi.1.1
    exact ⟨h1, h3⟩

/-- Witness of C22: resetting the stub of the bound sample site leaves the
call at `0x2000` targeting the stub at `0x1000`, now clean. -/
theorem set_stub_to_clean_frame_witness :
    NativeCall.destination Sample.debug64
      (set_stub_to_clean Sample.debug64 (Sample.boundVM Sample.debug64)
        Sample.stubReloc).state.mem 0x2000 = 0x1000 ∧
    is_clean Sample.debug64
      (set_stub_to_clean Sample.debug64 (Sample.boundVM Sample.debug64)
        Sample.stubReloc).state 0x2000 = true := by
  obtain ⟨h1, _, h3⟩ := (set_stub_to_clean_frame Sample.debug64 (Sample.boundVM Sample.debug64)
    Sample.stubReloc).2.2.2.2.2.1 0x2000
    (set_stub_to_clean Sample.debug64 (Sample.boundVM Sample.debug64) Sample.stubReloc).state
    (by rfl) (by decide) (by decide) (by decide) (by decide)
  exact ⟨h1, h3⟩

end HotSpot

namespace AwtTextArea

/-! ## getJavaSelPos -/

theorem wrapLONG_id (x : Int) (h1 : LONG_MIN ≤ x) (h2 : x ≤ LONG_MAX) : wrapLONG x = x := by
  unfold wrapLONG
  unfold LONG_MIN at h1
  unfold LONG_MAX at h2
  omega

theorem getD_append_zero (t : List Nat) (i : Nat) : (t ++ [0]).getD i 0 = t.getD i 0 := by
  by_cases h : i < t.length
  · rw [List.getD_eq_getElem?_getD, List.getD_eq_getElem?_getD, List.getElem?_append_left h]
  · have h1 : t.length ≤ i := by omega
    rw [List.getD_eq_getElem?_getD, List.getD_eq_getElem?_getD, List.getElem?_eq_none h1]
    by_cases h2 : i = t.length
    · subst h2
      simp
    · rw [List.getElem?_eq_none (by simp; omega)]

theorem crlfPairsBefore_succ (t : List Nat) (r : Nat) :
    crlfPairsBefore t (r + 1) = crlfPairsBefore t r +
      (if t.getD r 0 = carriageReturn ∧ t.getD (r + 1) 0 = newline then 1 else 0) := by
  unfold crlfPairsBefore
  rw [List.range_succ, List.filter_append, List.length_append]
  by_cases h : t.getD r 0 = carriageReturn ∧ t.getD (r + 1) 0 = newline
  · rw [if_pos h]
    simp only [List.filter_cons, List.filter_nil, h, and_self, decide_True, if_true,
      List.length_singleton]
  · rw [if_neg h]
    simp only [List.filter_cons, List.filter_nil, h, decide_False, Bool.false_eq_true, if_false,
      List.length_nil]

theorem crlfPairsBefore_mono (t : List Nat) (r r' : Nat) (h : r ≤ r') :
    crlfPairsBefore t r ≤ crlfPairsBefore t r' := by
  induction r' with
  | zero =>
    have : r = 0 := by omega
    rw [this]
  | succ n ih =>
    by_cases hr : r = n + 1
    · rw [hr]
    · have := ih (by omega)
      rw [crlfPairsBefore_succ]
      omega

theorem crlfPairsBefore_le (t : List Nat) (r : Nat) : crlfPairsBefore t r ≤ r := by
  induction r with
  | zero => simp [crlfPairsBefore]
  | succ n ih =>
    rw [crlfPairsBefore_succ]
    split <;> omega

/-- The loop, whatever the value of `pos`: it ends between `cur` and `wlen`,
and at `cur` when `cur` is not below `pos`. -/
theorem getJavaSelPos_loop_bounds (wbuf : List Nat) (wlen n : Nat) :
    ∀ (pos : Int) (cur : Nat), n = wlen - cur →
      cur ≤ getJavaSelPos.loop wbuf wlen pos cur cur ∧
      (getJavaSelPos.loop wbuf wlen pos cur cur ≤ wlen ∨
        getJavaSelPos.loop wbuf wlen pos cur cur = cur) ∧
      (¬ ((cur : Int) < pos) → getJavaSelPos.loop wbuf wlen pos cur cur = cur) := by
  induction n with
  | zero =>
    intro pos cur hn
    rw [getJavaSelPos.loop]
    have hc : ¬ ((cur : Int) < pos ∧ cur < wlen) := by omega
    rw [if_neg hc]
    exact ⟨le_refl _, Or.inr rfl, fun _ => rfl⟩
  | succ n ih =>
    intro pos cur hn
    rw [getJavaSelPos.loop]
    by_cases hc : (cur : Int) < pos ∧ cur < wlen
    · rw [if_pos hc]
      obtain ⟨h1, h2, _⟩ := ih
        (if wbuf.getD cur 0 = carriageReturn ∧ wbuf.getD (cur + 1) 0 = newline then
          wrapLONG (pos + 1) else pos) (cur + 1) (by omega)
      refine ⟨by omega, ?_, fun h => absurd hc.1 h⟩
      rcases h2 with h2 | h2
      · exact Or.inl h2
      · left; rw [h2]; omega
    · rw [if_neg hc]
      exact ⟨le_refl _, Or.inr rfl, fun _ => rfl⟩

/-- The loop while `pos` does not overflow: from `cur` on, with `pos` equal to
`orgPos` plus the pairs met so far, the loop ends at the first index at which
its condition fails. -/
theorem getJavaSelPos_loop_first_exit (t : List Nat) (orgPos : Int)
    (hno : orgPos + (crlfPairsBefore t t.length : Int) ≤ LONG_MAX) (n : Nat) :
    ∀ cur : Nat, n = t.length - cur → cur ≤ t.length →
      ∃ r : Nat, getJavaSelPos.loop (t ++ [0]) t.length (orgPos + (crlfPairsBefore t cur : Int))
          cur cur = r ∧ cur ≤ r ∧
        ¬ ((r : Int) < orgPos + (crlfPairsBefore t r : Int) ∧ r < t.length) ∧
        ∀ k, cur ≤ k → k < r →
          ((k : Int) < orgPos + (crlfPairsBefore t k : Int) ∧ k < t.length) := by
  induction n with
  | zero =>
    intro cur hn hle
    rw [getJavaSelPos.loop]
    have hc : ¬ ((cur : Int) < orgPos + (crlfPairsBefore t cur : Int) ∧ cur < t.length) := by
      omega
    rw [if_neg hc]
    exact ⟨cur, rfl, le_refl _, hc, fun k h1 h2 => by omega⟩
  | succ n ih =>
    intro cur hn hle
    rw [getJavaSelPos.loop]
    by_cases hc : (cur : Int) < orgPos + (crlfPairsBefore t cur : Int) ∧ cur < t.length
    · rw [if_pos hc]
      have hpos : (if (t ++ [0]).getD cur 0 = carriageReturn ∧
            (t ++ [0]).getD (cur + 1) 0 = newline then
            wrapLONG (orgPos + (crlfPairsBefore t cur : Int) + 1)
          else orgPos + (crlfPairsBefore t cur : Int))
          = orgPos + (crlfPairsBefore t (cur + 1) : Int) := by
        rw [getD_append_zero, getD_append_zero, crlfPairsBefore_succ]
        have hm := crlfPairsBefore_mono t (cur + 1) t.length (by omega)
        rw [crlfPairsBefore_succ] at hm
        by_cases hp : t.getD cur 0 = carriageReturn ∧ t.getD (cur + 1) 0 = newline
        · rw [if_pos hp] at hm
          rw [if_pos hp, if_pos hp, wrapLONG_id _ (by unfold LONG_MIN; omega)
            (by unfold LONG_MAX at hno ⊢; omega)]
          push_cast
          omega
        · rw [if_neg hp, if_neg hp]
          simp
      rw [hpos]
      obtain ⟨r, h1, h2, h3, h4⟩ := ih (cur + 1) (by omega) (by omega)
      refine ⟨r, h1, by omega, h3, ?_⟩
      intro k hk1 hk2
      by_cases hk : k = cur
      · rw [hk]; exact hc
      · exact h4 k (by omega) hk2
    · rw [if_neg hc]
      exact ⟨cur, rfl, le_refl _, hc, fun k h1 h2 => by omega⟩

end AwtTextArea

namespace AwtTextArea

theorem getJavaSelPos_loop_continue (wbuf : List Nat) (wlen : Nat) (pos : Int) (cur retval : Nat)
    (h : (cur : Int) < pos ∧ cur < wlen) :
    getJavaSelPos.loop wbuf wlen pos cur retval =
      getJavaSelPos.loop wbuf wlen
        (if wbuf.getD cur 0 = carriageReturn ∧ wbuf.getD (cur + 1) 0 = newline then
          wrapLONG (pos + 1) else pos) (cur + 1) (retval + 1) := by
  rw [getJavaSelPos.loop, if_pos h]

theorem getJavaSelPos_loop_stop (wbuf : List Nat) (wlen : Nat) (pos : Int) (cur retval : Nat)
    (h : ¬ ((cur : Int) < pos ∧ cur < wlen)) :
    getJavaSelPos.loop wbuf wlen pos cur retval = retval := by
  rw [getJavaSelPos.loop, if_neg h]

theorem getJavaSelPos_of_nonempty (text : List Nat) (m_isLFonly : Bool)
    (RemoveCR : List Nat → List Nat) (orgPos : Int) (h : text ≠ []) :
    getJavaSelPos text m_isLFonly RemoveCR orgPos =
      (getJavaSelPos.loop (loopText text m_isLFonly RemoveCR ++ [0])
        (loopText text m_isLFonly RemoveCR).length orgPos 0 0 : Nat) := by
  unfold getJavaSelPos
  have : ¬ text.length = 0 := by
    intro h0
    exact h (List.length_eq_zero.1 h0)
  rw [if_neg this]

/-- The result of `getJavaSelPos` on a non-empty text, while `pos` does not
overflow: the first index at which the condition of the loop fails. -/
theorem getJavaSelPos_first_exit (text : List Nat) (m_isLFonly : Bool)
    (RemoveCR : List Nat → List Nat) (orgPos : Int) (h : text ≠ [])
    (hno : orgPos + (crlfPairsBefore (loopText text m_isLFonly RemoveCR)
      (loopText text m_isLFonly RemoveCR).length : Int) ≤ LONG_MAX) :
    ∃ r : Nat, getJavaSelPos text m_isLFonly RemoveCR orgPos = r ∧
      ¬ ((r : Int) < orgPos + (crlfPairsBefore (loopText text m_isLFonly RemoveCR) r : Int) ∧
        r < (loopText text m_isLFonly RemoveCR).length) ∧
      ∀ k, k < r →
        ((k : Int) < orgPos + (crlfPairsBefore (loopText text m_isLFonly RemoveCR) k : Int) ∧
          k < (loopText text m_isLFonly RemoveCR).length) := by
  obtain ⟨r, h1, _, h3, h4⟩ := getJavaSelPos_loop_first_exit (loopText text m_isLFonly RemoveCR)
    orgPos hno _ 0 rfl (Nat.zero_le _)
  have h0 : crlfPairsBefore (loopText text m_isLFonly RemoveCR) 0 = 0 := by
    simp [crlfPairsBefore]
  rw [h0] at h1
  simp only [Nat.cast_zero, add_zero] at h1
  refine ⟨r, ?_, h3, fun k hk => h4 k (Nat.zero_le _) hk⟩
  rw [getJavaSelPos_of_nonempty text m_isLFonly RemoveCR orgPos h, h1]

/-- C23 (amended): `getJavaSelPos(orgPos)` returns, for every text and every
`orgPos`, a value `r` with `0 <= r <= wlen`, `wlen` being the length of the
text the loop runs over, and `r = 0` when the text is empty or `orgPos <= 0`.
As long as `orgPos` plus the number of `"\r\n"` pairs of the text does not
exceed `LONG_MAX` (so that `pos` does not overflow): for a non-empty text and
`orgPos > 0`, `r = min(wlen, orgPos + c(r))` with `c(r)` the number of indices
below `r` at which a `'\r'` is immediately followed by `'\n'`; on a non-empty
text without such a pair the result is `min(orgPos, wlen)` for `orgPos >= 0`;
and the result is monotone non-decreasing in `orgPos`. -/
theorem getJavaSelPos_result (text : List Nat) (m_isLFonly : Bool)
    (RemoveCR : List Nat → List Nat) (orgPos : Int) :
    0 ≤ getJavaSelPos text m_isLFonly RemoveCR orgPos ∧
    getJavaSelPos text m_isLFonly RemoveCR orgPos
      ≤ (loopText text m_isLFonly RemoveCR).length ∧
    (text = [] ∨ orgPos ≤ 0 → getJavaSelPos text m_isLFonly RemoveCR orgPos = 0) ∧
    (orgPos + (crlfPairsBefore (loopText text m_isLFonly RemoveCR)
        (loopText text m_isLFonly RemoveCR).length : Int) ≤ LONG_MAX →
      (text ≠ [] → 0 < orgPos →
        ∃ r : Nat, getJavaSelPos text m_isLFonly RemoveCR orgPos = r ∧
          (r : Int) = min ((loopText text m_isLFonly RemoveCR).length : Int)
            (orgPos + (crlfPairsBefore (loopText text m_isLFonly RemoveCR) r : Int))) ∧
      (text ≠ [] → 0 ≤ orgPos →
        crlfPairsBefore (loopText text m_isLFonly RemoveCR)
          (loopText text m_isLFonly RemoveCR).length = 0 →
        getJavaSelPos text m_isLFonly RemoveCR orgPos
          = min orgPos ((loopText text m_isLFonly RemoveCR).length : Int)) ∧
      (∀ orgPos' : Int, orgPos ≤ orgPos' →
        orgPos' + (crlfPairsBefore (loopText text m_isLFonly RemoveCR)
          (loopText text m_isLFonly RemoveCR).length : Int) ≤ LONG_MAX →
        getJavaSelPos text m_isLFonly RemoveCR orgPos
          ≤ getJavaSelPos text m_isLFonly RemoveCR orgPos')) := by
  by_cases ht : text = []
  · have h0 : ∀ p, getJavaSelPos text m_isLFonly RemoveCR p = 0 := by
      intro p
      unfold getJavaSelPos
      simp [ht]
    refine ⟨by rw [h0], by rw [h0]; exact Int.ofNat_nonneg _, fun _ => h0 _, fun _ => ?_⟩
    exact ⟨fun h => absurd ht h, fun h => absurd ht h, fun p _ _ => by rw [h0, h0]⟩
  · obtain ⟨b1, b2, b3⟩ := getJavaSelPos_loop_bounds
      (loopText text m_isLFonly RemoveCR ++ [0]) (loopText text m_isLFonly RemoveCR).length _
      orgPos 0 rfl
    have hval := getJavaSelPos_of_nonempty text m_isLFonly RemoveCR orgPos ht
    refine ⟨by rw [hval]; exact Int.ofNat_nonneg _, ?_, ?_, ?_⟩
    · rw [hval]
      rcases b2 with b2 | b2
      · exact_mod_cast b2
      · rw [b2]; exact_mod_cast Nat.zero_le _
    · intro h
      rcases h with h | h
      · exact absurd h ht
      · rw [hval, b3 (by simp only [Nat.cast_zero]; omega)]
        rfl
    · intro hno
      obtain ⟨r, e1, e2, e3⟩ := getJavaSelPos_first_exit text m_isLFonly RemoveCR orgPos ht hno
      have hrle : r ≤ (loopText text m_isLFonly RemoveCR).length := by
        by_cases hr : r = 0
        · omega
        · have := (e3 (r - 1) (by omega)).2
          omega
      have hrpos : 0 < orgPos →
          (r : Int) ≤ orgPos + (crlfPairsBefore (loopText text m_isLFonly RemoveCR) r : Int) := by
        intro hp
        by_cases hr : r = 0
        · rw [hr]; simp only [Nat.cast_zero]; omega
        · have h1 := (e3 (r - 1) (by omega)).1
          have h2 := crlfPairsBefore_mono (loopText text m_isLFonly RemoveCR) (r - 1) r
            (by omega)
          omega
      refine ⟨?_, ?_, ?_⟩
      · intro _ hp
        refine ⟨r, e1, ?_⟩
        have := hrpos hp
        omega
      · intro _ hp hc
        rw [e1]
        have hc0 : crlfPairsBefore (loopText text m_isLFonly RemoveCR) r = 0 := by
          have := crlfPairsBefore_mono (loopText text m_isLFonly RemoveCR) r _ hrle
          omega
        rw [hc0] at e2
        by_cases hp0 : orgPos = 0
        · have hr0 : r = 0 := by
            by_cases hr : r = 0
            · exact hr
            · have h1 := (e3 0 (by omega)).1
              have h00 : crlfPairsBefore (loopText text m_isLFonly RemoveCR) 0 = 0 := by
                simp [crlfPairsBefore]
              rw [h00] at h1
              simp only [Nat.cast_zero] at h1
              omega
          rw [hr0, hp0]
          simp only [Nat.cast_zero]
          omega
        · have := hrpos (by omega)
          rw [hc0] at this
          simp only [Nat.cast_zero, add_zero] at this e2
          omega
      · intro orgPos' hle hno'
        obtain ⟨r', e1', e2', e3'⟩ := getJavaSelPos_first_exit text m_isLFonly RemoveCR orgPos'
          ht hno'
        rw [e1, e1']
        by_contra hlt
        have hlt' : r' < r := by
          have : ¬ ((r : Int) ≤ (r' : Int)) := hlt
          omega
        have := e3 r' hlt'
        omega

end AwtTextArea

namespace AwtTextArea

/-- Witness for C23 (amended): on the sample text `"\r\nabc"` with `orgPos = 2`
no overflow can occur, and the result is `min(wlen, orgPos + c(r))`. -/
theorem getJavaSelPos_result_witness :
    (2 : Int) + (crlfPairsBefore (loopText sampleText false id)
        (loopText sampleText false id).length : Int) ≤ LONG_MAX ∧
    sampleText ≠ [] ∧ (0 : Int) < 2 ∧
    ∃ r : Nat, getJavaSelPos sampleText false id 2 = r ∧
      (r : Int) = min ((loopText sampleText false id).length : Int)
        (2 + (crlfPairsBefore (loopText sampleText false id) r : Int)) :=
  ⟨by decide, by decide, by decide,
    ((getJavaSelPos_result sampleText false id 2).2.2.2 (by decide)).1 (by decide) (by decide)⟩

/-- Counterexample to C23 as stated: on the text `"\r\nabc"` (`wlen = 5`) with
`orgPos = LONG_MAX = 2147483647`, the `"\r\n"` pair at index 0 makes `pos++`
wrap to `LONG_MIN`, so the loop stops after one step and the result is 1,
while `min(wlen, orgPos + c(1)) = min(5, 2147483648) = 5`; and the result for
the smaller `orgPos = 2147483646` is 5, so the result is not monotone. -/
theorem getJavaSelPos_overflows_at_LONG_MAX :
    getJavaSelPos sampleText false id 2147483647 = 1 ∧
    (loopText sampleText false id).length = 5 ∧
    crlfPairsBefore (loopText sampleText false id) 1 = 1 ∧
    getJavaSelPos sampleText false id 2147483647 ≠
      min ((loopText sampleText false id).length : Int)
        (2147483647 + (crlfPairsBefore (loopText sampleText false id) 1 : Int)) ∧
    getJavaSelPos sampleText false id 2147483646 = 5 ∧
    ¬ (getJavaSelPos sampleText false id 2147483646
        ≤ getJavaSelPos sampleText false id 2147483647) := by
  have h1 : getJavaSelPos sampleText false id 2147483647 = 1 := by
    rw [getJavaSelPos_of_nonempty _ _ _ _ (by decide)]
    rw [getJavaSelPos_loop_continue _ _ _ _ _ (by decide)]
    rw [getJavaSelPos_loop_stop _ _ _ _ _ (by decide)]
    rfl
  have h2 : getJavaSelPos sampleText false id 2147483646 = 5 := by
    rw [getJavaSelPos_of_nonempty _ _ _ _ (by decide)]
    rw [getJavaSelPos_loop_continue _ _ _ _ _ (by decide)]
    rw [getJavaSelPos_loop_continue _ _ _ _ _ (by decide)]
    rw [getJavaSelPos_loop_continue _ _ _ _ _ (by decide)]
    rw [getJavaSelPos_loop_continue _ _ _ _ _ (by decide)]
    rw [getJavaSelPos_loop_continue _ _ _ _ _ (by decide)]
    rw [getJavaSelPos_loop_stop _ _ _ _ _ (by decide)]
    rfl
  have h3 : (loopText sampleText false id).length = 5 := by decide
  have h4 : crlfPairsBefore (loopText sampleText false id) 1 = 1 := by decide
  refine ⟨h1, h3, h4, ?_, h2, ?_⟩
  · rw [h1, h3, h4]
    decide
  · rw [h1, h2]
    decide

end AwtTextArea

namespace AwtTextArea

theorem wheelDelta_range (msg : MSG) : -32768 ≤ wheelDelta msg ∧ wheelDelta msg ≤ 32767 := by
  unfold wheelDelta
  simp only []
  split <;> omega

theorem tmod_WHEEL_DELTA_abs (a : Int) : |a.tmod WHEEL_DELTA| < WHEEL_DELTA := by
  unfold WHEEL_DELTA
  rw [abs_lt]
  cases a with
  | ofNat n =>
    have : Int.tmod (Int.ofNat n) 120 = ((n % 120 : Nat) : Int) := rfl
    rw [this]
    omega
  | negSucc n =>
    have : Int.tmod (Int.negSucc n) 120 = -(((n + 1) % 120 : Nat) : Int) := rfl
    rw [this]
    omega

/-- The accumulator selected by a wheel message afterwards, from its old value
(with a non-zero scroll-lines setting), as `HandleEvent` computes it while
`old + delta` stays within `LONG`. -/
theorem HandleEvent_wheel (env : WheelEnv) (s : DeltaAccum) (msg : MSG)
    (hm : msg.message = WM_MOUSEWHEEL) (hp : env.platfScrollLines ≠ 0) (ht : env.tmHeight ≠ 0)
    (hH : |s.m_lHDeltaAccum| < WHEEL_DELTA) (hV : |s.m_lVDeltaAccum| < WHEEL_DELTA) :
    ∃ sent, HandleEvent env s msg = some
      (if scrollsHorizontally env = true then
        { s with m_lHDeltaAccum :=
            if |s.m_lHDeltaAccum + wheelDelta msg| < WHEEL_DELTA
                ∨ env.platfScrollLines = WHEEL_PAGESCROLL then 0
            else (s.m_lHDeltaAccum + wheelDelta msg).tmod WHEEL_DELTA }
      else
        { s with m_lVDeltaAccum :=
            if |s.m_lVDeltaAccum + wheelDelta msg| < WHEEL_DELTA
                ∨ env.platfScrollLines = WHEEL_PAGESCROLL then 0
            else (s.m_lVDeltaAccum + wheelDelta msg).tmod WHEEL_DELTA }, sent) := by
  obtain ⟨d1, d2⟩ := wheelDelta_range msg
  have key : ∀ old : Int, |old| < WHEEL_DELTA →
      wrapLONG (old + wheelDelta msg) = old + wheelDelta msg ∧
      wrapLONG |old + wheelDelta msg| = |old + wheelDelta msg| := by
    intro old ho
    unfold WHEEL_DELTA at ho
    rw [abs_lt] at ho
    have e1 : wrapLONG (old + wheelDelta msg) = old + wheelDelta msg :=
      wrapLONG_id _ (by unfold LONG_MIN; omega) (by unfold LONG_MAX; omega)
    refine ⟨e1, ?_⟩
    rcases abs_cases (old + wheelDelta msg) with ⟨e, _⟩ | ⟨e, _⟩ <;> rw [e] <;>
      exact wrapLONG_id _ (by unfold LONG_MIN; omega) (by unfold LONG_MAX; omega)
  unfold HandleEvent
  rw [if_pos hm, if_pos (Nat.pos_of_ne_zero hp), if_neg ht]
  simp only []
  cases scrollsHorizontally env
  · obtain ⟨e1, e2⟩ := key _ hV
    simp only [Bool.false_eq_true, if_false]
    rw [e1, e2]
    by_cases hge : |s.m_lVDeltaAccum + wheelDelta msg| ≥ WHEEL_DELTA
    · rw [if_pos hge]
      by_cases hpg : env.platfScrollLines = WHEEL_PAGESCROLL
      · rw [if_pos hpg, if_pos (Or.inr hpg)]
        exact ⟨_, rfl⟩
      · rw [if_neg hpg, if_neg (by rintro (h | h); exact absurd hge (not_le.2 h); exact hpg h)]
        exact ⟨_, rfl⟩
    · rw [if_neg hge, if_pos (Or.inl (not_le.1 hge))]
      exact ⟨_, rfl⟩
  · obtain ⟨e1, e2⟩ := key _ hH
    simp only [if_true]
    rw [e1, e2]
    by_cases hge : |s.m_lHDeltaAccum + wheelDelta msg| ≥ WHEEL_DELTA
    · rw [if_pos hge]
      by_cases hpg : env.platfScrollLines = WHEEL_PAGESCROLL
      · rw [if_pos hpg, if_pos (Or.inr hpg)]
        exact ⟨_, rfl⟩
      · rw [if_neg hpg, if_neg (by rintro (h | h); exact absurd hge (not_le.2 h); exact hpg h)]
        exact ⟨_, rfl⟩
    · rw [if_neg hge, if_pos (Or.inl (not_le.1 hge))]
      exact ⟨_, rfl⟩

/-- A message that is no wheel message, or arrives with the scroll-lines
setting 0, leaves both accumulators as they are and sends nothing. -/
theorem HandleEvent_skip (env : WheelEnv) (s : DeltaAccum) (msg : MSG)
    (h : msg.message ≠ WM_MOUSEWHEEL ∨ env.platfScrollLines = 0) :
    HandleEvent env s msg = some (s, []) := by
  unfold HandleEvent
  rcases h with h | h
  · rw [if_neg h]
  · by_cases hm : msg.message = WM_MOUSEWHEEL
    · rw [if_pos hm, if_neg (by omega)]
    · rw [if_neg hm]

/-- With a non-zero scroll-lines setting a wheel message faults on a zero font
height. -/
theorem HandleEvent_fault (env : WheelEnv) (s : DeltaAccum) (msg : MSG)
    (hm : msg.message = WM_MOUSEWHEEL) (hp : env.platfScrollLines ≠ 0) (ht : env.tmHeight = 0) :
    HandleEvent env s msg = none := by
  unfold HandleEvent
  rw [if_pos hm, if_pos (Nat.pos_of_ne_zero hp), if_pos ht]

theorem newAccum_abs (old d : Int) (P : Prop) [Decidable P] :
    |(if |old + d| < WHEEL_DELTA ∨ P then (0 : Int) else (old + d).tmod WHEEL_DELTA)|
      < WHEEL_DELTA := by
  split
  · simp [WHEEL_DELTA]
  · exact tmod_WHEEL_DELTA_abs _

/-- Every step of `HandleEvent` keeps both accumulators below `WHEEL_DELTA`
in absolute value. -/
theorem HandleEvent_keeps_bound (env : WheelEnv) (s s' : DeltaAccum) (msg : MSG)
    (sent : List ScrollMessage) (h : HandleEvent env s msg = some (s', sent))
    (hH : |s.m_lHDeltaAccum| < WHEEL_DELTA) (hV : |s.m_lVDeltaAccum| < WHEEL_DELTA) :
    |s'.m_lHDeltaAccum| < WHEEL_DELTA ∧ |s'.m_lVDeltaAccum| < WHEEL_DELTA := by
  by_cases hs : msg.message ≠ WM_MOUSEWHEEL ∨ env.platfScrollLines = 0
  · rw [HandleEvent_skip env s msg hs] at h
    injection h with h
    injection h with h _
    rw [← h]
    exact ⟨hH, hV⟩
  · have hm : msg.message = WM_MOUSEWHEEL := by
      by_contra hm
      exact hs (Or.inl hm)
    have hp : env.platfScrollLines ≠ 0 := fun hp => hs (Or.inr hp)
    by_cases ht : env.tmHeight = 0
    · rw [HandleEvent_fault env s msg hm hp ht] at h
      exact absurd h (by simp)
    · obtain ⟨sent', e⟩ := HandleEvent_wheel env s msg hm hp ht hH hV
      rw [e] at h
      injection h with h
      injection h with h _
      rw [← h]
      cases scrollsHorizontally env
      · simp only [Bool.false_eq_true, if_false]
        exact ⟨hH, newAccum_abs _ _ _⟩
      · simp only [if_true]
        exact ⟨newAccum_abs _ _ _, hV⟩

theorem ReachableAccum_bound (s : DeltaAccum) (h : ReachableAccum s) :
    |s.m_lHDeltaAccum| < WHEEL_DELTA ∧ |s.m_lVDeltaAccum| < WHEEL_DELTA := by
  induction h with
  | constructed => simp [ctor, WHEEL_DELTA]
  | handled env s s' msg sent _ hstep ih => exact HandleEvent_keeps_bound env s s' msg sent hstep ih.1 ih.2

end AwtTextArea

namespace AwtTextArea

/-- C24: both wheel accumulators start at 0, and in every state reached from
there by `HandleEvent` each has absolute value below `WHEEL_DELTA`.  A
`WM_MOUSEWHEEL` message, with any 16-bit signed delta and any scroll-lines
setting (the font height being non-zero when the setting is not 0, so that the
division by it is defined), is processed and leaves such a state again: with
the setting 0 no accumulator is selected and both are unchanged; otherwise the
accumulator that is not selected is unchanged, and the selected one becomes 0
when `|old + delta| < WHEEL_DELTA` or page scrolling is configured, and
`(old + delta) rem WHEEL_DELTA` otherwise. -/
theorem wheel_accumulator_invariant :
    (ctor.m_lHDeltaAccum = 0 ∧ ctor.m_lVDeltaAccum = 0) ∧
    (∀ s : DeltaAccum, ReachableAccum s →
      |s.m_lHDeltaAccum| < WHEEL_DELTA ∧ |s.m_lVDeltaAccum| < WHEEL_DELTA) ∧
    (∀ (env : WheelEnv) (s : DeltaAccum) (msg : MSG), ReachableAccum s →
      msg.message = WM_MOUSEWHEEL →
      (env.platfScrollLines ≠ 0 → env.tmHeight ≠ 0) →
      ∃ (s' : DeltaAccum) (sent : List ScrollMessage),
        HandleEvent env s msg = some (s', sent) ∧
        |s'.m_lHDeltaAccum| < WHEEL_DELTA ∧ |s'.m_lVDeltaAccum| < WHEEL_DELTA ∧
        (env.platfScrollLines = 0 → s' = s) ∧
        (env.platfScrollLines ≠ 0 → scrollsHorizontally env = true →
          s'.m_lVDeltaAccum = s.m_lVDeltaAccum ∧
          s'.m_lHDeltaAccum =
            if |s.m_lHDeltaAccum + wheelDelta msg| < WHEEL_DELTA
                ∨ env.platfScrollLines = WHEEL_PAGESCROLL then 0
            else (s.m_lHDeltaAccum + wheelDelta msg).tmod WHEEL_DELTA) ∧
        (env.platfScrollLines ≠ 0 → scrollsHorizontally env = false →
          s'.m_lHDeltaAccum = s.m_lHDeltaAccum ∧
          s'.m_lVDeltaAccum =
            if |s.m_lVDeltaAccum + wheelDelta msg| < WHEEL_DELTA
                ∨ env.platfScrollLines = WHEEL_PAGESCROLL then 0
            else (s.m_lVDeltaAccum + wheelDelta msg).tmod WHEEL_DELTA)) := by
  refine ⟨⟨rfl, rfl⟩, ReachableAccum_bound, ?_⟩
  intro env s msg hs hm ht
  obtain ⟨hH, hV⟩ := ReachableAccum_bound s hs
  by_cases hp : env.platfScrollLines = 0
  · refine ⟨s, [], HandleEvent_skip env s msg (Or.inr hp), hH, hV, fun _ => rfl,
      fun h => absurd hp h, fun h => absurd hp h⟩
  · obtain ⟨sent, e⟩ := HandleEvent_wheel env s msg hm hp (ht hp) hH hV
    obtain ⟨bH, bV⟩ := HandleEvent_keeps_bound env s _ msg sent e hH hV
    refine ⟨_, sent, e, bH, bV, fun h => absurd h hp, ?_, ?_⟩
    · intro _ hh
      rw [if_pos hh]
      exact ⟨rfl, rfl⟩
    · intro _ hh
      rw [if_neg (by rw [hh]; decide)]
      exact ⟨rfl, rfl⟩

/-- Witness for C24: a freshly constructed text area with a vertical scroll
bar and the scroll-lines setting 3 receives a wheel message of delta 130; the
vertical accumulator becomes `130 rem 120 = 10` and the horizontal one stays
0. -/
theorem wheel_accumulator_invariant_witness :
    ReachableAccum ctor ∧ (sampleWheel 130).message = WM_MOUSEWHEEL ∧
    (sampleEnv 3).tmHeight ≠ 0 ∧
    ∃ (s' : DeltaAccum) (sent : List ScrollMessage),
      HandleEvent (sampleEnv 3) ctor (sampleWheel 130) = some (s', sent) ∧
      s'.m_lHDeltaAccum = 0 ∧ s'.m_lVDeltaAccum = 10 := by
  refine ⟨ReachableAccum.constructed, by decide, by decide, ?_⟩
  obtain ⟨s', sent, h, _, _, _, _, hv⟩ :=
    wheel_accumulator_invariant.2.2 (sampleEnv 3) ctor (sampleWheel 130)
      ReachableAccum.constructed (by decide) (fun _ => by decide)
  obtain ⟨h1, h2⟩ := hv (by decide) (by decide)
  refine ⟨s', sent, h, h1, ?_⟩
  rw [h2]
  decide

end AwtTextArea
